import Mathlib

/-!
# Rental platform: booking, return and settlement

A shallow embedding of the booking core of the rental platform:

* `internal/models/car.go`            the car status constants,
* `internal/database/postgres.go`     `RunInTenantScope`,
* `internal/handlers/booking_handler.go`  `CreateBooking` and `ReturnCar`,
* `internal/handlers/widget.go`       `PublicBook`,
* `internal/handlers/payment_handler.go`  `CreatePaymentIntent` and
  `HandleStripeWebhook`,
* `internal/handlers/car_handler.go`  `CreateCar` and `UpdateCar`,
* `internal/repository/car_repository.go`  `Create`, `GetByID` and `Update`,
* `internal/middleware/tenant.go`     `TenantMiddleware`,
* `internal/auth/auth.go`             `AuthMiddleware`,
* `internal/middleware/tenant_test.go`  the two units of work of
  `TestTenantIsolation`.

A tenant partition is a record of four tables, each a list of rows.  A handler
is a function from the request, the environment of the call (which storage
operations fail, which identifiers the database generates, whether the payment
processor accepts a capture) and the world before the call to the response,
the world after the call and the trace of the calls the handler made.

Machine arithmetic is explicit: Go `int` is taken at 64 bits and wraps,
`time.Time.Sub` saturates, and `Duration.Hours` followed by the division by 24
is computed in binary64 with round to nearest, ties to even.  An instant is
written to the database cut to whole microseconds.
-/

namespace RentalSaas

/-! ## Data model -/

/-- The Go type `models.CarStatus`: a string type. -/
abbrev CarStatus := String

/-- The constant `models.CarStatusAvailable`. -/
def CarStatusAvailable : CarStatus := "available"

/-- The constant `models.CarStatusRented`. -/
def CarStatusRented : CarStatus := "rented"

/-- The constant `models.CarStatusInspecting`. -/
def CarStatusInspecting : CarStatus := "inspecting"

/-- The constant `models.CarStatusMaintenance`. -/
def CarStatusMaintenance : CarStatus := "maintenance"

/-- An instant (`time.Time`), in nanoseconds on the time line.  The database
keeps timestamps at microsecond resolution, so the instants read back from it
are whole microseconds. -/
abbrev Time := Int

/-- A row of the `cars` table (audit timestamps left out). -/
structure Car where
  id : String
  make : String
  model : String
  year : Int
  licensePlate : String
  status : CarStatus
  dailyRateCents : Int
  odometer : Int
  imageURL : String
deriving DecidableEq, Repr

/-- A row of the `customers` table. -/
structure Customer where
  id : String
  email : String
  firstName : String
  lastName : String
deriving DecidableEq, Repr

/-- A row of the `bookings` table.  The three settlement columns are NULL until
the booking is returned. -/
structure Booking where
  id : String
  carID : String
  customerID : String
  startTime : Time
  endTime : Time
  status : String
  finalOdometer : Option Int
  damageCostCents : Option Int
  totalAmountCents : Option Int
deriving DecidableEq, Repr

/-- A row of the `payments` table. -/
structure Payment where
  bookingID : String
  stripeIntentID : String
  amountCents : Int
  status : String
deriving DecidableEq, Repr

/-- A row of the directory `public.tenants`, which lives outside every tenant
partition. -/
structure Tenant where
  id : String
  subdomain : String
  schemaName : String
deriving DecidableEq, Repr

/-- One tenant partition (a schema): its four tables. -/
structure DB where
  cars : List Car
  customers : List Customer
  bookings : List Booking
  payments : List Payment
deriving DecidableEq, Repr

/-- A capture the payment processor has performed. -/
structure Capture where
  intent : String
  key : String
  amount : Int
deriving DecidableEq, Repr

/-- The state of the external payment processor: the captures it has performed,
oldest first. -/
structure Stripe where
  captures : List Capture
deriving DecidableEq, Repr

/-- Everything a handler can read or change: the tenant directory, the tenant
partitions by schema name (`none`: no such schema), and the processor. -/
structure World where
  tenants : List Tenant
  schemas : String → Option DB
  stripe : Stripe

/-- The world in which partition `t` holds `db` and nothing else differs. -/
def World.setSchema (w : World) (t : String) (db : DB) : World :=
  { w with schemas := fun s => if s = t then some db else w.schemas s }

/-- A call a handler makes to the database or to the processor.  A statement is
recorded when it is issued, also when it then fails. -/
inductive Effect where
  | poolQuery (table : String)
  | txBegin
  | setSearchPath (schema : String)
  | select (table : String)
  | insert (table : String)
  | update (table : String)
  | capture (intent : String) (key : String) (amount : Int) (ok : Bool)
  | commit
  | rollback
deriving DecidableEq, Repr

/-- The errors the handlers and `RunInTenantScope` build, one constructor for
each `fmt.Errorf` or returned driver error of the source. -/
inductive Err where
  | beginFailed
  | setSearchPathFailed
  | commitFailed
  | carNotFound
  | carNotAvailable (status : CarStatus)
  | carUnavailable
  | createBookingFailed
  | updateCarStatusFailed
  | bookingNotFoundOrPaymentMissing
  | bookingAlreadyCompleted
  | bookingCancelled
  | capturePaymentFailed
  | execFailed
  | createCustomerFailed
  | lookupCustomerFailed
  | invalidRequestBody
  | damageCostNegative
  | tenantContextMissing
  | missingTenantID
  | invalidTenantID
  | tenantNotFound
deriving DecidableEq, Repr

/-- The text `err.Error()` starts with (the wrapped driver error, where there is
one, follows it). -/
def Err.message : Err → String
  | .beginFailed => "begin"
  | .setSearchPathFailed => "failed to set search_path: "
  | .commitFailed => "commit"
  | .carNotFound => "car not found: "
  | .carNotAvailable status => "car is not available (status: " ++ status ++ ")"
  | .carUnavailable => "car is not available"
  | .createBookingFailed => "failed to create booking: "
  | .updateCarStatusFailed => "failed to update car status: "
  | .bookingNotFoundOrPaymentMissing => "booking not found or payment missing: "
  | .bookingAlreadyCompleted => "booking already completed"
  | .bookingCancelled => "booking is cancelled"
  | .capturePaymentFailed => "failed to capture payment: "
  | .execFailed => "exec"
  | .createCustomerFailed => "failed to create customer: "
  | .lookupCustomerFailed => "failed to lookup customer: "
  | .invalidRequestBody => "Invalid request body"
  | .damageCostNegative => "Damage cost cannot be negative"
  | .tenantContextMissing => "Tenant context missing"
  | .missingTenantID => "Missing tenant_id"
  | .invalidTenantID => "Invalid tenant_id"
  | .tenantNotFound => "Tenant not found"

/-- An HTTP response: the status code and, for `http.Error`, the error. -/
structure Response where
  code : Nat
  error : Option Err
deriving DecidableEq, Repr

/-- What lies outside the source and decides a call: which storage operations
fail, the identifiers the database generates, the verdict of `uuid.Parse`, and
whether the processor refuses a capture.  `stmtFails k` is about the statement
at site `k` of the unit of work, the sites numbered in source order from 0. -/
structure Env where
  poolQueryFails : Bool
  beginFails : Bool
  setSearchPathFails : Bool
  stmtFails : Nat → Bool
  commitFails : Bool
  newBookingID : String
  newCustomerID : String
  uuidParses : String → Bool
  captureFails : Bool

/-- The environment in which every storage operation and every capture
succeeds. -/
def Env.healthy (env : Env) : Prop :=
  env.poolQueryFails = false ∧ env.beginFails = false ∧ env.setSearchPathFails = false ∧
  (∀ k, env.stmtFails k = false) ∧ env.commitFails = false ∧ env.captureFails = false

/-- What a handler call produces. -/
structure Outcome where
  resp : Response
  world : World
  trace : List Effect

/-! ## Machine arithmetic -/

/-- A Go `int` (64 bits, two's complement): the value an integer result wraps
to.  The language specification: for signed integers the operations `+`, `-`
and `*` may overflow, and the resulting value is defined by the signed integer
representation. -/
def wrapInt64 (x : Int) : Int := (x + 2 ^ 63) % 2 ^ 64 - 2 ^ 63

/-- The constant `time.Hour`, in nanoseconds. -/
def Hour : Int := 3600000000000

/-- The largest `time.Duration`. -/
def maxDuration : Int := 2 ^ 63 - 1

/-- The smallest `time.Duration`. -/
def minDuration : Int := -(2 ^ 63)

/-- The method `time.Time.Sub`: the duration `t - u`.  Its documentation: if the
result exceeds the maximum (or minimum) value that can be stored in a Duration,
the maximum (or minimum) duration will be returned. -/
def Sub (t u : Time) : Int :=
  if t - u > maxDuration then maxDuration
  else if t - u < minDuration then minDuration
  else t - u

/-- A rational number `num / den`, the exact value of a floating-point operand
or result. -/
structure Frac where
  num : Int
  den : Nat
deriving DecidableEq, Repr

/-- The nearest natural number to `n / d`, a tie going to the even one. -/
def rne (n d : Nat) : Nat :=
  let q := n / d
  let r := n % d
  if 2 * r < d then q else if d < 2 * r then q + 1 else if q % 2 = 0 then q else q + 1

/-- The number of halvings that take `n` below 2, by recursion on the fuel. -/
def log2Fuel : Nat → Nat → Nat
  | 0, _ => 0
  | fuel + 1, n => if n < 2 then 0 else log2Fuel fuel (n / 2) + 1

/-- The binary logarithm of `n`, rounded down (0 at 0). -/
def log2 (n : Nat) : Nat := log2Fuel n n

/-- The binary exponent of `n / d`: the `E` with `2 ^ E ≤ n / d < 2 ^ (E + 1)`. -/
def binExp (n d : Nat) : Int :=
  let a := log2 n
  let b := log2 d
  if d * 2 ^ (a - b) ≤ n * 2 ^ (b - a) then (a : Int) - b else (a : Int) - b - 1

/-- The binary64 number nearest to `x`, ties to even: 53 significant bits, the
exponent unbounded (the values of this development stay far inside the normal
range). -/
def round64 (x : Frac) : Frac :=
  if x.num = 0 then ⟨0, 1⟩ else
  let n := x.num.natAbs
  let e := binExp n x.den - 52
  let m := rne (n * 2 ^ (-e).toNat) (x.den * 2 ^ e.toNat)
  ⟨x.num.sign * (m * 2 ^ e.toNat : Nat), 2 ^ (-e).toNat⟩

/-- The conversion `float64(i)` before rounding. -/
def Frac.ofInt (i : Int) : Frac := ⟨i, 1⟩

/-- The exact sum of two operands. -/
def Frac.add (x y : Frac) : Frac := ⟨x.num * y.den + y.num * x.den, x.den * y.den⟩

/-- The exact quotient of an operand by a positive constant. -/
def Frac.divNat (x : Frac) (k : Nat) : Frac := ⟨x.num, x.den * k⟩

/-- The conversion `int(f)`: the fraction is dropped. -/
def Frac.trunc (x : Frac) : Int := Int.tdiv x.num x.den

/-- The method `time.Duration.Hours`:
`hour := d / Hour; nsec := d % Hour; float64(hour) + float64(nsec)/(60*60*1e9)`,
every operation rounded to binary64. -/
def Hours (d : Int) : Frac :=
  let hour := Int.tdiv d Hour
  let nsec := Int.tmod d Hour
  round64 (Frac.add (round64 (Frac.ofInt hour))
    (round64 (Frac.divNat (round64 (Frac.ofInt nsec)) 3600000000000)))

/-- The days `ReturnCar` bills:
`days := int(endTime.Sub(startTime).Hours() / 24); if days < 1 { days = 1 }`. -/
def billedDays (startTime endTime : Time) : Int :=
  let days := Frac.trunc (round64 (Frac.divNat (Hours (Sub endTime startTime)) 24))
  if days < 1 then 1 else days

/-- The amount `ReturnCar` captures and stores:
`rentalCost := days * dailyRateCents; finalAmount := rentalCost + req.DamageCostCents`. -/
def finalAmount (startTime endTime : Time) (dailyRateCents damageCostCents : Int) : Int :=
  let rentalCost := wrapInt64 (billedDays startTime endTime * dailyRateCents)
  wrapInt64 (rentalCost + damageCostCents)

/-! ## The transactional unit -/

/-- What a unit of work leaves behind: its error or its value with the
partition as the unit wrote it, the processor, and the calls it made. -/
structure WorkResult (α : Type) where
  result : Except Err (α × DB)
  stripe : Stripe
  trace : List Effect

/-- A unit of work (the `fn` of `RunInTenantScope`): given which of its
statements fail, the partition and the processor. -/
abbrev Work (α : Type) := (Nat → Bool) → DB → Stripe → WorkResult α

/-- What `RunInTenantScope` returns, with the world after it. -/
structure ScopeResult (α : Type) where
  result : Except Err α
  world : World
  trace : List Effect

/-- The partition with no rows. -/
def DB.empty : DB := ⟨[], [], [], []⟩

/-- The function `database.RunInTenantScope`.  `w.schemas tenantID` is the
partition the statement `SET LOCAL search_path TO` with the sanitized
identifier selects; when there is no such schema every statement of the unit
fails.  The writes of the unit reach the world only through `Commit`; the
processor is outside the transaction and keeps what the unit did to it.  The
deferred `Rollback` after a `Commit` does nothing and is not recorded. -/
def RunInTenantScope {α : Type} (env : Env) (tenantID : String) (fn : Work α) (w : World) :
    ScopeResult α :=
  if env.beginFails then ⟨.error .beginFailed, w, [.txBegin]⟩
  else if env.setSearchPathFails then
    ⟨.error .setSearchPathFailed, w, [.txBegin, .setSearchPath tenantID, .rollback]⟩
  else
    let r := match w.schemas tenantID with
      | some db => fn env.stmtFails db w.stripe
      | none => fn (fun _ => true) DB.empty w.stripe
    let w1 : World := { w with stripe := r.stripe }
    let pre := [Effect.txBegin, Effect.setSearchPath tenantID] ++ r.trace
    match r.result with
    | .error e => ⟨.error e, w1, pre ++ [.rollback]⟩
    | .ok (a, db1) =>
      if env.commitFails then ⟨.error .commitFailed, w1, pre ++ [.commit]⟩
      else
        match w.schemas tenantID with
        | some _ => ⟨.ok a, w1.setSchema tenantID db1, pre ++ [.commit]⟩
        | none => ⟨.ok a, w1, pre ++ [.commit]⟩

/-! ## CreateBooking -/

/-- The Go type `CreateBookingRequest`. -/
structure CreateBookingRequest where
  CarID : String
  CustomerID : String
  StartTime : Time
  EndTime : Time
deriving DecidableEq, Repr

/-- An authenticated request: the decoded JSON body (`none` when it does not
decode) and the string stored under `middleware.TenantKey` (`none` when there
is none). -/
structure Request (β : Type) where
  body : Option β
  tenant : Option String

/-- The statement `UPDATE cars SET status = $1 WHERE id = $2`. -/
def setCarStatus (db : DB) (status : CarStatus) (carID : String) : DB :=
  { db with cars := db.cars.map fun c => if c.id = carID then { c with status := status } else c }

/-- The instant the database keeps for a Go instant: the timestamp columns have
microsecond resolution, and the driver encodes a `time.Time` as
`t.Unix()*1000000 + int64(t.Nanosecond())/1000`, which drops the nanoseconds
below the microsecond (towards the past, also before the epoch). -/
def storedTime (t : Int) : Int := t / 1000 * 1000

/-- The row `INSERT INTO bookings (car_id, customer_id, start_time, end_time, status)
VALUES ($1, $2, $3, $4, 'pending')` adds, `id` being the generated key; the two
instants are stored at the resolution of their columns. -/
def pendingBooking (id carID customerID : String) (startTime endTime : Time) : Booking :=
  ⟨id, carID, customerID, storedTime startTime, storedTime endTime, "pending", none, none,
    none⟩

/-- The statement that inserts a pending booking. -/
def insertBooking (db : DB) (b : Booking) : DB :=
  { db with bookings := db.bookings ++ [b] }

/-- The unit of work of `CreateBooking` (lines 48 to 79): lock the car row,
check availability, insert the booking, mark the car rented. -/
def createBookingWork (env : Env) (req : CreateBookingRequest) : Work Unit :=
  fun stmtFails db stripe =>
    if stmtFails 0 then ⟨.error .carNotFound, stripe, [.select "cars"]⟩
    else
      match db.cars.find? (fun c => c.id = req.CarID) with
      | none => ⟨.error .carNotFound, stripe, [.select "cars"]⟩
      | some car =>
        if car.status ≠ CarStatusAvailable then
          ⟨.error (.carNotAvailable car.status), stripe, [.select "cars"]⟩
        else if stmtFails 1 then
          ⟨.error .createBookingFailed, stripe, [.select "cars", .insert "bookings"]⟩
        else
          let db1 := insertBooking db
            (pendingBooking env.newBookingID req.CarID req.CustomerID req.StartTime req.EndTime)
          if stmtFails 2 then
            ⟨.error .updateCarStatusFailed, stripe,
              [.select "cars", .insert "bookings", .update "cars"]⟩
          else
            ⟨.ok ((), setCarStatus db1 CarStatusRented req.CarID), stripe,
              [.select "cars", .insert "bookings", .update "cars"]⟩

/-- The handler `BookingHandler.CreateBooking`. -/
def CreateBooking (env : Env) (r : Request CreateBookingRequest) (w : World) : Outcome :=
  match r.body with
  | none => ⟨⟨400, some .invalidRequestBody⟩, w, []⟩
  | some req =>
    match r.tenant with
    | none => ⟨⟨500, some .tenantContextMissing⟩, w, []⟩
    | some tenantID =>
      let s := RunInTenantScope env tenantID (createBookingWork env req) w
      match s.result with
      | .error e => ⟨⟨409, some e⟩, s.world, s.trace⟩
      | .ok _ => ⟨⟨201, none⟩, s.world, s.trace⟩

/-! ## PublicBook -/

/-- The Go type `PublicBookRequest`. -/
structure PublicBookRequest where
  CarID : String
  StartDate : Time
  EndDate : Time
  CustomerEmail : String
  CustomerName : String
deriving DecidableEq, Repr

/-- A request of the public widget: the query parameter `tenant_id` (empty when
absent) and the decoded JSON body (`none` when it does not decode). -/
structure PublicRequest where
  tenantID : String
  body : Option PublicBookRequest

/-- Steps 2 to 4 of the unit of work of `PublicBook` (lines 144 to 170): lock
the car row, check availability, insert the booking, mark the car rented.
`pre` is the trace of step 1. -/
def publicBookCar (env : Env) (req : PublicBookRequest) (customerID : String)
    (pre : List Effect) : Work Unit :=
  fun stmtFails db stripe =>
    if stmtFails 2 then ⟨.error .carNotFound, stripe, pre ++ [.select "cars"]⟩
    else
      match db.cars.find? (fun c => c.id = req.CarID) with
      | none => ⟨.error .carNotFound, stripe, pre ++ [.select "cars"]⟩
      | some car =>
        if car.status ≠ CarStatusAvailable then
          ⟨.error .carUnavailable, stripe, pre ++ [.select "cars"]⟩
        else if stmtFails 3 then
          ⟨.error .createBookingFailed, stripe, pre ++ [.select "cars", .insert "bookings"]⟩
        else
          let db1 := insertBooking db
            (pendingBooking env.newBookingID req.CarID customerID req.StartDate req.EndDate)
          if stmtFails 4 then
            ⟨.error .updateCarStatusFailed, stripe,
              pre ++ [.select "cars", .insert "bookings", .update "cars"]⟩
          else
            ⟨.ok ((), setCarStatus db1 CarStatusRented req.CarID), stripe,
              pre ++ [.select "cars", .insert "bookings", .update "cars"]⟩

/-- The unit of work of `PublicBook` (lines 122 to 171): find the customer by
email or create it, then book the car. -/
def publicBookWork (env : Env) (req : PublicBookRequest) : Work Unit :=
  fun stmtFails db stripe =>
    if stmtFails 0 then ⟨.error .lookupCustomerFailed, stripe, [.select "customers"]⟩
    else
      match db.customers.find? (fun c => c.email = req.CustomerEmail) with
      | some customer =>
        publicBookCar env req customer.id [.select "customers"] stmtFails db stripe
      | none =>
        if stmtFails 1 then
          ⟨.error .createCustomerFailed, stripe, [.select "customers", .insert "customers"]⟩
        else
          publicBookCar env req env.newCustomerID [.select "customers", .insert "customers"]
            stmtFails
            { db with customers := db.customers ++
                [⟨env.newCustomerID, req.CustomerEmail, req.CustomerName, ""⟩] }
            stripe

/-- The handler `WidgetHandler.PublicBook`. -/
def PublicBook (env : Env) (r : PublicRequest) (w : World) : Outcome :=
  if r.tenantID = "" then ⟨⟨400, some .missingTenantID⟩, w, []⟩
  else if env.uuidParses r.tenantID = false then ⟨⟨400, some .invalidTenantID⟩, w, []⟩
  else
    match r.body with
    | none => ⟨⟨400, some .invalidRequestBody⟩, w, []⟩
    | some req =>
      if env.poolQueryFails then ⟨⟨404, some .tenantNotFound⟩, w, [.poolQuery "public.tenants"]⟩
      else
        match w.tenants.find? (fun t => t.id = r.tenantID) with
        | none => ⟨⟨404, some .tenantNotFound⟩, w, [.poolQuery "public.tenants"]⟩
        | some tenant =>
          let s := RunInTenantScope env tenant.schemaName (publicBookWork env req) w
          match s.result with
          | .error e => ⟨⟨500, some e⟩, s.world, .poolQuery "public.tenants" :: s.trace⟩
          | .ok _ => ⟨⟨201, none⟩, s.world, .poolQuery "public.tenants" :: s.trace⟩

/-! ## Serial booking attempts -/

/-- A booking attempt: a call of `CreateBooking` or of `PublicBook`, with the
environment it runs in. -/
inductive Attempt where
  | create (env : Env) (r : Request CreateBookingRequest)
  | widget (env : Env) (r : PublicRequest)

/-- The attempt, run as one whole call. -/
def Attempt.run : Attempt → World → Outcome
  | .create env r, w => CreateBooking env r w
  | .widget env r, w => PublicBook env r w

/-- The environment of the attempt. -/
def Attempt.env : Attempt → Env
  | .create env _ => env
  | .widget env _ => env

/-- The attempt is a well-formed request for car `carID` of partition `t`: the
body decodes and names the car, and the tenant of the request resolves to `t`
(through the context for `CreateBooking`, through the directory `tenants` for
`PublicBook`). -/
def Attempt.onCar (tenants : List Tenant) (t carID : String) : Attempt → Prop
  | .create _ r => (∃ req, r.body = some req ∧ req.CarID = carID) ∧ r.tenant = some t
  | .widget env r =>
    (∃ req, r.body = some req ∧ req.CarID = carID) ∧ r.tenantID ≠ "" ∧
    env.uuidParses r.tenantID = true ∧
    ∃ tenant, tenants.find? (fun x => x.id = r.tenantID) = some tenant ∧ tenant.schemaName = t

/-- The world after the attempts have run one after another. -/
def finalWorld : List Attempt → World → World
  | [], w => w
  | a :: rest, w => finalWorld rest (a.run w).world

/-- How many of the attempts, run one after another, were answered 201. -/
def successes : List Attempt → World → Nat
  | [], _ => 0
  | a :: rest, w => (if (a.run w).resp.code = 201 then 1 else 0) + successes rest (a.run w).world

/-- The booking rows of the partition for car `carID`. -/
def bookingsFor (db : DB) (carID : String) : List Booking :=
  db.bookings.filter fun b => b.carID = carID

/-- The status of car `carID` as a `SELECT status FROM cars WHERE id = $1` reads
it (`none`: no such row). -/
def carStatus (db : DB) (carID : String) : Option CarStatus :=
  (db.cars.find? fun c => c.id = carID).map fun c => c.status

/-- The car is available and has no booking. -/
def Unbooked (tenants : List Tenant) (t carID : String) (w : World) : Prop :=
  w.tenants = tenants ∧ ∃ db, w.schemas t = some db ∧
    carStatus db carID = some CarStatusAvailable ∧ bookingsFor db carID = []

/-- The car is rented and has exactly one booking. -/
def BookedOnce (tenants : List Tenant) (t carID : String) (w : World) : Prop :=
  w.tenants = tenants ∧ ∃ db, w.schemas t = some db ∧
    carStatus db carID = some CarStatusRented ∧ (bookingsFor db carID).length = 1

/-! ## ReturnCar -/

/-- The Go type `ReturnCarRequest`. -/
structure ReturnCarRequest where
  FinalOdometer : Int
  DamageCostCents : Int
deriving DecidableEq, Repr

/-- A row of the query of step 1 of `ReturnCar`: the booking joined with its
payment, its car and its customer. -/
structure ReturnRow where
  carID : String
  startTime : Time
  endTime : Time
  status : String
  stripeIntentID : String
  dailyRateCents : Int
  customerEmail : String
  firstName : String
  lastName : String
  carMake : String
  carModel : String
deriving DecidableEq, Repr

/-- The rows of `SELECT ... FROM bookings b JOIN payments p ON b.id = p.booking_id
JOIN cars c ON b.car_id = c.id JOIN customers cust ON b.customer_id = cust.id
WHERE b.id = $1`, in nested-loop order. -/
def returnJoin (db : DB) (bookingID : String) : List ReturnRow :=
  (db.bookings.filter fun b => b.id = bookingID).flatMap fun b =>
    (db.payments.filter fun p => p.bookingID = b.id).flatMap fun p =>
      (db.cars.filter fun c => c.id = b.carID).flatMap fun c =>
        (db.customers.filter fun cust => cust.id = b.customerID).map fun cust =>
          ⟨b.carID, b.startTime, b.endTime, b.status, p.stripeIntentID, c.dailyRateCents,
            cust.email, cust.firstName, cust.lastName, c.make, c.model⟩

/-- The statement `UPDATE bookings SET status = 'completed', final_odometer = $1,
damage_cost_cents = $2, total_amount_cents = $3 WHERE id = $4`. -/
def completeBooking (db : DB) (finalOdometer damageCostCents totalAmountCents : Int)
    (bookingID : String) : DB :=
  { db with bookings := db.bookings.map fun b =>
      if b.id = bookingID then
        { b with status := "completed", finalOdometer := some finalOdometer,
                 damageCostCents := some damageCostCents,
                 totalAmountCents := some totalAmountCents }
      else b }

/-- The statement `UPDATE cars SET status = $1, odometer = $2 WHERE id = $3`. -/
def setCarReturned (db : DB) (status : CarStatus) (odometer : Int) (carID : String) : DB :=
  { db with cars := db.cars.map fun c =>
      if c.id = carID then { c with status := status, odometer := odometer } else c }

/-- The statement `UPDATE payments SET status = 'captured', amount_cents = $1
WHERE stripe_intent_id = $2`. -/
def setPaymentCaptured (db : DB) (amountCents : Int) (stripeIntentID : String) : DB :=
  { db with payments := db.payments.map fun p =>
      if p.stripeIntentID = stripeIntentID then
        { p with status := "captured", amountCents := amountCents }
      else p }

/-- Modelled from the spec: the capture operation of the external payment
processor behind `paymentintent.Capture`, which is not part of the repository.
A request whose idempotency token the processor has already captured under is
a no-op that reports success; any other request is refused when `fails` holds
and otherwise performed and recorded. -/
def Stripe.capture (s : Stripe) (fails : Bool) (intent key : String) (amount : Int) :
    Bool × Stripe :=
  if s.captures.any (fun c => c.key = key) then (true, s)
  else if fails then (false, s)
  else (true, ⟨s.captures ++ [⟨intent, key, amount⟩]⟩)

/-- The idempotency key of the capture: `"capture_" + bookingID`. -/
def captureKey (bookingID : String) : String := "capture_" ++ bookingID

/-- The status `ReturnCar` gives the car: `available`, or `maintenance` when
there is damage to pay. -/
def newCarStatus (damageCostCents : Int) : CarStatus :=
  if damageCostCents > 0 then CarStatusMaintenance else CarStatusAvailable

/-- Step 5 of the unit of work of `ReturnCar` (lines 178 to 213): the three
UPDATE statements, after a capture of `amount` that succeeded. -/
def returnCarUpdates (bookingID : String) (req : ReturnCarRequest) (row : ReturnRow)
    (amount : Int) (pre : List Effect) : Work Unit :=
  fun stmtFails db stripe =>
    if stmtFails 1 then ⟨.error .execFailed, stripe, pre ++ [.update "bookings"]⟩
    else
      let db1 := completeBooking db req.FinalOdometer req.DamageCostCents amount bookingID
      if stmtFails 2 then
        ⟨.error .execFailed, stripe, pre ++ [.update "bookings", .update "cars"]⟩
      else
        let db2 := setCarReturned db1 (newCarStatus req.DamageCostCents) req.FinalOdometer
          row.carID
        if stmtFails 3 then
          ⟨.error .execFailed, stripe,
            pre ++ [.update "bookings", .update "cars", .update "payments"]⟩
        else
          ⟨.ok ((), setPaymentCaptured db2 amount row.stripeIntentID), stripe,
            pre ++ [.update "bookings", .update "cars", .update "payments"]⟩

/-- The unit of work of `ReturnCar` (lines 117 to 214): fetch and lock the
booking with its payment, check the state, compute the price, capture, then
update the three rows. -/
def returnCarWork (env : Env) (bookingID : String) (req : ReturnCarRequest) : Work Unit :=
  fun stmtFails db stripe =>
    if stmtFails 0 then ⟨.error .bookingNotFoundOrPaymentMissing, stripe, [.select "bookings"]⟩
    else
      match (returnJoin db bookingID).head? with
      | none => ⟨.error .bookingNotFoundOrPaymentMissing, stripe, [.select "bookings"]⟩
      | some row =>
        if row.status = "completed" then
          ⟨.error .bookingAlreadyCompleted, stripe, [.select "bookings"]⟩
        else if row.status = "cancelled" then
          ⟨.error .bookingCancelled, stripe, [.select "bookings"]⟩
        else
          let amount := finalAmount row.startTime row.endTime row.dailyRateCents
            req.DamageCostCents
          let c := stripe.capture env.captureFails row.stripeIntentID (captureKey bookingID)
            amount
          let pre := [Effect.select "bookings",
            Effect.capture row.stripeIntentID (captureKey bookingID) amount c.1]
          if c.1 = false then ⟨.error .capturePaymentFailed, c.2, pre⟩
          else returnCarUpdates bookingID req row amount pre stmtFails db c.2

/-- The handler `BookingHandler.ReturnCar`.  `bookingID` is the URL parameter
`id`.  The invoice email sent after the response touches neither the database
nor the processor and is left out. -/
def ReturnCar (env : Env) (bookingID : String) (r : Request ReturnCarRequest) (w : World) :
    Outcome :=
  match r.body with
  | none => ⟨⟨400, some .invalidRequestBody⟩, w, []⟩
  | some req =>
    if req.DamageCostCents < 0 then ⟨⟨400, some .damageCostNegative⟩, w, []⟩
    else
      match r.tenant with
      | none => ⟨⟨500, some .tenantContextMissing⟩, w, []⟩
      | some tenantID =>
        let s := RunInTenantScope env tenantID (returnCarWork env bookingID req) w
        match s.result with
        | .error e => ⟨⟨500, some e⟩, s.world, s.trace⟩
        | .ok _ => ⟨⟨200, none⟩, s.world, s.trace⟩

/-- The captures the processor has performed under the idempotency key `key`. -/
def capturesFor (s : Stripe) (key : String) : List Capture :=
  s.captures.filter fun c => c.key = key

/-! ## Values of floating-point operands -/

/-- The rational value of an operand. -/
def Frac.val (x : Frac) : ℚ := (x.num : ℚ) / x.den

/-- The nearest integer to a rational, a tie going to the even one. -/
def rneQ (t : ℚ) : ℤ :=
  if Int.fract t < 1 / 2 then ⌊t⌋
  else if 1 / 2 < Int.fract t then ⌊t⌋ + 1
  else if ⌊t⌋ % 2 = 0 then ⌊t⌋ else ⌊t⌋ + 1

/-- Rounding to 53 significant bits as a function of the value, for values that
are not negative: what `round64` computes on the representation. -/
def fl (v : ℚ) : ℚ :=
  if v ≤ 0 then 0 else (rneQ (v / 2 ^ (Int.log 2 v - 52)) : ℚ) * 2 ^ (Int.log 2 v - 52)

/-- The operand is not negative and its denominator is positive. -/
def Frac.Nonneg (x : Frac) : Prop := 0 ≤ x.num ∧ 0 < x.den

/-- The operand is not positive and its denominator is positive. -/
def Frac.Nonpos (x : Frac) : Prop := x.num ≤ 0 ∧ 0 < x.den

/-- The amount the specification states: `days × dailyRate + damageCost` with
`days = max(1, floor((end − start) / 24h))`, in unbounded integers. -/
def statedFinalAmount (startTime endTime : Time) (dailyRateCents damageCostCents : Int) : Int :=
  max 1 ((endTime - startTime) / (24 * Hour)) * dailyRateCents + damageCostCents

/-! ## Calls and responses of the payment and car handlers -/

/-- The fields of `stripe.PaymentIntentParams` that `CreatePaymentIntent` sets;
`tenantID` and `bookingID` are the metadata entries `tenant_id` and
`booking_id`. -/
structure PaymentIntentParams where
  Amount : Int
  Currency : String
  CaptureMethod : String
  AutomaticPaymentMethods : Bool
  tenantID : String
  bookingID : String
deriving DecidableEq, Repr

/-- The fields of `stripe.PaymentIntent` the handlers read; `tenantID` is
`Metadata["tenant_id"]`, empty when the key is absent. -/
structure PaymentIntent where
  ID : String
  ClientSecret : String
  tenantID : String
deriving DecidableEq, Repr

/-- A call of the payment and car handlers: a call `RunInTenantScope` or its
unit of work makes, a statement a repository method executes (by its text), a
request to the processor for an existing authorization or for a new one, or an
upload to the object store. -/
inductive Call where
  | db (e : Effect)
  | sql (text : String)
  | intentGet (id : String)
  | intentNew (params : PaymentIntentParams)
  | upload
deriving DecidableEq, Repr

/-- The Go type `models.Car`, the value the repository scans a row into and
the car handler encodes (timestamps left out). -/
structure CarValue where
  ID : String
  Make : String
  Model : String
  LicensePlate : String
  Status : CarStatus
  DailyRateCents : Int
  ImageURL : String
deriving DecidableEq, Repr

/-- The body of a response: nothing (`WriteHeader` alone), the text of
`http.Error` (without the driver error appended to it), an encoded
`map[string]string`, or the success envelope around a car. -/
inductive Body where
  | empty
  | text (msg : String)
  | object (fields : List (String × String))
  | car (c : CarValue)
deriving DecidableEq, Repr

/-- An HTTP response of the payment and car handlers. -/
structure Reply where
  code : Nat
  body : Body
deriving DecidableEq, Repr

/-- What a call of a payment or car handler produces. -/
structure HandlerResult where
  resp : Reply
  world : World
  trace : List Call

/-! ## CreatePaymentIntent -/

/-- The Go type `CreateIntentRequest`. -/
structure CreateIntentRequest where
  BookingID : String
  Amount : Int
deriving DecidableEq, Repr

/-- What lies outside the source and decides a call of `CreatePaymentIntent`:
the storage faults of its first and of its second `RunInTenantScope`, and the
answers of the processor to `paymentintent.Get` and to `paymentintent.New`
(`none`: the call returns an error). -/
structure PayEnv where
  lookup : Env
  store : Env
  getIntent : String → Option PaymentIntent
  newIntent : PaymentIntentParams → Option PaymentIntent

/-- The unit of work of lines 51 to 53: `SELECT stripe_intent_id FROM payments
WHERE booking_id = $1`, scanned into `existingIntentID`.  `QueryRow` reads the
first row; with no row `Scan` returns an error.  The handler looks only at
whether there is an error, so the error value is immaterial. -/
def existingIntentWork (bookingID : String) : Work String :=
  fun stmtFails db stripe =>
    if stmtFails 0 then ⟨.error .execFailed, stripe, [.select "payments"]⟩
    else
      match db.payments.find? (fun p => p.bookingID = bookingID) with
      | none => ⟨.error .execFailed, stripe, [.select "payments"]⟩
      | some p => ⟨.ok (p.stripeIntentID, db), stripe, [.select "payments"]⟩

/-- The statement `INSERT INTO payments (booking_id, stripe_intent_id,
amount_cents, status) VALUES ($1, $2, $3, $4)`. -/
def insertPayment (db : DB) (p : Payment) : DB :=
  { db with payments := db.payments ++ [p] }

/-- The unit of work of lines 91 to 96: store the new authorization. -/
def storeIntentWork (req : CreateIntentRequest) (intent : PaymentIntent) : Work Unit :=
  fun stmtFails db stripe =>
    if stmtFails 0 then ⟨.error .execFailed, stripe, [.insert "payments"]⟩
    else
      ⟨.ok ((), insertPayment db ⟨req.BookingID, intent.ID, req.Amount, "pending_auth"⟩),
        stripe, [.insert "payments"]⟩

/-- The parameters of lines 71 to 82. -/
def intentParams (tenantID : String) (req : CreateIntentRequest) : PaymentIntentParams :=
  ⟨req.Amount, "usd", "manual", true, tenantID, req.BookingID⟩

/-- Lines 70 to 108 of `CreatePaymentIntent`: request a new manual-capture
authorization and store it.  `w` and `pre` are the world and the trace after
the lookup. -/
def createNewIntent (env : PayEnv) (tenantID : String) (req : CreateIntentRequest)
    (w : World) (pre : List Call) : HandlerResult :=
  let params := intentParams tenantID req
  match env.newIntent params with
  | none => ⟨⟨500, .text "Failed to create payment intent: "⟩, w, pre ++ [.intentNew params]⟩
  | some intent =>
    let s := RunInTenantScope env.store tenantID (storeIntentWork req intent) w
    let trace := pre ++ [.intentNew params] ++ s.trace.map Call.db
    match s.result with
    | .error _ => ⟨⟨500, .text "Failed to save payment record: "⟩, s.world, trace⟩
    | .ok _ => ⟨⟨200, .object [("client_secret", intent.ClientSecret)]⟩, s.world, trace⟩

/-- The handler `PaymentHandler.CreatePaymentIntent`. -/
def CreatePaymentIntent (env : PayEnv) (r : Request CreateIntentRequest) (w : World) :
    HandlerResult :=
  match r.body with
  | none => ⟨⟨400, .text "Invalid request body"⟩, w, []⟩
  | some req =>
    if req.Amount ≤ 0 then ⟨⟨400, .text "Amount must be greater than 0"⟩, w, []⟩
    else
      match r.tenant with
      | none => ⟨⟨500, .text "Tenant context missing"⟩, w, []⟩
      | some tenantID =>
        let s := RunInTenantScope env.lookup tenantID (existingIntentWork req.BookingID) w
        let pre := s.trace.map Call.db
        match s.result with
        | .error _ => createNewIntent env tenantID req s.world pre
        | .ok existingIntentID =>
          if existingIntentID ≠ "" then
            match env.getIntent existingIntentID with
            | none =>
              ⟨⟨500, .text "Failed to retrieve existing payment intent: "⟩, s.world,
                pre ++ [.intentGet existingIntentID]⟩
            | some intent =>
              ⟨⟨200, .object [("client_secret", intent.ClientSecret)]⟩, s.world,
                pre ++ [.intentGet existingIntentID]⟩
          else createNewIntent env tenantID req s.world pre

/-! ## HandleStripeWebhook -/

/-- The constant `MaxBodyBytes` of `HandleStripeWebhook`. -/
def MaxBodyBytes : Nat := 65536

/-- An event as `webhook.ConstructEvent` returns it: its type, and what
`json.Unmarshal(event.Data.Raw, &pi)` gives (`none`: it returns an error). -/
structure Event where
  type : String
  data : Option PaymentIntent
deriving DecidableEq, Repr

/-- An inbound request of the webhook endpoint: the bytes of the body and the
header `Stripe-Signature`. -/
structure WebhookRequest where
  body : String
  signature : String
deriving DecidableEq, Repr

/-- What lies outside the source and decides a call of `HandleStripeWebhook`:
whether the transport fails while the body is read, the verdict of
`webhook.ConstructEvent` on a payload and a signature header under the
configured secret (`none`: it returns an error, the signature does not verify
or the payload does not parse), and the storage faults. -/
structure HookEnv where
  readFails : Bool
  constructEvent : String → String → Option Event
  scope : Env

/-- The statement `UPDATE payments SET status = 'authorized' WHERE
stripe_intent_id = $1`. -/
def authorizePayment (db : DB) (stripeIntentID : String) : DB :=
  { db with payments := db.payments.map fun p =>
      if p.stripeIntentID = stripeIntentID then { p with status := "authorized" } else p }

/-- The unit of work of lines 144 to 149. -/
def authorizeWork (stripeIntentID : String) : Work Unit :=
  fun stmtFails db stripe =>
    if stmtFails 0 then ⟨.error .execFailed, stripe, [.update "payments"]⟩
    else ⟨.ok ((), authorizePayment db stripeIntentID), stripe, [.update "payments"]⟩

/-- The handler `PaymentHandler.HandleStripeWebhook`.  `io.ReadAll` on the
`http.MaxBytesReader` returns an error when the body is longer than
`MaxBodyBytes` or the transport fails. -/
def HandleStripeWebhook (env : HookEnv) (r : WebhookRequest) (w : World) : HandlerResult :=
  if env.readFails = true ∨ MaxBodyBytes < r.body.utf8ByteSize then ⟨⟨503, .empty⟩, w, []⟩
  else
    match env.constructEvent r.body r.signature with
    | none => ⟨⟨400, .empty⟩, w, []⟩
    | some event =>
      if event.type = "payment_intent.amount_capturable_updated" then
        match event.data with
        | none => ⟨⟨400, .empty⟩, w, []⟩
        | some intent =>
          if intent.tenantID = "" then ⟨⟨200, .empty⟩, w, []⟩
          else
            let s := RunInTenantScope env.scope intent.tenantID (authorizeWork intent.ID) w
            match s.result with
            | .error _ => ⟨⟨500, .empty⟩, s.world, s.trace.map Call.db⟩
            | .ok _ => ⟨⟨200, .empty⟩, s.world, s.trace.map Call.db⟩
      else ⟨⟨200, .empty⟩, w, []⟩
/-! ## Partition-selection statements -/

/-- The method `pgx.Identifier.Sanitize` of the database driver, for an
identifier of one part: NUL bytes are removed, every double quote is doubled,
and the result is put between double quotes. -/
def Sanitize (part : String) : String :=
  let s := part.toList.filter fun c => c ≠ Char.ofNat 0
  "\"" ++ String.mk (s.flatMap fun c => if c = '"' then ['"', '"'] else [c]) ++ "\""

/-- The statement `RunInTenantScope` executes before the unit of work (lines
73 to 75): `fmt.Sprintf("SET LOCAL search_path TO %s", ident.Sanitize())`.  It
is the statement `Effect.setSearchPath tenantID` records. -/
def scopeSearchPath (tenantID : String) : String :=
  "SET LOCAL search_path TO " ++ Sanitize tenantID

/-- The statement the four methods of `CarRepository` execute after `Begin`
(lines 46, 73, 109 and 141 of `car_repository.go`):
`fmt.Sprintf("SET LOCAL search_path TO %s", tenantID)`, the identifier as it
stands in the request context. -/
def repoSearchPath (tenantID : String) : String :=
  "SET LOCAL search_path TO " ++ tenantID

/-! ## CarRepository -/

/-- What lies outside the source and decides a call of a repository method:
whether `Begin`, the query and `Commit` fail, and what the database does with
the statement `repoSearchPath tenantID`, whose operand is not quoted:
`searchPath tenantID` is the schema in which the database then resolves the
table `cars` (`none`: it rejects the statement). -/
structure RepoEnv where
  beginFails : Bool
  searchPath : String → Option String
  queryFails : Bool
  commitFails : Bool

/-- What a repository method returns (`none`: an error), with the world after
it and the calls it made. -/
structure RepoResult (α : Type) where
  result : Option α
  world : World
  trace : List Call

/-- The query of `CarRepository.GetByID`. -/
def getByIDQuery : String :=
  "SELECT id, make, model, license_plate, status, image_url, created_at, updated_at " ++
  "FROM cars WHERE id = $1"

/-- The query of `CarRepository.Update` (white space put on one line). -/
def updateQuery : String :=
  "UPDATE cars SET make = $1, model = $2, license_plate = $3, status = $4, " ++
  "image_url = $5, updated_at = NOW() WHERE id = $6 RETURNING updated_at"

/-- The value `GetByID` scans a row into: the six columns it selects, the
field `DailyRateCents` keeping its zero value. -/
def Car.scan (c : Car) : CarValue :=
  ⟨c.id, c.make, c.model, c.licensePlate, c.status, 0, c.imageURL⟩

/-- The rows of `cars` after the UPDATE of `CarRepository.Update`. -/
def updateCarRow (db : DB) (car : CarValue) : DB :=
  { db with cars := db.cars.map fun c =>
      if c.id = car.ID then
        { c with make := car.Make, model := car.Model, licensePlate := car.LicensePlate,
                 status := car.Status, imageURL := car.ImageURL }
      else c }

/-- The method `CarRepository.GetByID`.  `tenant` is the string stored under
`middleware.TenantKey` (`none` when there is none). -/
def CarRepository.GetByID (env : RepoEnv) (tenant : Option String) (id : String) (w : World) :
    RepoResult CarValue :=
  if env.beginFails then ⟨none, w, [.db .txBegin]⟩
  else
    match tenant with
    | none => ⟨none, w, [.db .txBegin, .db .rollback]⟩
    | some tenantID =>
      if tenantID = "" then ⟨none, w, [.db .txBegin, .db .rollback]⟩
      else
        let pre := [Call.db .txBegin, Call.sql (repoSearchPath tenantID)]
        match env.searchPath tenantID with
        | none => ⟨none, w, pre ++ [.db .rollback]⟩
        | some schema =>
          let run := pre ++ [Call.sql getByIDQuery]
          match w.schemas schema with
          | none => ⟨none, w, run ++ [.db .rollback]⟩
          | some db =>
            if env.queryFails then ⟨none, w, run ++ [.db .rollback]⟩
            else
              match db.cars.find? (fun c => c.id = id) with
              | none => ⟨none, w, run ++ [.db .rollback]⟩
              | some car =>
                if env.commitFails then ⟨none, w, run ++ [.db .commit]⟩
                else ⟨some car.scan, w, run ++ [.db .commit]⟩

/-- The method `CarRepository.Update`.  `QueryRow(...).Scan` returns an error
when the UPDATE matched no row. -/
def CarRepository.Update (env : RepoEnv) (tenant : Option String) (car : CarValue)
    (w : World) : RepoResult Unit :=
  if env.beginFails then ⟨none, w, [.db .txBegin]⟩
  else
    match tenant with
    | none => ⟨none, w, [.db .txBegin, .db .rollback]⟩
    | some tenantID =>
      if tenantID = "" then ⟨none, w, [.db .txBegin, .db .rollback]⟩
      else
        let pre := [Call.db .txBegin, Call.sql (repoSearchPath tenantID)]
        match env.searchPath tenantID with
        | none => ⟨none, w, pre ++ [.db .rollback]⟩
        | some schema =>
          let run := pre ++ [Call.sql updateQuery]
          match w.schemas schema with
          | none => ⟨none, w, run ++ [.db .rollback]⟩
          | some db =>
            if env.queryFails then ⟨none, w, run ++ [.db .rollback]⟩
            else if db.cars.any (fun c => c.id = car.ID) then
              if env.commitFails then ⟨none, w, run ++ [.db .commit]⟩
              else ⟨some (), w.setSchema schema (updateCarRow db car), run ++ [.db .commit]⟩
            else ⟨none, w, run ++ [.db .rollback]⟩

/-! ## UpdateCar -/

/-- The multipart form of a car request as the handler reads it: the four
values of `FormValue` (empty when the field is absent) and whether there is a
file part `image`. -/
structure CarForm where
  make : String
  model : String
  licensePlate : String
  status : String
  image : Bool
deriving DecidableEq, Repr

/-- A request of `UpdateCar`: the URL parameter `id`, the form (`none` when
`ParseMultipartForm` fails) and the string stored under `middleware.TenantKey`
(`none` when there is none). -/
structure CarRequest where
  id : String
  form : Option CarForm
  tenant : Option String

/-- What lies outside the source and decides a call of `UpdateCar`:
`uuid.Parse` (`none`: an error, otherwise the text of the parsed value), the
environments of the two repository calls, and the answer of the object store
to `UploadFile` (`none`: an error, otherwise the address of the image). -/
structure CarEnv where
  parseUUID : String → Option String
  get : RepoEnv
  update : RepoEnv
  uploadFile : Option String

/-- The body of the rejection of lines 110 to 115, its keys in the order the
JSON encoder writes a map. -/
def invalidTransitionBody : Body :=
  .object [("code", "ERR_INVALID_TRANSITION"),
    ("message", "Car cannot go from Rented to Available. Must be Inspected first."),
    ("status", "error")]

/-- Lines 119 to 131 of `UpdateCar`: the fields of the form that are not empty
replace those of the car. -/
def applyForm (car : CarValue) (form : CarForm) : CarValue :=
  let car1 := if form.make ≠ "" then { car with Make := form.make } else car
  let car2 := if form.model ≠ "" then { car1 with Model := form.model } else car1
  let car3 :=
    if form.licensePlate ≠ "" then { car2 with LicensePlate := form.licensePlate } else car2
  if form.status ≠ "" then { car3 with Status := form.status } else car3

/-- Lines 146 to 155 of `UpdateCar`: store the car and answer. -/
def storeCar (env : CarEnv) (tenant : Option String) (car : CarValue) (w : World)
    (pre : List Call) : HandlerResult :=
  let u := CarRepository.Update env.update tenant car w
  match u.result with
  | none => ⟨⟨500, .text "Failed to update car: "⟩, u.world, pre ++ u.trace⟩
  | some _ => ⟨⟨200, .car car⟩, u.world, pre ++ u.trace⟩

/-- The handler `CarHandler.UpdateCar`. -/
def UpdateCar (env : CarEnv) (r : CarRequest) (w : World) : HandlerResult :=
  match env.parseUUID r.id with
  | none => ⟨⟨400, .text "Invalid car ID"⟩, w, []⟩
  | some id =>
    let g := CarRepository.GetByID env.get r.tenant id w
    match g.result with
    | none => ⟨⟨404, .text "Car not found"⟩, g.world, g.trace⟩
    | some currentCar =>
      match r.form with
      | none => ⟨⟨400, .text "Unable to parse form"⟩, g.world, g.trace⟩
      | some form =>
        if currentCar.Status = CarStatusRented ∧ form.status = CarStatusAvailable then
          ⟨⟨400, invalidTransitionBody⟩, g.world, g.trace⟩
        else
          let car := applyForm currentCar form
          if form.image then
            match env.uploadFile with
            | none =>
              ⟨⟨500, .text "Failed to upload image: "⟩, g.world, g.trace ++ [.upload]⟩
            | some url =>
              storeCar env r.tenant { car with ImageURL := url } g.world
                (g.trace ++ [.upload])
          else storeCar env r.tenant car g.world g.trace
/-! ## Units of work under a tenant scope -/

/-- The unit of work as `RunInTenantScope` runs it once the partition is set:
on the partition of `tenantID`, or with every statement failing when there is
no such schema. -/
def scopedWork {α : Type} (env : Env) (tenantID : String) (fn : Work α) (w : World) :
    WorkResult α :=
  match w.schemas tenantID with
  | some db => fn env.stmtFails db w.stripe
  | none => fn (fun _ => true) DB.empty w.stripe

/-- The first unit of work of `TestTenantIsolation` (lines 30 to 34): insert a
car and return its generated key.  `car` is the row as the database stores it. -/
def insertCarWork (car : Car) : Work String :=
  fun stmtFails db stripe =>
    if stmtFails 0 then ⟨.error .execFailed, stripe, [.insert "cars"]⟩
    else ⟨.ok (car.id, { db with cars := db.cars ++ [car] }), stripe, [.insert "cars"]⟩

/-- The query of the second unit of work of `TestTenantIsolation` (line 42):
`SELECT id FROM cars WHERE id = $1`, giving the key `Scan` found (`none`: it
returned an error, there is no such row or the statement failed). -/
def lookupCarWork (carID : String) : Work (Option String) :=
  fun stmtFails db stripe =>
    if stmtFails 0 then ⟨.ok (none, db), stripe, [.select "cars"]⟩
    else
      ⟨.ok ((db.cars.find? fun c => c.id = carID).map (fun c => c.id), db), stripe,
        [.select "cars"]⟩

/-- The requests for a new authorization among the calls of a handler. -/
def intentRequests (trace : List Call) : List PaymentIntentParams :=
  trace.filterMap fun c =>
    match c with
    | .intentNew params => some params
    | _ => none

/-! ## The operations of the system -/

/-- A call of one of the six operations that write to a tenant partition, with
the environment it runs in. -/
inductive Operation where
  | createBooking (env : Env) (r : Request CreateBookingRequest)
  | publicBook (env : Env) (r : PublicRequest)
  | returnCar (env : Env) (bookingID : String) (r : Request ReturnCarRequest)
  | createPaymentIntent (env : PayEnv) (r : Request CreateIntentRequest)
  | handleStripeWebhook (env : HookEnv) (r : WebhookRequest)
  | updateCar (env : CarEnv) (r : CarRequest)

/-- The world after the operation. -/
def Operation.run : Operation → World → World
  | .createBooking env r, w => (CreateBooking env r w).world
  | .publicBook env r, w => (PublicBook env r w).world
  | .returnCar env bookingID r, w => (ReturnCar env bookingID r w).world
  | .createPaymentIntent env r, w => (CreatePaymentIntent env r w).world
  | .handleStripeWebhook env r, w => (HandleStripeWebhook env r w).world
  | .updateCar env r, w => (UpdateCar env r w).world

/-- Every partition of `w` is still there in `w1`, its booking rows in place
and unchanged, possibly with new rows after them. -/
def KeepsBookings (w w1 : World) : Prop :=
  ∀ t db, w.schemas t = some db →
    ∃ db1 extra, w1.schemas t = some db1 ∧ db1.bookings = db.bookings ++ extra
/-! ## Sample data -/

/-- A sample car: available, at 10000 a day. -/
def sampleCar : Car := ⟨"car-1", "Test", "Car", 2024, "AB-123", "available", 10000, 42000, ""⟩

/-- The sample car while it is rented. -/
def sampleCarRented : Car := { sampleCar with status := "rented" }

/-- A sample customer. -/
def sampleCustomer : Customer := ⟨"cust-1", "test@example.com", "Test", "User"⟩

/-- A partition with the sample car and the sample customer. -/
def sampleDB : DB := ⟨[sampleCar], [sampleCustomer], [], []⟩

/-- A partition in which the sample car is rented. -/
def sampleDBRented : DB := ⟨[sampleCarRented], [sampleCustomer], [], []⟩

/-- A world with one tenant whose partition is `db`. -/
def sampleWorld (db : DB) : World :=
  ⟨[⟨"11111111-1111-1111-1111-111111111111", "acme", "tenant_acme"⟩],
   fun s => if s = "tenant_acme" then some db else none, ⟨[]⟩⟩

/-- An environment in which nothing fails. -/
def sampleEnv : Env :=
  ⟨false, false, false, fun _ => false, false, "booking-1", "cust-2", fun _ => true, false⟩

/-- A one-day booking request for the sample car. -/
def sampleCreate : CreateBookingRequest := ⟨"car-1", "cust-1", 0, 86400000000000⟩

/-- A sample request of the public widget for the sample car. -/
def sampleWidget : PublicRequest :=
  ⟨"11111111-1111-1111-1111-111111111111",
    some ⟨"car-1", 0, 172800000000000, "new@example.com", "New Customer"⟩⟩

/-- A pending booking of the sample car by the sample customer, two days long. -/
def sampleBooking : Booking :=
  ⟨"booking-1", "car-1", "cust-1", 0, 172800000000000, "pending", none, none, none⟩

/-- The authorization of the sample booking. -/
def samplePayment : Payment := ⟨"booking-1", "pi_1", 20000, "authorized"⟩

/-- A partition in which the sample car is out on the sample booking. -/
def sampleDBBooked : DB := ⟨[sampleCarRented], [sampleCustomer], [sampleBooking], [samplePayment]⟩

/-- The sample booking once completed without damage at odometer 43000. -/
def sampleBookingCompleted : Booking :=
  { sampleBooking with status := "completed", finalOdometer := some 43000,
                       damageCostCents := some 0, totalAmountCents := some 20000 }

/-- A partition in which the sample booking is completed. -/
def sampleDBCompleted : DB :=
  ⟨[{ sampleCar with odometer := 43000 }], [sampleCustomer], [sampleBookingCompleted],
    [{ samplePayment with status := "captured" }]⟩

/-- A return of the sample booking without damage. -/
def sampleReturn : ReturnCarRequest := ⟨43000, 0⟩

/-- An environment in which the processor refuses the capture. -/
def sampleEnvCaptureFails : Env := { sampleEnv with captureFails := true }

/-- An environment in which the last UPDATE of the unit of work fails. -/
def sampleEnvUpdateFails : Env := { sampleEnv with stmtFails := fun k => decide (k = 3) }


/-- A world with two tenants: the sample partition under `tenant_a`, an empty
one under `tenant_b`. -/
def sampleWorldTwo : World :=
  ⟨[⟨"11111111-1111-1111-1111-111111111111", "a", "tenant_a"⟩,
    ⟨"22222222-2222-2222-2222-222222222222", "b", "tenant_b"⟩],
   fun s => if s = "tenant_a" then some sampleDB else if s = "tenant_b" then some DB.empty
     else none, ⟨[]⟩⟩

/-- The car of `TestTenantIsolation` as the database stores it. -/
def sampleToyota : Car := ⟨"car-9", "Toyota", "Camry", 2023, "", "available", 5000, 0, ""⟩

/-- The authorization behind the sample payment, as the processor returns it. -/
def sampleIntent : PaymentIntent := ⟨"pi_1", "pi_1_secret_abc", "tenant_acme"⟩

/-- An environment of `CreatePaymentIntent` in which nothing fails: the
processor knows the sample authorization and grants it anew on request. -/
def samplePayEnv : PayEnv :=
  ⟨sampleEnv, sampleEnv, fun id => if id = "pi_1" then some sampleIntent else none,
    fun _ => some sampleIntent⟩

/-- A request to authorize 20000 for the sample booking. -/
def sampleIntentRequest : CreateIntentRequest := ⟨"booking-1", 20000⟩

/-- A partition in which the sample booking has no payment row yet. -/
def sampleDBUnpaid : DB := ⟨[sampleCarRented], [sampleCustomer], [sampleBooking], []⟩

/-- An environment of the webhook in which the body is read, storage works, and
only the signature header `t=1,v1=good` verifies: the event then says that the
sample authorization has become capturable. -/
def sampleHookEnv : HookEnv :=
  ⟨false,
    fun _ signature =>
      if signature = "t=1,v1=good" then
        some ⟨"payment_intent.amount_capturable_updated", some sampleIntent⟩
      else none,
    sampleEnv⟩

/-- A request with a forged signature. -/
def sampleForged : WebhookRequest := ⟨"payload", "t=1,v1=forged"⟩

/-- A request with a forged signature whose body is one byte longer than
`MaxBodyBytes`. -/
def sampleOversized : WebhookRequest := ⟨String.mk (List.replicate 65537 'x'), "t=1,v1=forged"⟩

/-- A two-day booking request for the sample car. -/
def sampleCreateTwoDays : CreateBookingRequest := ⟨"car-1", "cust-1", 0, 172800000000000⟩

/-- An environment of a repository call in which nothing fails and the
database resolves the unquoted name `tenant_acme` to the schema of that name;
it rejects every other operand. -/
def sampleRepoEnv : RepoEnv :=
  ⟨false, fun t => if t = "tenant_acme" then some "tenant_acme" else none, false, false⟩

/-- An environment of `UpdateCar` in which nothing fails. -/
def sampleCarEnv : CarEnv :=
  ⟨fun s => some s, sampleRepoEnv, sampleRepoEnv, some "https://images.example/car-1.png"⟩

/-- A request to make the sample car available again, with a new make and an
image. -/
def sampleCarRequest : CarRequest :=
  ⟨"car-1", some ⟨"Tesla", "", "", "available", true⟩, some "tenant_acme"⟩
/-! ## Reading a quoted identifier -/

/-- How SQL reads a delimited identifier after its opening double quote: two
double quotes in a row stand for one double quote of the name, a single double
quote ends the identifier.  The result is the name and the text left after the
closing quote (`none`: the identifier is not terminated). -/
def readQuoted : List Char → Option (List Char × List Char)
  | [] => none
  | [c] => if c = '"' then some ([], []) else none
  | c :: d :: rest =>
    if c = '"' then
      if d = '"' then (readQuoted rest).map fun p => ('"' :: p.1, p.2)
      else some ([], d :: rest)
    else (readQuoted (d :: rest)).map fun p => (c :: p.1, p.2)

/-- How SQL reads a delimited identifier at the start of a text: the opening
double quote, then the name up to the closing one. -/
def readIdentifier : List Char → Option (List Char × List Char)
  | [] => none
  | c :: rest => if c = '"' then readQuoted rest else none

/-! ## Go string functions -/

/-- The pieces of a text between the occurrences of a separator of one
character. -/
def splitChars (sep : Char) : List Char → List (List Char)
  | [] => [[]]
  | c :: cs =>
    if c = sep then [] :: splitChars sep cs
    else
      match splitChars sep cs with
      | [] => [[c]]
      | p :: ps => (c :: p) :: ps

/-- The function `strings.Split` for a separator of one character. -/
def Split (s : String) (sep : Char) : List String :=
  (splitChars sep s.toList).map String.mk

/-- The function `strings.HasPrefix`. -/
def HasPrefix (s start : String) : Bool :=
  start.toList.isPrefixOf s.toList

/-! ## TenantMiddleware -/

/-- What a middleware does with a request: it answers with `http.Error` and
does not call the next handler, or it calls the next handler with the value
`a` in the request context. -/
inductive Served (α : Type) where
  | error (code : Nat) (message : String)
  | next (a : α)
deriving DecidableEq, Repr

/-- What a call of `TenantMiddleware` produces: what it does with the request
and the trace of its calls to the database. -/
structure TenantResult where
  served : Served String
  trace : List Effect
deriving DecidableEq, Repr

/-- The subdomain `TenantMiddleware` extracts from the host (lines 23 to 32):
the first label when there are more than two, `public` otherwise. -/
def subdomainOf (host : String) : String :=
  let parts := Split host '.'
  if parts.length > 2 then parts.headD "" else "public"

/-- The handler `TenantMiddleware` wraps around `next`.  The value handed to
`next` is the string stored under `TenantKey`.  `w.tenants` is the directory
`public.tenants`; `QueryRow` reads its first row with the subdomain. -/
def TenantMiddleware (env : Env) (host : String) (w : World) : TenantResult :=
  let subdomain := subdomainOf host
  if subdomain = "public" ∨ host = "localhost:8080" ∨ HasPrefix host "localhost" = true then
    ⟨.next "public", []⟩
  else if env.poolQueryFails then
    ⟨.error 404 "Tenant not found", [.poolQuery "public.tenants"]⟩
  else
    match w.tenants.find? (fun t => t.subdomain = subdomain) with
    | none => ⟨.error 404 "Tenant not found", [.poolQuery "public.tenants"]⟩
    | some tenant => ⟨.next tenant.schemaName, [.poolQuery "public.tenants"]⟩

/-! ## AuthMiddleware -/

/-- A token as `jwt.Parse` decodes it: whether its signing method is an HMAC
method (the test of the key function, lines 127 to 129), whether its signature
verifies under `jwtSecret`, whether its registered claims are valid (it has
not expired), the claim `tenant_id` as a string (`none`: the claim is absent
or is not a string) and the claim `user_id` (`none`: absent). -/
structure Token where
  hmac : Bool
  verifies : Bool
  claimsValid : Bool
  tenantID : Option String
  userID : Option String
deriving DecidableEq, Repr

/-- What lies outside the source and decides a call of `AuthMiddleware`: the
token a text decodes to (`none`: it is malformed). -/
structure AuthEnv where
  decode : String → Option Token

/-- A request as `AuthMiddleware` reads it: the header `Authorization` (empty
when absent) and the string stored under `middleware.TenantKey` (`none` when
there is none). -/
structure AuthRequest where
  authorization : String
  tenant : Option String
deriving DecidableEq, Repr

/-- The call `jwt.Parse(tokenString, keyFunc)` of lines 126 to 136, with the
test `err != nil || !token.Valid`: the token, or `none` when the handler
answers `Invalid token`. -/
def parseToken (env : AuthEnv) (tokenString : String) : Option Token :=
  match env.decode tokenString with
  | none => none
  | some token =>
    if token.hmac = true ∧ token.verifies = true ∧ token.claimsValid = true then some token
    else none

/-- The handler `AuthMiddleware` wraps around `next`.  The value handed to
`next` is the claim `user_id` stored under the key `user_id`.  The claims of a
token from `jwt.Parse` are always `jwt.MapClaims`, so the answer of lines 139
to 142 is never given and is left out. -/
def AuthMiddleware (env : AuthEnv) (r : AuthRequest) : Served (Option String) :=
  if r.authorization = "" then .error 401 "Authorization header required"
  else
    let parts := Split r.authorization ' '
    if parts.length ≠ 2 ∨ parts.headD "" ≠ "Bearer" then
      .error 401 "Invalid authorization header format"
    else
      match parseToken env (parts.getD 1 "") with
      | none => .error 401 "Invalid token"
      | some token =>
        match r.tenant with
        | none => .error 500 "Tenant context missing"
        | some tenantID =>
          match token.tenantID with
          | none => .error 403 "Token tenant mismatch (Cross-Tenant Replay Attempt)"
          | some tokenTenantID =>
            if tokenTenantID ≠ tenantID then
              .error 403 "Token tenant mismatch (Cross-Tenant Replay Attempt)"
            else .next token.userID
/-! ## More sample data -/

/-- A request of the webhook whose signature verifies in `sampleHookEnv`. -/
def sampleVerified : WebhookRequest := ⟨"payload", "t=1,v1=good"⟩

/-- A partition in which the payment of the sample booking awaits its
authorization. -/
def sampleDBPendingAuth : DB :=
  ⟨[sampleCarRented], [sampleCustomer], [sampleBooking],
    [⟨"booking-1", "pi_1", 20000, "pending_auth"⟩]⟩

/-- An environment of `CreatePaymentIntent` in which the lookup cannot begin
its transaction, everything else works, and the processor grants a second
authorization. -/
def samplePayEnvLookupFails : PayEnv :=
  ⟨{ sampleEnv with beginFails := true }, sampleEnv,
    fun id => if id = "pi_1" then some sampleIntent else none,
    fun _ => some ⟨"pi_2", "pi_2_secret_def", "tenant_acme"⟩⟩

/-- A token of tenant `tenant_acme` that is signed and has not expired. -/
def sampleToken : Token := ⟨true, true, true, some "tenant_acme", some "user-1"⟩

/-- An environment of `AuthMiddleware` in which the text `good.jwt.token`
decodes to the sample token and nothing else decodes. -/
def sampleAuthEnv : AuthEnv :=
  ⟨fun s => if s = "good.jwt.token" then some sampleToken else none⟩
/-! ## CreateCar -/

/-- What lies outside the source and decides a call of `CreateCar`: the
environment of the repository call, the key the database generates, the
values it gives the columns the INSERT does not name, and the answer of the
object store to `UploadFile` (`none`: an error). -/
structure CreateCarEnv where
  repo : RepoEnv
  newID : String
  year : Int
  dailyRateCents : Int
  odometer : Int
  uploadFile : Option String

/-- A request of `CreateCar`: the form (`none` when `ParseMultipartForm`
fails) and the string stored under `middleware.TenantKey` (`none` when there
is none). -/
structure CreateCarRequest where
  form : Option CarForm
  tenant : Option String

/-- The query of `CarRepository.Create` (white space put on one line). -/
def createQuery : String :=
  "INSERT INTO cars (make, model, license_plate, status, image_url) " ++
  "VALUES ($1, $2, $3, $4, $5) RETURNING id, created_at, updated_at"

/-- The row the INSERT of `CarRepository.Create` adds. -/
def insertedCar (env : CreateCarEnv) (car : CarValue) : Car :=
  ⟨env.newID, car.Make, car.Model, env.year, car.LicensePlate, car.Status, env.dailyRateCents,
    env.odometer, car.ImageURL⟩

/-- The method `CarRepository.Create`; on success it returns the car with the
generated key scanned into it. -/
def CarRepository.Create (env : CreateCarEnv) (tenant : Option String) (car : CarValue)
    (w : World) : RepoResult CarValue :=
  if env.repo.beginFails then ⟨none, w, [.db .txBegin]⟩
  else
    match tenant with
    | none => ⟨none, w, [.db .txBegin, .db .rollback]⟩
    | some tenantID =>
      if tenantID = "" then ⟨none, w, [.db .txBegin, .db .rollback]⟩
      else
        let pre := [Call.db .txBegin, Call.sql (repoSearchPath tenantID)]
        match env.repo.searchPath tenantID with
        | none => ⟨none, w, pre ++ [.db .rollback]⟩
        | some schema =>
          let run := pre ++ [Call.sql createQuery]
          match w.schemas schema with
          | none => ⟨none, w, run ++ [.db .rollback]⟩
          | some db =>
            if env.repo.queryFails then ⟨none, w, run ++ [.db .rollback]⟩
            else if env.repo.commitFails then ⟨none, w, run ++ [.db .commit]⟩
            else
              ⟨some { car with ID := env.newID },
                w.setSchema schema { db with cars := db.cars ++ [insertedCar env car] },
                run ++ [.db .commit]⟩

/-- Lines 50 to 68 of `CreateCar`: build the car, store it and answer. -/
def createCarStore (env : CreateCarEnv) (tenant : Option String) (form : CarForm)
    (imageURL : String) (w : World) (pre : List Call) : HandlerResult :=
  let car : CarValue := ⟨"", form.make, form.model, form.licensePlate, form.status, 0, imageURL⟩
  let c := CarRepository.Create env tenant car w
  match c.result with
  | none => ⟨⟨500, .text "Failed to create car: "⟩, c.world, pre ++ c.trace⟩
  | some stored => ⟨⟨200, .car stored⟩, c.world, pre ++ c.trace⟩

/-- The handler `CarHandler.CreateCar`. -/
def CreateCar (env : CreateCarEnv) (r : CreateCarRequest) (w : World) : HandlerResult :=
  match r.form with
  | none => ⟨⟨400, .text "Unable to parse form"⟩, w, []⟩
  | some form =>
    if form.image then
      match env.uploadFile with
      | none => ⟨⟨500, .text "Failed to upload image: "⟩, w, [.upload]⟩
      | some url => createCarStore env r.tenant form url w [.upload]
    else createCarStore env r.tenant form "" w []

/-! ## Invariants -/

/-- Every partition of `w` is still there in `w1`, related to what it was by
`R`, and `w1` has no other partition. -/
def Lifts (R : DB → DB → Prop) (w w1 : World) : Prop :=
  (∀ t db, w.schemas t = some db → ∃ db1, w1.schemas t = some db1 ∧ R db db1) ∧
    ∀ t, w.schemas t = none → w1.schemas t = none

/-- Every captured payment row of `db` for the authorization `sid` is still
at its place in `db1`, captured, for the same booking and the same
authorization. -/
def CapturedKept (sid : String) (db db1 : DB) : Prop :=
  ∀ (i : Nat) (p : Payment), db.payments[i]? = some p → p.status = "captured" →
    p.stripeIntentID = sid →
    ∃ p1 : Payment, db1.payments[i]? = some p1 ∧ p1.status = "captured" ∧
      p1.bookingID = p.bookingID ∧ p1.stripeIntentID = sid

/-- The four values of `models.CarStatus`. -/
def carStatuses : List CarStatus :=
  [CarStatusAvailable, CarStatusRented, CarStatusInspecting, CarStatusMaintenance]

/-- Every car of the partition has one of the four statuses. -/
def ValidStatuses (db : DB) : Prop :=
  ∀ c ∈ db.cars, c.status ∈ carStatuses

instance (db : DB) : Decidable (ValidStatuses db) :=
  inferInstanceAs (Decidable (∀ c ∈ db.cars, c.status ∈ carStatuses))

/-- Every car of every partition has one of the four statuses. -/
def ValidWorld (w : World) : Prop :=
  ∀ t db, w.schemas t = some db → ValidStatuses db

/-- A call of one of the five operations that write car rows, with the
environment it runs in. -/
inductive CarOperation where
  | createCar (env : CreateCarEnv) (r : CreateCarRequest)
  | updateCar (env : CarEnv) (r : CarRequest)
  | createBooking (env : Env) (r : Request CreateBookingRequest)
  | publicBook (env : Env) (r : PublicRequest)
  | returnCar (env : Env) (bookingID : String) (r : Request ReturnCarRequest)

/-- The world after the operation. -/
def CarOperation.run : CarOperation → World → World
  | .createCar env r, w => (CreateCar env r w).world
  | .updateCar env r, w => (UpdateCar env r w).world
  | .createBooking env r, w => (CreateBooking env r w).world
  | .publicBook env r, w => (PublicBook env r w).world
  | .returnCar env bookingID r, w => (ReturnCar env bookingID r w).world

/-- The status the form of the operation asks the handler to store: the
field `status` of the form of `CreateCar`, and that of the form of `UpdateCar`
when it is not empty (`none`: the operation has no form, the form does not
decode, or `UpdateCar` keeps the status of the car). -/
def CarOperation.formStatus : CarOperation → Option CarStatus
  | .createCar _ r => r.form.map fun form => form.status
  | .updateCar _ r => r.form.bind fun form => if form.status = "" then none else some form.status
  | _ => none

/-! ## Sample data of the car handlers -/

/-- An environment of `CreateCar` in which nothing fails; the database gives
the new row the key `car-2` and zero for the columns the INSERT does not
name. -/
def sampleCreateCarEnv : CreateCarEnv :=
  ⟨sampleRepoEnv, "car-2", 0, 0, 0, some "https://images.example/car-2.png"⟩

/-! ## The partition a statement selects -/

/-- What the database does with the statement of line 75 of `postgres.go`:
`SET LOCAL search_path TO` followed by one delimited identifier makes the
schema of that name, until the end of the transaction, the one in which a
table named without a schema is looked up (`none`: the statement is not of
this form).  A zero-length identifier, which the database rejects, is covered
by the fault `setSearchPathFails`. -/
def searchPathSchema (stmt : String) : Option String :=
  let start := "SET LOCAL search_path TO ".toList
  if start.isPrefixOf stmt.toList then
    match readIdentifier (stmt.toList.drop start.length) with
    | some (name, []) => some (String.mk name)
    | _ => none
  else none

/-- The function `database.RunInTenantScope` with the statement of line 75
spelled out: `Begin`, then `Exec` of the text `scopeSearchPath tenantID`, then
the unit of work, then `Commit`.  The unit names its tables without a schema
(as every unit of the source does), so its statements run on the partition
of the schema that text selects, whatever `tenantID` is; when the database has
no such schema every statement of the unit fails. -/
def RunInTenantScope.bySearchPath {α : Type} (env : Env) (tenantID : String) (fn : Work α)
    (w : World) : ScopeResult α :=
  if env.beginFails then ⟨.error .beginFailed, w, [.txBegin]⟩
  else if env.setSearchPathFails then
    ⟨.error .setSearchPathFailed, w, [.txBegin, .setSearchPath tenantID, .rollback]⟩
  else
    match searchPathSchema (scopeSearchPath tenantID) with
    | none => ⟨.error .setSearchPathFailed, w, [.txBegin, .setSearchPath tenantID, .rollback]⟩
    | some schema =>
      let r := match w.schemas schema with
        | some db => fn env.stmtFails db w.stripe
        | none => fn (fun _ => true) DB.empty w.stripe
      let w1 : World := { w with stripe := r.stripe }
      let pre := [Effect.txBegin, Effect.setSearchPath tenantID] ++ r.trace
      match r.result with
      | .error e => ⟨.error e, w1, pre ++ [.rollback]⟩
      | .ok (a, db1) =>
        if env.commitFails then ⟨.error .commitFailed, w1, pre ++ [.commit]⟩
        else
          match w.schemas schema with
          | some _ => ⟨.ok a, w1.setSchema schema db1, pre ++ [.commit]⟩
          | none => ⟨.ok a, w1, pre ++ [.commit]⟩
/-! ## Rounding: lemmas -/

/-- Rounding to the nearest integer moves a value up by at most one half. -/
theorem rneQ_sub_le (t : ℚ) : (rneQ t : ℚ) - t ≤ 1 / 2 := by
  have h1 := Int.floor_add_fract t
  have h2 := Int.fract_nonneg t
  have h3 := Int.fract_lt_one t
  unfold rneQ
  split_ifs <;> push_cast <;> linarith

/-- Rounding to the nearest integer moves a value down by at most one half. -/
theorem sub_rneQ_le (t : ℚ) : t - (rneQ t : ℚ) ≤ 1 / 2 := by
  have h1 := Int.floor_add_fract t
  have h2 := Int.fract_nonneg t
  have h3 := Int.fract_lt_one t
  unfold rneQ
  split_ifs <;> push_cast <;> linarith

/-- An integer rounds to itself. -/
theorem rneQ_intCast (z : ℤ) : rneQ (z : ℚ) = z := by
  simp [rneQ]

/-- A natural number rounds to itself. -/
theorem rneQ_natCast (n : ℕ) : rneQ (n : ℚ) = n := by
  have := rneQ_intCast (n : ℤ)
  simpa using this

/-- Rounding to the nearest integer is monotone. -/
theorem rneQ_mono {s t : ℚ} (h : s ≤ t) : rneQ s ≤ rneQ t := by
  rcases eq_or_lt_of_le h with rfl | hlt
  · exact le_rfl
  · by_contra hcon
    push_neg at hcon
    have h1 : (rneQ t : ℚ) + 1 ≤ rneQ s := by exact_mod_cast hcon
    have h2 := rneQ_sub_le s
    have h3 := sub_rneQ_le t
    linarith

/-- A value below `m + 1/2` rounds to at most `m`. -/
theorem rneQ_le_of_lt_add_half {t : ℚ} {m : ℤ} (h : t < m + 1 / 2) : rneQ t ≤ m := by
  have h2 := rneQ_sub_le t
  have : (rneQ t : ℚ) < m + 1 := by linarith
  have : rneQ t < m + 1 := by exact_mod_cast this
  omega

/-- The rounding `rne` on a numerator and a denominator is the rounding `rneQ` of the quotient. -/
theorem rne_eq_rneQ (n d : ℕ) (hd : 0 < d) : (rne n d : ℤ) = rneQ ((n : ℚ) / d) := by
  have hdq : (0 : ℚ) < d := by exact_mod_cast hd
  have hfloor : ⌊(n : ℚ) / d⌋ = ((n / d : ℕ) : ℤ) := by
    have := Rat.floor_intCast_div_natCast (n : ℤ) d
    simpa using this
  have hfract : Int.fract ((n : ℚ) / d) = ((n % d : ℕ) : ℚ) / d := by
    rw [Int.fract, hfloor]
    have hnd : (n : ℚ) = (d : ℚ) * ((n / d : ℕ) : ℚ) + ((n % d : ℕ) : ℚ) := by
      exact_mod_cast (Nat.div_add_mod n d).symm
    rw [eq_div_iff hdq.ne', sub_mul, div_mul_cancel₀ _ hdq.ne', Int.cast_natCast]
    linear_combination hnd
  have hlt : Int.fract ((n : ℚ) / d) < 1 / 2 ↔ 2 * (n % d) < d := by
    rw [hfract, div_lt_div_iff₀ hdq (by norm_num)]
    constructor
    · intro h
      have : ((2 * (n % d) : ℕ) : ℚ) < d := by push_cast; linarith
      exact_mod_cast this
    · intro h
      have : ((2 * (n % d) : ℕ) : ℚ) < d := by exact_mod_cast h
      push_cast at this
      linarith
  have hgt : 1 / 2 < Int.fract ((n : ℚ) / d) ↔ d < 2 * (n % d) := by
    rw [hfract, div_lt_div_iff₀ (by norm_num) hdq]
    constructor
    · intro h
      have : (d : ℚ) < ((2 * (n % d) : ℕ) : ℚ) := by push_cast; linarith
      exact_mod_cast this
    · intro h
      have : (d : ℚ) < ((2 * (n % d) : ℕ) : ℚ) := by exact_mod_cast h
      push_cast at this
      linarith
  unfold rne rneQ
  simp only [hlt, hgt, hfloor]
  split_ifs with h1 h2 h3 h4 h5
  · rfl
  · push_cast; rfl
  · rfl
  · omega
  · omega
  · push_cast; rfl

/-- With enough fuel `log2Fuel` is the binary logarithm rounded down. -/
theorem log2Fuel_spec : ∀ fuel n, 1 ≤ n → n ≤ fuel →
    2 ^ log2Fuel fuel n ≤ n ∧ n < 2 ^ (log2Fuel fuel n + 1) := by
  intro fuel
  induction fuel with
  | zero => intro n h1 h2; omega
  | succ fuel ih =>
    intro n h1 h2
    unfold log2Fuel
    by_cases h : n < 2
    · have : n = 1 := by omega
      subst this
      simp
    · rw [if_neg h]
      obtain ⟨ih1, ih2⟩ := ih (n / 2) (by omega) (by omega)
      constructor
      · rw [pow_succ]
        omega
      · rw [pow_succ]
        omega

/-- The function `log2` is the binary logarithm rounded down. -/
theorem log2_spec (n : ℕ) (h : 1 ≤ n) : 2 ^ log2 n ≤ n ∧ n < 2 ^ (log2 n + 1) :=
  log2Fuel_spec n n h le_rfl

/-- The binary exponent of a positive rational is the one integer whose power of two brackets it. -/
theorem eq_log_of_bounds (v : ℚ) (E : ℤ) (hv : 0 < v) (h1 : (2 : ℚ) ^ E ≤ v)
    (h2 : v < (2 : ℚ) ^ (E + 1)) : Int.log 2 v = E := by
  have a : E ≤ Int.log 2 v := (Int.zpow_le_iff_le_log (b := 2) (by norm_num) hv).mp (by simpa using h1)
  have b : Int.log 2 v < E + 1 :=
    (Int.lt_zpow_iff_log_lt (b := 2) (by norm_num) hv).mp (by simpa using h2)
  omega

/-- The power of two of `binExp n d` brackets `n / d`. -/
theorem binExp_spec (n d : ℕ) (hn : 0 < n) (hd : 0 < d) :
    (2 : ℚ) ^ binExp n d ≤ (n : ℚ) / d ∧ (n : ℚ) / d < (2 : ℚ) ^ (binExp n d + 1) := by
  obtain ⟨ha1, ha2⟩ := log2_spec n hn
  obtain ⟨hb1, hb2⟩ := log2_spec d hd
  have hdq : (0 : ℚ) < d := by exact_mod_cast hd
  have hnq : (0 : ℚ) < n := by exact_mod_cast hn
  have ha1q : (2 : ℚ) ^ (log2 n : ℤ) ≤ n := by
    rw [zpow_natCast]; exact_mod_cast ha1
  have ha2q : (n : ℚ) < (2 : ℚ) ^ ((log2 n : ℤ) + 1) := by
    have : (n : ℚ) < (2 : ℚ) ^ (log2 n + 1) := by exact_mod_cast ha2
    rw [← zpow_natCast] at this
    simpa using this
  have hb1q : (2 : ℚ) ^ (log2 d : ℤ) ≤ d := by
    rw [zpow_natCast]; exact_mod_cast hb1
  have hb2q : (d : ℚ) < (2 : ℚ) ^ ((log2 d : ℤ) + 1) := by
    have : (d : ℚ) < (2 : ℚ) ^ (log2 d + 1) := by exact_mod_cast hb2
    rw [← zpow_natCast] at this
    simpa using this
  have h2pos : ∀ z : ℤ, (0 : ℚ) < (2 : ℚ) ^ z := fun z => zpow_pos (by norm_num) z
  -- the test of `binExp` says `2 ^ (a - b) ≤ n / d`
  have htest : (d * 2 ^ (log2 n - log2 d) ≤ n * 2 ^ (log2 d - log2 n)) ↔
      (2 : ℚ) ^ ((log2 n : ℤ) - log2 d) ≤ (n : ℚ) / d := by
    rw [le_div_iff₀ hdq]
    rcases le_total (log2 d) (log2 n) with hle | hle
    · have e1 : log2 d - log2 n = 0 := by omega
      have e2 : ((log2 n : ℤ) - log2 d) = ((log2 n - log2 d : ℕ) : ℤ) := by omega
      rw [e1, e2, zpow_natCast, pow_zero, mul_one]
      constructor
      · intro h
        have : ((d * 2 ^ (log2 n - log2 d) : ℕ) : ℚ) ≤ n := by exact_mod_cast h
        push_cast at this
        linarith
      · intro h
        have : ((d * 2 ^ (log2 n - log2 d) : ℕ) : ℚ) ≤ n := by push_cast; linarith
        exact_mod_cast this
    · have e1 : log2 n - log2 d = 0 := by omega
      have e2 : ((log2 n : ℤ) - log2 d) = -((log2 d - log2 n : ℕ) : ℤ) := by omega
      rw [e1, e2, zpow_neg, zpow_natCast, pow_zero, mul_one]
      have hp : (0 : ℚ) < 2 ^ (log2 d - log2 n) := pow_pos (by norm_num) _
      rw [inv_mul_le_iff₀ hp]
      constructor
      · intro h
        have : ((d : ℕ) : ℚ) ≤ ((n * 2 ^ (log2 d - log2 n) : ℕ) : ℚ) := by exact_mod_cast h
        push_cast at this
        linarith
      · intro h
        have : ((d : ℕ) : ℚ) ≤ ((n * 2 ^ (log2 d - log2 n) : ℕ) : ℚ) := by push_cast; linarith
        exact_mod_cast this
  unfold binExp
  simp only
  split_ifs with h
  · refine ⟨htest.mp h, ?_⟩
    rw [div_lt_iff₀ hdq]
    calc (n : ℚ) < (2 : ℚ) ^ ((log2 n : ℤ) + 1) := ha2q
      _ = (2 : ℚ) ^ ((log2 n : ℤ) - log2 d + 1) * (2 : ℚ) ^ (log2 d : ℤ) := by
          rw [← zpow_add₀ (by norm_num : (2 : ℚ) ≠ 0)]; congr 1; ring
      _ ≤ (2 : ℚ) ^ ((log2 n : ℤ) - log2 d + 1) * d :=
          mul_le_mul_of_nonneg_left hb1q (h2pos _).le
  · constructor
    · rw [le_div_iff₀ hdq]
      calc (2 : ℚ) ^ ((log2 n : ℤ) - log2 d - 1) * d
          ≤ (2 : ℚ) ^ ((log2 n : ℤ) - log2 d - 1) * (2 : ℚ) ^ ((log2 d : ℤ) + 1) :=
            mul_le_mul_of_nonneg_left hb2q.le (h2pos _).le
        _ = (2 : ℚ) ^ (log2 n : ℤ) := by
            rw [← zpow_add₀ (by norm_num : (2 : ℚ) ≠ 0)]; congr 1; ring
        _ ≤ n := ha1q
    · have := mt htest.mpr h
      push_neg at this
      simpa using this

/-- The function `binExp` computes the integer binary logarithm of the quotient. -/
theorem binExp_eq_log (n d : ℕ) (hn : 0 < n) (hd : 0 < d) :
    Int.log 2 ((n : ℚ) / d) = binExp n d := by
  obtain ⟨h1, h2⟩ := binExp_spec n d hn hd
  exact eq_log_of_bounds _ _ (div_pos (by exact_mod_cast hn) (by exact_mod_cast hd)) h1 h2

/-- The two natural powers in the result of `round64` make up the power `2 ^ e`. -/
theorem two_pow_toNat_div (e : ℤ) :
    ((2 ^ e.toNat : ℕ) : ℚ) / ((2 ^ (-e).toNat : ℕ) : ℚ) = (2 : ℚ) ^ e := by
  rcases le_total 0 e with h | h
  · have h1 : (-e).toNat = 0 := by omega
    have h2 : (e.toNat : ℤ) = e := Int.toNat_of_nonneg h
    rw [h1]
    push_cast
    rw [div_one, ← zpow_natCast, h2]
  · have h1 : e.toNat = 0 := by omega
    have h2 : ((-e).toNat : ℤ) = -e := Int.toNat_of_nonneg (by omega)
    rw [h1]
    push_cast
    rw [one_div, ← zpow_natCast, h2, zpow_neg, inv_inv]

/-- On an operand that is not negative `round64` computes `fl` of its value, and the result is not negative. -/
theorem round64_val (x : Frac) (hn : 0 ≤ x.num) (hd : 0 < x.den) :
    (round64 x).val = fl x.val ∧ 0 ≤ (round64 x).num ∧ 0 < (round64 x).den := by
  have hdq : (0 : ℚ) < x.den := by exact_mod_cast hd
  rcases eq_or_lt_of_le hn with h0 | hpos
  · have hx : x.num = 0 := h0.symm
    simp [round64, hx, Frac.val, fl]
  · have hne : x.num ≠ 0 := ne_of_gt hpos
    have hnat : ((x.num.natAbs : ℕ) : ℤ) = x.num := Int.natAbs_of_nonneg hn
    have hnatpos : 0 < x.num.natAbs := Int.natAbs_pos.mpr hne
    have hsign : x.num.sign = 1 := Int.sign_eq_one_of_pos hpos
    have hval : x.val = (x.num.natAbs : ℚ) / x.den := by
      unfold Frac.val
      have : (x.num : ℚ) = ((x.num.natAbs : ℕ) : ℚ) :=
        calc (x.num : ℚ) = (((x.num.natAbs : ℕ) : ℤ) : ℚ) := by rw [hnat]
          _ = ((x.num.natAbs : ℕ) : ℚ) := Int.cast_natCast _
      rw [this]
    have hvpos : 0 < x.val := by
      rw [hval]
      exact div_pos (by exact_mod_cast hnatpos) hdq
    have hlog : Int.log 2 x.val = binExp x.num.natAbs x.den := by
      rw [hval]
      exact binExp_eq_log _ _ hnatpos hd
    have h2pos : ∀ k : ℕ, (0 : ℚ) < ((2 ^ k : ℕ) : ℚ) := fun k => by positivity
    have hm : ((rne (x.num.natAbs * 2 ^ (-(binExp x.num.natAbs x.den - 52)).toNat)
        (x.den * 2 ^ (binExp x.num.natAbs x.den - 52).toNat) : ℕ) : ℤ)
        = rneQ (x.val / 2 ^ (binExp x.num.natAbs x.den - 52)) := by
      rw [rne_eq_rneQ _ _ (Nat.mul_pos hd (by positivity))]
      congr 1
      rw [← two_pow_toNat_div, hval]
      push_cast
      have a1 := (h2pos (binExp x.num.natAbs x.den - 52).toNat).ne'
      have a2 := (h2pos (-(binExp x.num.natAbs x.den - 52)).toNat).ne'
      push_cast at a1 a2
      field_simp
    refine ⟨?_, ?_, ?_⟩
    · unfold fl
      rw [if_neg (not_le.mpr hvpos), hlog, ← hm]
      simp only [round64, if_neg hne, Frac.val, hsign, one_mul]
      rw [← two_pow_toNat_div]
      push_cast
      have a2 := (h2pos (-(binExp x.num.natAbs x.den - 52)).toNat).ne'
      push_cast at a2
      field_simp
    · simp only [round64, if_neg hne, hsign, one_mul]
      positivity
    · simp only [round64, if_neg hne]
      positivity

/-- Powers of two are positive. -/
theorem two_zpow_pos (z : ℤ) : (0 : ℚ) < (2 : ℚ) ^ z := zpow_pos (by norm_num) z

/-- The value of `fl` at a positive rational. -/
theorem fl_of_pos (v : ℚ) (hv : 0 < v) :
    fl v = (rneQ (v / 2 ^ (Int.log 2 v - 52)) : ℚ) * 2 ^ (Int.log 2 v - 52) := by
  unfold fl
  rw [if_neg (not_le.mpr hv)]

/-- The value of `fl` at a rational whose binary exponent is known. -/
theorem fl_of_exp (v : ℚ) (E : ℤ) (hv : 0 < v) (h1 : (2 : ℚ) ^ E ≤ v)
    (h2 : v < (2 : ℚ) ^ (E + 1)) :
    fl v = (rneQ (v / 2 ^ (E - 52)) : ℚ) * 2 ^ (E - 52) := by
  rw [fl_of_pos v hv, eq_log_of_bounds v E hv h1 h2]

/-- A positive rational scaled to its 53-bit significand lies in `[2 ^ 52, 2 ^ 53)`. -/
theorem scaled_bounds (v : ℚ) (hv : 0 < v) :
    (2 : ℚ) ^ (52 : ℕ) ≤ v / 2 ^ (Int.log 2 v - 52) ∧
      v / 2 ^ (Int.log 2 v - 52) < (2 : ℚ) ^ (53 : ℕ) := by
  have h1 : (2 : ℚ) ^ Int.log 2 v ≤ v := by
    simpa using Int.zpow_log_le_self (b := 2) (by norm_num) hv
  have h2 : v < (2 : ℚ) ^ (Int.log 2 v + 1) := by
    simpa using Int.lt_zpow_succ_log_self (b := 2) (by norm_num) v
  have hp := two_zpow_pos (Int.log 2 v - 52)
  constructor
  · rw [le_div_iff₀ hp, ← zpow_natCast, ← zpow_add₀ (by norm_num : (2 : ℚ) ≠ 0)]
    have : ((52 : ℕ) : ℤ) + (Int.log 2 v - 52) = Int.log 2 v := by push_cast; ring
    rw [this]
    exact h1
  · rw [div_lt_iff₀ hp, ← zpow_natCast, ← zpow_add₀ (by norm_num : (2 : ℚ) ≠ 0)]
    have : ((53 : ℕ) : ℤ) + (Int.log 2 v - 52) = Int.log 2 v + 1 := by push_cast; ring
    rw [this]
    exact h2

/-- Rounding stays within the binade of the value, its upper end included. -/
theorem fl_bounds (v : ℚ) (hv : 0 < v) :
    (2 : ℚ) ^ Int.log 2 v ≤ fl v ∧ fl v ≤ (2 : ℚ) ^ (Int.log 2 v + 1) := by
  obtain ⟨h1, h2⟩ := scaled_bounds v hv
  have hp := two_zpow_pos (Int.log 2 v - 52)
  have a1 : ((2 ^ 52 : ℕ) : ℤ) ≤ rneQ (v / 2 ^ (Int.log 2 v - 52)) := by
    have := rneQ_mono h1
    have e : rneQ ((2 : ℚ) ^ (52 : ℕ)) = ((2 ^ 52 : ℕ) : ℤ) := by
      have := rneQ_natCast (2 ^ 52)
      simpa using this
    rw [e] at this
    exact this
  have a2 : rneQ (v / 2 ^ (Int.log 2 v - 52)) ≤ ((2 ^ 53 : ℕ) : ℤ) := by
    have := rneQ_mono h2.le
    have e : rneQ ((2 : ℚ) ^ (53 : ℕ)) = ((2 ^ 53 : ℕ) : ℤ) := by
      have := rneQ_natCast (2 ^ 53)
      simpa using this
    rw [e] at this
    exact this
  have b1 : ((2 : ℚ) ^ (52 : ℕ)) ≤ (rneQ (v / 2 ^ (Int.log 2 v - 52)) : ℚ) := by
    exact_mod_cast a1
  have b2 : (rneQ (v / 2 ^ (Int.log 2 v - 52)) : ℚ) ≤ ((2 : ℚ) ^ (53 : ℕ)) := by
    exact_mod_cast a2
  rw [fl_of_pos v hv]
  constructor
  · calc (2 : ℚ) ^ Int.log 2 v = (2 : ℚ) ^ (52 : ℕ) * 2 ^ (Int.log 2 v - 52) := by
          rw [← zpow_natCast, ← zpow_add₀ (by norm_num : (2 : ℚ) ≠ 0)]
          congr 1; push_cast; ring
      _ ≤ _ := mul_le_mul_of_nonneg_right b1 hp.le
  · calc _ ≤ (2 : ℚ) ^ (53 : ℕ) * 2 ^ (Int.log 2 v - 52) :=
          mul_le_mul_of_nonneg_right b2 hp.le
      _ = (2 : ℚ) ^ (Int.log 2 v + 1) := by
          rw [← zpow_natCast, ← zpow_add₀ (by norm_num : (2 : ℚ) ≠ 0)]
          congr 1; push_cast; ring

/-- The result of `fl` is never negative. -/
theorem fl_nonneg (v : ℚ) : 0 ≤ fl v := by
  rcases le_or_lt v 0 with h | h
  · simp [fl, h]
  · exact le_trans (two_zpow_pos _).le (fl_bounds v h).1

/-- Rounding to binary64 is monotone. -/
theorem fl_mono {u v : ℚ} (h : u ≤ v) : fl u ≤ fl v := by
  rcases le_or_lt u 0 with hu | hu
  · have : fl u = 0 := by simp [fl, hu]
    rw [this]
    exact fl_nonneg v
  · have hv : 0 < v := lt_of_lt_of_le hu h
    have hlog : Int.log 2 u ≤ Int.log 2 v := Int.log_mono_right hu h
    rcases eq_or_lt_of_le hlog with heq | hlt
    · rw [fl_of_pos u hu, fl_of_pos v hv, heq]
      have hp := two_zpow_pos (Int.log 2 v - 52)
      apply mul_le_mul_of_nonneg_right _ hp.le
      have : rneQ (u / 2 ^ (Int.log 2 v - 52)) ≤ rneQ (v / 2 ^ (Int.log 2 v - 52)) :=
        rneQ_mono (div_le_div_of_nonneg_right h hp.le)
      exact_mod_cast this
    · calc fl u ≤ (2 : ℚ) ^ (Int.log 2 u + 1) := (fl_bounds u hu).2
        _ ≤ (2 : ℚ) ^ Int.log 2 v := zpow_le_zpow_right₀ (by norm_num) (by omega)
        _ ≤ fl v := (fl_bounds v hv).1

/-- A number with a significand below `2 ^ 53` is a binary64 number: rounding leaves it as it is. -/
theorem fl_dyadic (m : ℕ) (k : ℤ) (hm : m < 2 ^ 53) : fl ((m : ℚ) * 2 ^ k) = (m : ℚ) * 2 ^ k := by
  rcases Nat.eq_zero_or_pos m with rfl | hpos
  · simp [fl]
  · obtain ⟨l1, l2⟩ := log2_spec m hpos
    have hL : log2 m ≤ 52 := by
      by_contra hcon
      push_neg at hcon
      have : 2 ^ 53 ≤ 2 ^ log2 m := Nat.pow_le_pow_right (by norm_num) hcon
      omega
    have hmq : (0 : ℚ) < m := by exact_mod_cast hpos
    have hv : (0 : ℚ) < (m : ℚ) * 2 ^ k := mul_pos hmq (two_zpow_pos k)
    have l1q : (2 : ℚ) ^ (log2 m : ℤ) ≤ m := by
      rw [zpow_natCast]; exact_mod_cast l1
    have l2q : (m : ℚ) < (2 : ℚ) ^ ((log2 m : ℤ) + 1) := by
      have : (m : ℚ) < (2 : ℚ) ^ (log2 m + 1) := by exact_mod_cast l2
      rw [← zpow_natCast] at this
      simpa using this
    have hE1 : (2 : ℚ) ^ ((log2 m : ℤ) + k) ≤ (m : ℚ) * 2 ^ k := by
      rw [zpow_add₀ (by norm_num : (2 : ℚ) ≠ 0)]
      exact mul_le_mul_of_nonneg_right l1q (two_zpow_pos k).le
    have hE2 : (m : ℚ) * 2 ^ k < (2 : ℚ) ^ ((log2 m : ℤ) + k + 1) := by
      have : (log2 m : ℤ) + k + 1 = ((log2 m : ℤ) + 1) + k := by ring
      rw [this, zpow_add₀ (by norm_num : (2 : ℚ) ≠ 0)]
      exact mul_lt_mul_of_pos_right l2q (two_zpow_pos k)
    rw [fl_of_exp _ _ hv hE1 hE2]
    have hscaled : (m : ℚ) * 2 ^ k / 2 ^ ((log2 m : ℤ) + k - 52)
        = ((m * 2 ^ (52 - log2 m) : ℕ) : ℚ) := by
      rw [div_eq_iff (two_zpow_pos _).ne']
      push_cast
      rw [mul_assoc, ← zpow_natCast, ← zpow_add₀ (by norm_num : (2 : ℚ) ≠ 0)]
      congr 2
      have : ((52 - log2 m : ℕ) : ℤ) = 52 - (log2 m : ℤ) := by omega
      rw [this]
      ring
    rw [hscaled, rneQ_natCast]
    push_cast
    rw [mul_assoc, ← zpow_natCast, ← zpow_add₀ (by norm_num : (2 : ℚ) ≠ 0)]
    congr 2
    have : ((52 - log2 m : ℕ) : ℤ) = 52 - (log2 m : ℤ) := by omega
    rw [this]
    ring

/-- A natural number below `2 ^ 53` is a binary64 number. -/
theorem fl_natCast (m : ℕ) (hm : m < 2 ^ 53) : fl (m : ℚ) = m := by
  have := fl_dyadic m 0 hm
  simpa using this

/-- A value below the midpoint above the binary64 number `M * 2 ^ e` rounds to at most that number. -/
theorem fl_le_of_lt_midpoint (M : ℕ) (e : ℤ) (y : ℚ) (h52 : 2 ^ 52 ≤ M) (h53 : M < 2 ^ 53)
    (hy : y < ((M : ℚ) + 1 / 2) * 2 ^ e) : fl y ≤ (M : ℚ) * 2 ^ e := by
  have hp := two_zpow_pos e
  rcases le_or_lt y ((M : ℚ) * 2 ^ e) with hle | hgt
  · calc fl y ≤ fl ((M : ℚ) * 2 ^ e) := fl_mono hle
      _ = (M : ℚ) * 2 ^ e := fl_dyadic M e h53
  · have hMq : ((2 : ℚ) ^ (52 : ℕ)) ≤ (M : ℚ) := by exact_mod_cast h52
    have hMq2 : (M : ℚ) + 1 ≤ ((2 : ℚ) ^ (53 : ℕ)) := by exact_mod_cast h53
    have hypos : 0 < y := lt_trans (mul_pos (by positivity) hp) hgt
    have hE1 : (2 : ℚ) ^ (e + 52) ≤ y := by
      have : (2 : ℚ) ^ (e + 52) = (2 : ℚ) ^ (52 : ℕ) * 2 ^ e := by
        rw [← zpow_natCast, ← zpow_add₀ (by norm_num : (2 : ℚ) ≠ 0)]
        congr 1; push_cast; ring
      rw [this]
      exact le_trans (mul_le_mul_of_nonneg_right hMq hp.le) hgt.le
    have hE2 : y < (2 : ℚ) ^ (e + 52 + 1) := by
      have : (2 : ℚ) ^ (e + 52 + 1) = (2 : ℚ) ^ (53 : ℕ) * 2 ^ e := by
        rw [← zpow_natCast, ← zpow_add₀ (by norm_num : (2 : ℚ) ≠ 0)]
        congr 1; push_cast; ring
      rw [this]
      refine lt_of_lt_of_le hy (mul_le_mul_of_nonneg_right ?_ hp.le)
      linarith
    rw [fl_of_exp y (e + 52) hypos hE1 hE2]
    have he : e + 52 - 52 = e := by ring
    rw [he]
    apply mul_le_mul_of_nonneg_right _ hp.le
    have : rneQ (y / 2 ^ e) ≤ (M : ℤ) := by
      apply rneQ_le_of_lt_add_half
      rw [div_lt_iff₀ hp]
      exact_mod_cast hy
    exact_mod_cast this

/-- A value that stays `2 ^ -32` below a natural number `T < 2 ^ 22` which is not a power of two rounds to at most the binary64 number just below `T`. -/
theorem fl_le_below_nat (T k : ℕ) (hk1 : 2 ^ k < T) (hk2 : T < 2 ^ (k + 1)) (hk : k ≤ 21)
    (y : ℚ) (hy : y < (T : ℚ) - (2 : ℚ) ^ (-32 : ℤ)) :
    fl y ≤ (T : ℚ) - (2 : ℚ) ^ ((k : ℤ) - 52) := by
  have hpow : 2 ^ k * 2 ^ (52 - k) = 2 ^ 52 := by
    rw [← pow_add]; congr 1; omega
  have hpow1 : 2 ^ (k + 1) * 2 ^ (52 - k) = 2 ^ 53 := by
    rw [← pow_add]; congr 1; omega
  have hpos : 0 < 2 ^ (52 - k) := by positivity
  have hM1 : 2 ^ 52 < T * 2 ^ (52 - k) := by
    rw [← hpow]; exact Nat.mul_lt_mul_of_pos_right hk1 hpos
  have hM2 : T * 2 ^ (52 - k) < 2 ^ 53 := by
    rw [← hpow1]; exact Nat.mul_lt_mul_of_pos_right hk2 hpos
  have hcast : ((T * 2 ^ (52 - k) - 1 : ℕ) : ℚ) = (T : ℚ) * 2 ^ (52 - k) - 1 := by
    rw [Nat.cast_sub (by omega)]
    push_cast
    ring
  have hz : (2 : ℚ) ^ (52 - k) * (2 : ℚ) ^ ((k : ℤ) - 52) = 1 := by
    rw [← zpow_natCast, ← zpow_add₀ (by norm_num : (2 : ℚ) ≠ 0)]
    have : ((52 - k : ℕ) : ℤ) + ((k : ℤ) - 52) = 0 := by omega
    rw [this, zpow_zero]
  have hval : ((T * 2 ^ (52 - k) - 1 : ℕ) : ℚ) * (2 : ℚ) ^ ((k : ℤ) - 52)
      = (T : ℚ) - (2 : ℚ) ^ ((k : ℤ) - 52) := by
    rw [hcast, sub_mul, mul_assoc, hz, mul_one, one_mul]
  rw [← hval]
  apply fl_le_of_lt_midpoint _ _ _ (by omega) (by omega)
  rw [add_mul, hval]
  have hle : (2 : ℚ) ^ ((k : ℤ) - 52) ≤ 2 * (2 : ℚ) ^ (-32 : ℤ) := by
    have : (2 : ℚ) * (2 : ℚ) ^ (-32 : ℤ) = (2 : ℚ) ^ (-31 : ℤ) := by norm_num
    rw [this]
    exact zpow_le_zpow_right₀ (by norm_num) (by omega)
  linarith

/-- A value that stays half a unit in the last place below a natural number rounds to less than it. -/
theorem fl_lt_nat (N j : ℕ) (hj1 : 2 ^ j ≤ N) (hj2 : N < 2 ^ (j + 1)) (hj : j ≤ 51)
    (y : ℚ) (hy : y < (N : ℚ) - (2 : ℚ) ^ ((j : ℤ) - 53)) : fl y < (N : ℚ) := by
  rcases eq_or_lt_of_le hj1 with heq | hlt
  · -- `N` is a power of two: the number below it lies in the binade below
    have hNq : (N : ℚ) = (2 : ℚ) ^ (j : ℤ) := by
      rw [← heq]; push_cast; rw [zpow_natCast]
    have hval : ((2 ^ 53 - 1 : ℕ) : ℚ) * (2 : ℚ) ^ ((j : ℤ) - 53)
        = (N : ℚ) - (2 : ℚ) ^ ((j : ℤ) - 53) := by
      rw [hNq]
      have : ((2 ^ 53 - 1 : ℕ) : ℚ) = (2 : ℚ) ^ (53 : ℤ) - 1 := by norm_num
      rw [this, sub_mul, one_mul, ← zpow_add₀ (by norm_num : (2 : ℚ) ≠ 0)]
      congr 2
      ring
    have hfl : fl y ≤ ((2 ^ 53 - 1 : ℕ) : ℚ) * (2 : ℚ) ^ ((j : ℤ) - 53) := by
      apply fl_le_of_lt_midpoint _ _ _ (by norm_num) (by norm_num)
      rw [add_mul, hval]
      have := two_zpow_pos ((j : ℤ) - 53)
      linarith
    rw [hval] at hfl
    have := two_zpow_pos ((j : ℤ) - 53)
    linarith
  · have hpow : 2 ^ j * 2 ^ (52 - j) = 2 ^ 52 := by
      rw [← pow_add]; congr 1; omega
    have hpow1 : 2 ^ (j + 1) * 2 ^ (52 - j) = 2 ^ 53 := by
      rw [← pow_add]; congr 1; omega
    have hpos : 0 < 2 ^ (52 - j) := by positivity
    have hM1 : 2 ^ 52 < N * 2 ^ (52 - j) := by
      rw [← hpow]; exact Nat.mul_lt_mul_of_pos_right hlt hpos
    have hM2 : N * 2 ^ (52 - j) < 2 ^ 53 := by
      rw [← hpow1]; exact Nat.mul_lt_mul_of_pos_right hj2 hpos
    have hcast : ((N * 2 ^ (52 - j) - 1 : ℕ) : ℚ) = (N : ℚ) * 2 ^ (52 - j) - 1 := by
      rw [Nat.cast_sub (by omega)]
      push_cast
      ring
    have hz : (2 : ℚ) ^ (52 - j) * (2 : ℚ) ^ ((j : ℤ) - 52) = 1 := by
      rw [← zpow_natCast, ← zpow_add₀ (by norm_num : (2 : ℚ) ≠ 0)]
      have : ((52 - j : ℕ) : ℤ) + ((j : ℤ) - 52) = 0 := by omega
      rw [this, zpow_zero]
    have hval : ((N * 2 ^ (52 - j) - 1 : ℕ) : ℚ) * (2 : ℚ) ^ ((j : ℤ) - 52)
        = (N : ℚ) - (2 : ℚ) ^ ((j : ℤ) - 52) := by
      rw [hcast, sub_mul, mul_assoc, hz, mul_one, one_mul]
    have hhalf : (2 : ℚ) ^ ((j : ℤ) - 52) = 2 * (2 : ℚ) ^ ((j : ℤ) - 53) := by
      have : (j : ℤ) - 52 = 1 + ((j : ℤ) - 53) := by ring
      rw [this, zpow_add₀ (by norm_num : (2 : ℚ) ≠ 0), zpow_one]
    have hfl : fl y ≤ ((N * 2 ^ (52 - j) - 1 : ℕ) : ℚ) * (2 : ℚ) ^ ((j : ℤ) - 52) := by
      apply fl_le_of_lt_midpoint _ _ _ (by omega) (by omega)
      rw [add_mul, hval, hhalf]
      linarith
    rw [hval] at hfl
    have := two_zpow_pos ((j : ℤ) - 52)
    linarith

/-- No power of two is a multiple of three. -/
theorem three_not_dvd_two_pow (k : ℕ) : ¬ 3 ∣ 2 ^ k := by
  intro h
  have := Nat.Prime.dvd_of_dvd_pow Nat.prime_three h
  omega

/-- The binary64 computation of the days stays within the day the whole hours fall in, when the rest of the hour is at least a microsecond short of the hour. -/
theorem fl_days_bounds (hour nsec : ℕ) (hhour : hour ≤ 2562047)
    (hnsec : nsec + 1000 ≤ 3600000000000) :
    ((hour / 24 : ℕ) : ℚ)
        ≤ fl (fl ((hour : ℚ) + fl ((nsec : ℚ) / (3600000000000 : ℕ))) / (24 : ℕ)) ∧
      fl (fl ((hour : ℚ) + fl ((nsec : ℚ) / (3600000000000 : ℕ))) / (24 : ℕ))
        < ((hour / 24 : ℕ) : ℚ) + 1 := by
  set n := hour / 24 with hn
  set qv := fl ((nsec : ℚ) / (3600000000000 : ℕ)) with hqv
  have hq0 : 0 ≤ qv := fl_nonneg _
  -- the fraction of the hour stays below 1 - 257 / 2 ^ 40
  have hq1 : qv ≤ ((2 ^ 40 - 257 : ℕ) : ℚ) * (2 : ℚ) ^ (-40 : ℤ) := by
    rw [← fl_dyadic (2 ^ 40 - 257) (-40) (by norm_num)]
    apply fl_mono
    have h1 : (nsec : ℚ) ≤ 3599999999000 := by
      have : nsec ≤ 3599999999000 := by omega
      exact_mod_cast this
    rw [div_le_iff₀ (by norm_num)]
    norm_num
    linarith
  have hz0 : ((2 ^ 40 - 257 : ℕ) : ℚ) * (2 : ℚ) ^ (-40 : ℤ) < 1 - (2 : ℚ) ^ (-32 : ℤ) := by
    norm_num
  have hlow : 24 * n ≤ hour := by omega
  have hup : hour + 1 ≤ 24 * (n + 1) := by omega
  have hn1 : n + 1 ≤ 106752 := by omega
  have hlowq : ((24 * n : ℕ) : ℚ) ≤ hour := by exact_mod_cast hlow
  have hupq : (hour : ℚ) + 1 ≤ ((24 * (n + 1) : ℕ) : ℚ) := by exact_mod_cast hup
  constructor
  · -- lower bound
    have h1 : ((24 * n : ℕ) : ℚ) ≤ fl ((hour : ℚ) + qv) := by
      rw [← fl_natCast (24 * n) (by omega)]
      apply fl_mono
      linarith
    have h2 : (n : ℚ) ≤ fl ((hour : ℚ) + qv) / (24 : ℕ) := by
      rw [le_div_iff₀ (by norm_num)]
      push_cast at h1 ⊢
      linarith
    calc (n : ℚ) = fl (n : ℚ) := (fl_natCast n (by omega)).symm
      _ ≤ _ := fl_mono h2
  · -- upper bound
    obtain ⟨k1, k2⟩ := log2_spec (24 * (n + 1)) (by omega)
    have hk1 : 2 ^ log2 (24 * (n + 1)) < 24 * (n + 1) := by
      rcases eq_or_lt_of_le k1 with heq | hlt
      · exfalso
        apply three_not_dvd_two_pow (log2 (24 * (n + 1)))
        rw [heq]
        exact ⟨8 * (n + 1), by ring⟩
      · exact hlt
    have hk : log2 (24 * (n + 1)) ≤ 21 := by
      by_contra hcon
      push_neg at hcon
      have : 2 ^ 22 ≤ 2 ^ log2 (24 * (n + 1)) := Nat.pow_le_pow_right (by norm_num) hcon
      omega
    have hy2 : (hour : ℚ) + qv < ((24 * (n + 1) : ℕ) : ℚ) - (2 : ℚ) ^ (-32 : ℤ) := by
      linarith
    have hh := fl_le_below_nat (24 * (n + 1)) (log2 (24 * (n + 1))) hk1 k2 hk _ hy2
    obtain ⟨j1, j2⟩ := log2_spec (n + 1) (by omega)
    have hj : log2 (n + 1) ≤ 51 := by
      by_contra hcon
      push_neg at hcon
      have : 2 ^ 52 ≤ 2 ^ log2 (n + 1) := Nat.pow_le_pow_right (by norm_num) hcon
      omega
    have hjk : log2 (n + 1) + 4 ≤ log2 (24 * (n + 1)) := by
      have h16 : 2 ^ (log2 (n + 1) + 4) < 2 ^ (log2 (24 * (n + 1)) + 1) := by
        calc 2 ^ (log2 (n + 1) + 4) = 16 * 2 ^ log2 (n + 1) := by rw [pow_add]; ring
          _ ≤ 16 * (n + 1) := by omega
          _ < 24 * (n + 1) := by omega
          _ < 2 ^ (log2 (24 * (n + 1)) + 1) := k2
      have := (Nat.pow_lt_pow_iff_right (by norm_num : 1 < 2)).mp h16
      omega
    have hpw : 16 * (2 : ℚ) ^ ((log2 (n + 1) : ℤ) - 52)
        ≤ (2 : ℚ) ^ ((log2 (24 * (n + 1)) : ℤ) - 52) := by
      have : 16 * (2 : ℚ) ^ ((log2 (n + 1) : ℤ) - 52)
          = (2 : ℚ) ^ ((log2 (n + 1) : ℤ) + 4 - 52) := by
        have e : (log2 (n + 1) : ℤ) + 4 - 52 = 4 + ((log2 (n + 1) : ℤ) - 52) := by ring
        rw [e, zpow_add₀ (by norm_num : (2 : ℚ) ≠ 0)]
        norm_num
      rw [this]
      exact zpow_le_zpow_right₀ (by norm_num) (by omega)
    have hhalf : (2 : ℚ) ^ ((log2 (n + 1) : ℤ) - 52)
        = 2 * (2 : ℚ) ^ ((log2 (n + 1) : ℤ) - 53) := by
      have : (log2 (n + 1) : ℤ) - 52 = 1 + ((log2 (n + 1) : ℤ) - 53) := by ring
      rw [this, zpow_add₀ (by norm_num : (2 : ℚ) ≠ 0), zpow_one]
    have hp := two_zpow_pos ((log2 (n + 1) : ℤ) - 53)
    have hy3 : fl ((hour : ℚ) + qv) / (24 : ℕ)
        < ((n + 1 : ℕ) : ℚ) - (2 : ℚ) ^ ((log2 (n + 1) : ℤ) - 53) := by
      rw [div_lt_iff₀ (by norm_num)]
      push_cast at hh ⊢
      linarith
    have := fl_lt_nat (n + 1) (log2 (n + 1)) j1 j2 hj _ hy3
    push_cast at this
    exact this

/-- Rounding keeps an operand that is not negative so, and its value is `fl` of the value. -/
theorem round64_nonneg (x : Frac) (h : x.Nonneg) :
    (round64 x).Nonneg ∧ (round64 x).val = fl x.val := by
  obtain ⟨h1, h2, h3⟩ := round64_val x h.1 h.2
  exact ⟨⟨h2, h3⟩, h1⟩

/-- The operand of an integer that is not negative. -/
theorem ofInt_nonneg (i : ℤ) (h : 0 ≤ i) : (Frac.ofInt i).Nonneg ∧ (Frac.ofInt i).val = i := by
  refine ⟨⟨h, Nat.one_pos⟩, ?_⟩
  simp [Frac.ofInt, Frac.val]

/-- The sum of two operands that are not negative. -/
theorem add_nonneg_val (x y : Frac) (hx : x.Nonneg) (hy : y.Nonneg) :
    (x.add y).Nonneg ∧ (x.add y).val = x.val + y.val := by
  obtain ⟨hx1, hx2⟩ := hx
  obtain ⟨hy1, hy2⟩ := hy
  have hxq : (x.den : ℚ) ≠ 0 := by exact_mod_cast hx2.ne'
  have hyq : (y.den : ℚ) ≠ 0 := by exact_mod_cast hy2.ne'
  refine ⟨⟨?_, Nat.mul_pos hx2 hy2⟩, ?_⟩
  · simp only [Frac.add]
    positivity
  · simp only [Frac.add, Frac.val]
    push_cast
    field_simp

/-- The quotient of an operand that is not negative by a positive constant. -/
theorem divNat_nonneg_val (x : Frac) (k : ℕ) (hx : x.Nonneg) (hk : 0 < k) :
    (x.divNat k).Nonneg ∧ (x.divNat k).val = x.val / k := by
  obtain ⟨hx1, hx2⟩ := hx
  have hxq : (x.den : ℚ) ≠ 0 := by exact_mod_cast hx2.ne'
  have hkq : (k : ℚ) ≠ 0 := by exact_mod_cast hk.ne'
  refine ⟨⟨hx1, Nat.mul_pos hx2 hk⟩, ?_⟩
  simp only [Frac.divNat, Frac.val]
  push_cast
  field_simp

/-- On an operand that is not negative the conversion to `int` is the floor. -/
theorem trunc_of_nonneg (x : Frac) (hx : x.Nonneg) : x.trunc = ⌊x.val⌋ := by
  obtain ⟨hx1, hx2⟩ := hx
  unfold Frac.trunc Frac.val
  rw [Int.tdiv_eq_ediv hx1 (by positivity), Rat.floor_intCast_div_natCast]

/-- Rounding keeps an operand that is not positive so. -/
theorem round64_nonpos (x : Frac) (h : x.Nonpos) : (round64 x).Nonpos := by
  obtain ⟨h1, h2⟩ := h
  unfold round64
  split_ifs with h0
  · exact ⟨le_rfl, Nat.one_pos⟩
  · have hneg : x.num < 0 := lt_of_le_of_ne h1 h0
    refine ⟨?_, by positivity⟩
    simp only [Int.sign_eq_neg_one_of_neg hneg]
    have : (0 : ℤ) ≤ ((rne (x.num.natAbs * 2 ^ (-(binExp x.num.natAbs x.den - 52)).toNat)
      (x.den * 2 ^ (binExp x.num.natAbs x.den - 52).toNat) *
        2 ^ (binExp x.num.natAbs x.den - 52).toNat : ℕ) : ℤ) := Int.natCast_nonneg _
    linarith

/-- The sum of two operands that are not positive is not positive. -/
theorem add_isNonpos (x y : Frac) (hx : x.Nonpos) (hy : y.Nonpos) : (x.add y).Nonpos := by
  obtain ⟨hx1, hx2⟩ := hx
  obtain ⟨hy1, hy2⟩ := hy
  refine ⟨?_, Nat.mul_pos hx2 hy2⟩
  simp only [Frac.add]
  have a : x.num * (y.den : ℤ) ≤ 0 := mul_nonpos_of_nonpos_of_nonneg hx1 (by positivity)
  have b : y.num * (x.den : ℤ) ≤ 0 := mul_nonpos_of_nonpos_of_nonneg hy1 (by positivity)
  linarith

/-- The conversion to `int` of an operand that is not positive is not positive. -/
theorem trunc_of_nonpos (x : Frac) (hx : x.Nonpos) : x.trunc ≤ 0 := by
  obtain ⟨hx1, hx2⟩ := hx
  unfold Frac.trunc
  have h := Int.neg_tdiv x.num x.den
  have h2 : 0 ≤ (-x.num).tdiv x.den := Int.tdiv_nonneg (by omega) (by positivity)
  omega

/-- Quotient and remainder of truncated division of a number that is not positive are not positive. -/
theorem tdiv_tmod_nonpos (a b : ℤ) (ha : a ≤ 0) (hb : 0 < b) :
    a.tdiv b ≤ 0 ∧ a.tmod b ≤ 0 := by
  have h := Int.neg_tdiv a b
  have h2 : 0 ≤ (-a).tdiv b := Int.tdiv_nonneg (by omega) hb.le
  have h3 : (-a).tdiv b = (-a) / b := Int.tdiv_eq_ediv (by omega) hb.le
  have h4 : b * ((-a) / b) ≤ -a := Int.mul_ediv_self_le hb.ne'
  refine ⟨by omega, ?_⟩
  rw [Int.tmod_def]
  have : a.tdiv b = -((-a) / b) := by omega
  rw [this]
  have : b * -(-a / b) = -(b * (-a / b)) := by ring
  omega

/-! ## Billed days: lemmas -/

/-- For a duration that is not negative, fits a `time.Duration` and is a whole number of microseconds, the binary64 computation of the days is the integer quotient by 24 hours. -/
theorem days_of_nonneg (d : ℤ) (h0 : 0 ≤ d) (hmax : d ≤ maxDuration) (hmicro : (1000 : ℤ) ∣ d) :
    Frac.trunc (round64 (Frac.divNat (Hours d) 24)) = d / (24 * Hour) := by
  have hmax2 : d ≤ 9223372036854775807 := by
    have : maxDuration = 9223372036854775807 := by norm_num [maxDuration]
    omega
  obtain ⟨c, hc⟩ := hmicro
  have hHour : Hour = 3600000000000 := rfl
  have hdiv : d.tdiv Hour = d / 3600000000000 := by
    rw [hHour]; exact Int.tdiv_eq_ediv h0 (by norm_num)
  have hmod : d.tmod Hour = d % 3600000000000 := by
    rw [hHour]; exact Int.tmod_eq_emod h0 (by norm_num)
  -- the whole hours and the rest, as natural numbers
  obtain ⟨hour, hhour⟩ : ∃ hour : ℕ, (hour : ℤ) = d / 3600000000000 :=
    ⟨(d / 3600000000000).toNat, Int.toNat_of_nonneg (by omega)⟩
  obtain ⟨nsec, hnsec⟩ : ∃ nsec : ℕ, (nsec : ℤ) = d % 3600000000000 :=
    ⟨(d % 3600000000000).toNat, Int.toNat_of_nonneg (by omega)⟩
  have hhour_le : hour ≤ 2562047 := by omega
  have hnsec_le : nsec + 1000 ≤ 3600000000000 := by omega
  obtain ⟨hlo, hhi⟩ := fl_days_bounds hour nsec hhour_le hnsec_le
  -- the value of every intermediate result
  obtain ⟨a1, a2⟩ := ofInt_nonneg (d / 3600000000000) (by omega)
  obtain ⟨a3, a4⟩ := round64_nonneg _ a1
  obtain ⟨b1, b2⟩ := ofInt_nonneg (d % 3600000000000) (by omega)
  obtain ⟨b3, b4⟩ := round64_nonneg _ b1
  obtain ⟨c1, c2⟩ := divNat_nonneg_val _ 3600000000000 b3 (by norm_num)
  obtain ⟨c3, c4⟩ := round64_nonneg _ c1
  obtain ⟨s1, s2⟩ := add_nonneg_val _ _ a3 c3
  obtain ⟨s3, s4⟩ := round64_nonneg _ s1
  obtain ⟨e1, e2⟩ := divNat_nonneg_val _ 24 s3 (by norm_num)
  obtain ⟨e3, e4⟩ := round64_nonneg _ e1
  have hA : (round64 (Frac.ofInt (d / 3600000000000))).val = (hour : ℚ) := by
    rw [a4, a2, ← hhour, Int.cast_natCast]
    exact fl_natCast hour (by omega)
  have hB : (round64 (Frac.ofInt (d % 3600000000000))).val = (nsec : ℚ) := by
    rw [b4, b2, ← hnsec, Int.cast_natCast]
    exact fl_natCast nsec (by omega)
  have hval : (round64 (Frac.divNat (Hours d) 24)).val
      = fl (fl ((hour : ℚ) + fl ((nsec : ℚ) / (3600000000000 : ℕ))) / (24 : ℕ)) := by
    unfold Hours
    simp only [hdiv, hmod]
    rw [e4, e2, s4, s2, hA, c4, c2, hB]
  have hnonneg : (round64 (Frac.divNat (Hours d) 24)).Nonneg := by
    unfold Hours
    simp only [hdiv, hmod]
    exact e3
  rw [trunc_of_nonneg _ hnonneg, hval, Int.floor_eq_iff]
  have hq : d / (24 * Hour) = ((hour / 24 : ℕ) : ℤ) := by
    rw [hHour]
    push_cast
    omega
  rw [hq]
  exact ⟨by exact_mod_cast hlo, by exact_mod_cast hhi⟩

/-- For a duration that is not positive the binary64 computation yields no day. -/
theorem days_of_neg (d : ℤ) (h : d ≤ 0) :
    Frac.trunc (round64 (Frac.divNat (Hours d) 24)) ≤ 0 := by
  obtain ⟨h1, h2⟩ := tdiv_tmod_nonpos d Hour h (by norm_num [Hour])
  have a : (round64 (Frac.ofInt (d.tdiv Hour))).Nonpos :=
    round64_nonpos _ ⟨h1, Nat.one_pos⟩
  have b : (round64 (Frac.ofInt (d.tmod Hour))).Nonpos :=
    round64_nonpos _ ⟨h2, Nat.one_pos⟩
  have c : (round64 (Frac.divNat (round64 (Frac.ofInt (d.tmod Hour))) 3600000000000)).Nonpos :=
    round64_nonpos _ ⟨b.1, Nat.mul_pos b.2 (by norm_num)⟩
  have s : (round64 (Frac.add (round64 (Frac.ofInt (d.tdiv Hour)))
      (round64 (Frac.divNat (round64 (Frac.ofInt (d.tmod Hour))) 3600000000000)))).Nonpos :=
    round64_nonpos _ (add_isNonpos _ _ a c)
  apply trunc_of_nonpos
  apply round64_nonpos
  exact ⟨s.1, Nat.mul_pos s.2 (by norm_num)⟩

/-- The billed days are `max(1, floor((end - start) / 24h))` for times a whole number of microseconds apart whose difference fits a `time.Duration`. -/
theorem billedDays_eq (startTime endTime : ℤ)
    (hmin : minDuration ≤ endTime - startTime) (hmax : endTime - startTime ≤ maxDuration)
    (hmicro : (1000 : ℤ) ∣ endTime - startTime) :
    billedDays startTime endTime = max 1 ((endTime - startTime) / (24 * Hour)) := by
  have hsub : Sub endTime startTime = endTime - startTime := by
    unfold Sub
    rw [if_neg (not_lt.mpr hmax), if_neg (not_lt.mpr hmin)]
  unfold billedDays
  simp only [hsub]
  rcases le_or_lt 0 (endTime - startTime) with hpos | hneg
  · rw [days_of_nonneg _ hpos hmax hmicro]
    split_ifs with h
    · exact (max_eq_left (by omega)).symm
    · exact (max_eq_right (by omega)).symm
  · have hd := days_of_neg _ hneg.le
    rw [if_pos (by omega)]
    have : (endTime - startTime) / (24 * Hour) < 0 :=
      Int.ediv_neg' hneg (by norm_num [Hour])
    exact (max_eq_left (by omega)).symm

/-- A value that fits 64 bits does not wrap. -/
theorem wrapInt64_of_fits (x : ℤ) (h1 : -(2 ^ 63) ≤ x) (h2 : x < 2 ^ 63) : wrapInt64 x = x := by
  unfold wrapInt64
  omega

/-! ## Evaluations at the sample data -/

set_option maxRecDepth 100000 in
/-- Two days at 10000 a day without damage come to 20000. -/
theorem finalAmount_sample : finalAmount 0 172800000000000 10000 0 = 20000 := by decide


/-! ## Lemmas: the instant the database keeps -/

/-- The stored instant is a whole microsecond, not after the instant and less
than a microsecond before it. -/
theorem storedTime_spec (t : ℤ) :
    storedTime t % 1000 = 0 ∧ storedTime t ≤ t ∧ t < storedTime t + 1000 := by
  unfold storedTime
  omega

/-- A whole microsecond is stored as it is. -/
theorem storedTime_of_whole (t : ℤ) (h : t % 1000 = 0) : storedTime t = t := by
  unfold storedTime
  omega

/-- Whole microseconds added to an instant are added to the stored instant. -/
theorem storedTime_add_whole (t k : ℤ) (h : k % 1000 = 0) :
    storedTime (t + k) = storedTime t + k := by
  unfold storedTime
  omega

/-- An instant at least a microsecond later is stored later. -/
theorem storedTime_lt (a b : ℤ) (h : a + 1000 ≤ b) : storedTime a < storedTime b := by
  unfold storedTime
  omega

/-- An instant that is not later is not stored later. -/
theorem storedTime_le_of_le (a b : ℤ) (h : a ≤ b) : storedTime a ≤ storedTime b := by
  unfold storedTime
  omega
/-! ## Serial attempts: lemmas -/

/-- After the UPDATE the car reads with the new status. -/
theorem carStatus_setCarStatus (db : DB) (carID : String) (s0 s : CarStatus)
    (h : carStatus db carID = some s0) : carStatus (setCarStatus db s carID) carID = some s := by
  unfold carStatus at h ⊢
  cases hf : db.cars.find? (fun c => c.id = carID) with
  | none => simp [hf] at h
  | some car =>
    have hid : car.id = carID := by simpa using List.find?_some hf
    have : (db.cars.map fun c => if c.id = carID then { c with status := s } else c).find?
        (fun c => c.id = carID) = some { car with status := s } := by
      rw [List.find?_map]
      have hcomp : ((fun c : Car => decide (c.id = carID)) ∘
          fun c => if c.id = carID then { c with status := s } else c)
          = fun c => decide (c.id = carID) := by
        funext c
        by_cases hc : c.id = carID <;> simp [hc]
      rw [hcomp, hf]
      simp [hid]
    simp [setCarStatus, this]

/-- Inserting a booking does not change the status of a car. -/
theorem carStatus_insertBooking (db : DB) (b : Booking) (carID : String) :
    carStatus (insertBooking db b) carID = carStatus db carID := rfl

/-- Updating a car does not change the bookings. -/
theorem bookingsFor_setCarStatus (db : DB) (s : CarStatus) (c carID : String) :
    bookingsFor (setCarStatus db s c) carID = bookingsFor db carID := rfl

/-- An inserted booking for the car comes last among its bookings. -/
theorem bookingsFor_insertBooking (db : DB) (b : Booking) (carID : String)
    (h : b.carID = carID) :
    bookingsFor (insertBooking db b) carID = bookingsFor db carID ++ [b] := by
  simp [bookingsFor, insertBooking, List.filter_append, h]

/-- From an available car without booking the unit of `CreateBooking` fails at a failing statement or yields the car rented with one booking. -/
theorem createBookingWork_unbooked (env : Env) (req : CreateBookingRequest) (f : Nat → Bool)
    (db : DB) (st : Stripe)
    (havail : carStatus db req.CarID = some CarStatusAvailable)
    (hnone : bookingsFor db req.CarID = []) :
    ((∃ e, (createBookingWork env req f db st).result = .error e) ∧
        ¬ (f 0 = false ∧ f 1 = false ∧ f 2 = false)) ∨
      ∃ db1, (createBookingWork env req f db st).result = .ok ((), db1) ∧
        carStatus db1 req.CarID = some CarStatusRented ∧
        (bookingsFor db1 req.CarID).length = 1 := by
  unfold carStatus at havail
  cases hf : db.cars.find? (fun c => c.id = req.CarID) with
  | none => simp [hf] at havail
  | some car =>
    have hst : car.status = CarStatusAvailable := by simpa [hf] using havail
    have hcs : carStatus db req.CarID = some CarStatusAvailable := by simp [carStatus, hf, hst]
    cases h0 : f 0 <;> cases h1 : f 1 <;> cases h2 : f 2 <;>
      simp [createBookingWork, h0, h1, h2, hf, hst]
    refine ⟨carStatus_setCarStatus _ _ _ _ (by rw [carStatus_insertBooking]; exact hcs), ?_⟩
    rw [bookingsFor_setCarStatus,
      bookingsFor_insertBooking db (pendingBooking env.newBookingID req.CarID req.CustomerID
        req.StartTime req.EndTime) req.CarID rfl, hnone]
    rfl

/-- On a rented car the unit of `CreateBooking` fails. -/
theorem createBookingWork_booked (env : Env) (req : CreateBookingRequest) (f : Nat → Bool)
    (db : DB) (st : Stripe) (hrented : carStatus db req.CarID = some CarStatusRented) :
    ∃ e, (createBookingWork env req f db st).result = .error e := by
  unfold carStatus at hrented
  cases hf : db.cars.find? (fun c => c.id = req.CarID) with
  | none => simp [hf] at hrented
  | some car =>
    have hst : car.status = CarStatusRented := by simpa [hf] using hrented
    have hne : car.status ≠ CarStatusAvailable := by rw [hst]; decide
    cases h0 : f 0 <;> simp [createBookingWork, h0, hf, hne]

/-- From an available car without booking steps 2 to 4 of `PublicBook` fail at a failing statement or yield the car rented with one booking. -/
theorem publicBookCar_unbooked (env : Env) (req : PublicBookRequest) (cid : String)
    (pre : List Effect) (f : Nat → Bool) (db : DB) (st : Stripe)
    (havail : carStatus db req.CarID = some CarStatusAvailable)
    (hnone : bookingsFor db req.CarID = []) :
    ((∃ e, (publicBookCar env req cid pre f db st).result = .error e) ∧
        ¬ (f 2 = false ∧ f 3 = false ∧ f 4 = false)) ∨
      ∃ db1, (publicBookCar env req cid pre f db st).result = .ok ((), db1) ∧
        carStatus db1 req.CarID = some CarStatusRented ∧
        (bookingsFor db1 req.CarID).length = 1 := by
  unfold carStatus at havail
  cases hf : db.cars.find? (fun c => c.id = req.CarID) with
  | none => simp [hf] at havail
  | some car =>
    have hst : car.status = CarStatusAvailable := by simpa [hf] using havail
    have hcs : carStatus db req.CarID = some CarStatusAvailable := by simp [carStatus, hf, hst]
    cases h2 : f 2 <;> cases h3 : f 3 <;> cases h4 : f 4 <;>
      simp [publicBookCar, h2, h3, h4, hf, hst]
    refine ⟨carStatus_setCarStatus _ _ _ _ (by rw [carStatus_insertBooking]; exact hcs), ?_⟩
    rw [bookingsFor_setCarStatus,
      bookingsFor_insertBooking db (pendingBooking env.newBookingID req.CarID cid
        req.StartDate req.EndDate) req.CarID rfl, hnone]
    rfl

/-- On a rented car steps 2 to 4 of `PublicBook` fail. -/
theorem publicBookCar_booked (env : Env) (req : PublicBookRequest) (cid : String)
    (pre : List Effect) (f : Nat → Bool) (db : DB) (st : Stripe)
    (hrented : carStatus db req.CarID = some CarStatusRented) :
    ∃ e, (publicBookCar env req cid pre f db st).result = .error e := by
  unfold carStatus at hrented
  cases hf : db.cars.find? (fun c => c.id = req.CarID) with
  | none => simp [hf] at hrented
  | some car =>
    have hst : car.status = CarStatusRented := by simpa [hf] using hrented
    have hne : car.status ≠ CarStatusAvailable := by rw [hst]; decide
    cases h2 : f 2 <;> simp [publicBookCar, h2, hf, hne]

/-- From an available car without booking the unit of `PublicBook` fails at a failing statement or yields the car rented with one booking. -/
theorem publicBookWork_unbooked (env : Env) (req : PublicBookRequest) (f : Nat → Bool)
    (db : DB) (st : Stripe)
    (havail : carStatus db req.CarID = some CarStatusAvailable)
    (hnone : bookingsFor db req.CarID = []) :
    ((∃ e, (publicBookWork env req f db st).result = .error e) ∧ ¬ (∀ k, f k = false)) ∨
      ∃ db1, (publicBookWork env req f db st).result = .ok ((), db1) ∧
        carStatus db1 req.CarID = some CarStatusRented ∧
        (bookingsFor db1 req.CarID).length = 1 := by
  cases h0 : f 0
  · cases hc : db.customers.find? (fun c => c.email = req.CustomerEmail) with
    | some customer =>
      have key : publicBookWork env req f db st
          = publicBookCar env req customer.id [.select "customers"] f db st := by
        simp [publicBookWork, h0, hc]
      rw [key]
      rcases publicBookCar_unbooked env req customer.id [.select "customers"] f db st havail
        hnone with ⟨he, hf⟩ | h
      · exact Or.inl ⟨he, fun hall => hf ⟨hall 2, hall 3, hall 4⟩⟩
      · exact Or.inr h
    | none =>
      cases h1 : f 1
      · have key : publicBookWork env req f db st
            = publicBookCar env req env.newCustomerID
                [.select "customers", .insert "customers"] f
                { db with customers := db.customers ++
                    [⟨env.newCustomerID, req.CustomerEmail, req.CustomerName, ""⟩] } st := by
          simp [publicBookWork, h0, h1, hc]
        rw [key]
        rcases publicBookCar_unbooked env req env.newCustomerID
          [.select "customers", .insert "customers"] f
          { db with customers := db.customers ++
              [⟨env.newCustomerID, req.CustomerEmail, req.CustomerName, ""⟩] } st havail
          hnone with ⟨he, hf⟩ | h
        · exact Or.inl ⟨he, fun hall => hf ⟨hall 2, hall 3, hall 4⟩⟩
        · exact Or.inr h
      · exact Or.inl ⟨by simp [publicBookWork, h0, h1, hc],
          fun hall => by simp [hall 1] at h1⟩
  · exact Or.inl ⟨by simp [publicBookWork, h0], fun hall => by simp [hall 0] at h0⟩

/-- On a rented car the unit of `PublicBook` fails. -/
theorem publicBookWork_booked (env : Env) (req : PublicBookRequest) (f : Nat → Bool)
    (db : DB) (st : Stripe) (hrented : carStatus db req.CarID = some CarStatusRented) :
    ∃ e, (publicBookWork env req f db st).result = .error e := by
  cases h0 : f 0
  · cases hc : db.customers.find? (fun c => c.email = req.CustomerEmail) with
    | some customer =>
      have key : publicBookWork env req f db st
          = publicBookCar env req customer.id [.select "customers"] f db st := by
        simp [publicBookWork, h0, hc]
      rw [key]
      exact publicBookCar_booked env req customer.id [.select "customers"] f db st hrented
    | none =>
      cases h1 : f 1
      · have key : publicBookWork env req f db st
            = publicBookCar env req env.newCustomerID
                [.select "customers", .insert "customers"] f
                { db with customers := db.customers ++
                    [⟨env.newCustomerID, req.CustomerEmail, req.CustomerName, ""⟩] } st := by
          simp [publicBookWork, h0, h1, hc]
        rw [key]
        exact publicBookCar_booked env req env.newCustomerID
          [.select "customers", .insert "customers"] f
          { db with customers := db.customers ++
              [⟨env.newCustomerID, req.CustomerEmail, req.CustomerName, ""⟩] } st hrented
      · simp [publicBookWork, h0, h1, hc]
  · simp [publicBookWork, h0]

/-- A unit that fails is rolled back: partitions and directory are unchanged. -/
theorem runInTenantScope_of_error {α : Type} (env : Env) (t : String) (fn : Work α)
    (w : World) (db : DB) (hdb : w.schemas t = some db)
    (herr : ∃ e, (fn env.stmtFails db w.stripe).result = .error e) :
    (∃ e, (RunInTenantScope env t fn w).result = .error e) ∧
      (RunInTenantScope env t fn w).world.schemas = w.schemas ∧
      (RunInTenantScope env t fn w).world.tenants = w.tenants := by
  obtain ⟨e, he⟩ := herr
  cases hb : env.beginFails <;> cases hs : env.setSearchPathFails <;>
    simp [RunInTenantScope, hb, hs, hdb, he]

/-- A unit that succeeds is committed as a whole, or an operation of the scope fails and nothing is written. -/
theorem runInTenantScope_of_ok {α : Type} (env : Env) (t : String) (fn : Work α)
    (w : World) (db db1 : DB) (a : α) (hdb : w.schemas t = some db)
    (hok : (fn env.stmtFails db w.stripe).result = .ok (a, db1)) :
    ((∃ e, (RunInTenantScope env t fn w).result = .error e) ∧
        (RunInTenantScope env t fn w).world.schemas = w.schemas ∧
        (RunInTenantScope env t fn w).world.tenants = w.tenants ∧
        ¬ (env.beginFails = false ∧ env.setSearchPathFails = false ∧
            env.commitFails = false)) ∨
      ((RunInTenantScope env t fn w).result = .ok a ∧
        (RunInTenantScope env t fn w).world.schemas
          = (fun s => if s = t then some db1 else w.schemas s) ∧
        (RunInTenantScope env t fn w).world.tenants = w.tenants) := by
  cases hb : env.beginFails <;> cases hs : env.setSearchPathFails <;>
    cases hc : env.commitFails <;>
    simp [RunInTenantScope, hb, hs, hc, hdb, hok, World.setSchema]

/-- The state `Unbooked` depends on the partitions and the directory only. -/
theorem unbooked_of_schemas_eq (tenants : List Tenant) (t carID : String) (w w1 : World)
    (h : Unbooked tenants t carID w) (hs : w1.schemas = w.schemas)
    (ht : w1.tenants = w.tenants) : Unbooked tenants t carID w1 := by
  obtain ⟨h1, db, h2, h3⟩ := h
  exact ⟨ht.trans h1, db, by rw [hs]; exact h2, h3⟩

/-- The state `BookedOnce` depends on the partitions and the directory only. -/
theorem bookedOnce_of_schemas_eq (tenants : List Tenant) (t carID : String) (w w1 : World)
    (h : BookedOnce tenants t carID w) (hs : w1.schemas = w.schemas)
    (ht : w1.tenants = w.tenants) : BookedOnce tenants t carID w1 := by
  obtain ⟨h1, db, h2, h3⟩ := h
  exact ⟨ht.trans h1, db, by rw [hs]; exact h2, h3⟩

/-- An attempt on an available car without booking either fails (and then some operation failed) and changes nothing, or is answered 201 and leaves the car rented with one booking. -/
theorem attempt_unbooked (tenants : List Tenant) (t carID : String) (w : World) (a : Attempt)
    (hw : Unbooked tenants t carID w) (ha : a.onCar tenants t carID) :
    (Unbooked tenants t carID (a.run w).world ∧ (a.run w).resp.code ≠ 201 ∧ ¬ a.env.healthy) ∨
      (BookedOnce tenants t carID (a.run w).world ∧ (a.run w).resp.code = 201) := by
  obtain ⟨hten, db, hdb, havail, hnone⟩ := hw
  have hw : Unbooked tenants t carID w := ⟨hten, db, hdb, havail, hnone⟩
  cases a with
  | create env r =>
    obtain ⟨⟨req, hbody, hcar⟩, htenant⟩ := ha
    subst hcar
    rcases createBookingWork_unbooked env req env.stmtFails db w.stripe havail hnone with
      ⟨herr, hf⟩ | ⟨db1, hok, hst, hlen⟩
    · obtain ⟨⟨e, he⟩, hs, ht⟩ := runInTenantScope_of_error env t (createBookingWork env req)
        w db hdb herr
      refine Or.inl ⟨?_, ?_, ?_⟩
      · exact unbooked_of_schemas_eq tenants t req.CarID w _ hw
          (by simpa [Attempt.run, CreateBooking, hbody, htenant, he] using hs)
          (by simpa [Attempt.run, CreateBooking, hbody, htenant, he] using ht)
      · simp [Attempt.run, CreateBooking, hbody, htenant, he]
      · intro hh
        exact hf ⟨hh.2.2.2.1 0, hh.2.2.2.1 1, hh.2.2.2.1 2⟩
    · rcases runInTenantScope_of_ok env t (createBookingWork env req) w db db1 () hdb hok with
        ⟨⟨e, he⟩, hs, ht, hf⟩ | ⟨hres, hs, ht⟩
      · refine Or.inl ⟨?_, ?_, ?_⟩
        · exact unbooked_of_schemas_eq tenants t req.CarID w _ hw
            (by simpa [Attempt.run, CreateBooking, hbody, htenant, he] using hs)
            (by simpa [Attempt.run, CreateBooking, hbody, htenant, he] using ht)
        · simp [Attempt.run, CreateBooking, hbody, htenant, he]
        · intro hh
          exact hf ⟨hh.2.1, hh.2.2.1, hh.2.2.2.2.1⟩
      · refine Or.inr ⟨⟨?_, db1, ?_, hst, hlen⟩, ?_⟩
        · simpa [Attempt.run, CreateBooking, hbody, htenant, hres, hten] using ht
        · simp [Attempt.run, CreateBooking, hbody, htenant, hres, hs]
        · simp [Attempt.run, CreateBooking, hbody, htenant, hres]
  | widget env r =>
    obtain ⟨⟨req, hbody, hcar⟩, hne, hparse, tenant, hfind, hschema⟩ := ha
    subst hcar
    subst hschema
    rw [← hten] at hfind
    cases hp : env.poolQueryFails
    · rcases publicBookWork_unbooked env req env.stmtFails db w.stripe havail hnone with
        ⟨herr, hf⟩ | ⟨db1, hok, hst, hlen⟩
      · obtain ⟨⟨e, he⟩, hs, ht⟩ := runInTenantScope_of_error env tenant.schemaName
          (publicBookWork env req) w db hdb herr
        refine Or.inl ⟨?_, ?_, ?_⟩
        · exact unbooked_of_schemas_eq tenants tenant.schemaName req.CarID w _ hw
            (by simpa [Attempt.run, PublicBook, hbody, hne, hparse, hp, hfind, he] using hs)
            (by simpa [Attempt.run, PublicBook, hbody, hne, hparse, hp, hfind, he] using ht)
        · simp [Attempt.run, PublicBook, hbody, hne, hparse, hp, hfind, he]
        · intro hh
          exact hf hh.2.2.2.1
      · rcases runInTenantScope_of_ok env tenant.schemaName (publicBookWork env req) w db db1
          () hdb hok with ⟨⟨e, he⟩, hs, ht, hf⟩ | ⟨hres, hs, ht⟩
        · refine Or.inl ⟨?_, ?_, ?_⟩
          · exact unbooked_of_schemas_eq tenants tenant.schemaName req.CarID w _ hw
              (by simpa [Attempt.run, PublicBook, hbody, hne, hparse, hp, hfind, he] using hs)
              (by simpa [Attempt.run, PublicBook, hbody, hne, hparse, hp, hfind, he] using ht)
          · simp [Attempt.run, PublicBook, hbody, hne, hparse, hp, hfind, he]
          · intro hh
            exact hf ⟨hh.2.1, hh.2.2.1, hh.2.2.2.2.1⟩
        · refine Or.inr ⟨⟨?_, db1, ?_, hst, hlen⟩, ?_⟩
          · have ht2 := ht.trans hten
            simpa [Attempt.run, PublicBook, hbody, hne, hparse, hp, hfind, hres] using ht2
          · simp [Attempt.run, PublicBook, hbody, hne, hparse, hp, hfind, hres, hs]
          · simp [Attempt.run, PublicBook, hbody, hne, hparse, hp, hfind, hres]
    · refine Or.inl ⟨?_, ?_, ?_⟩
      · simpa [Attempt.run, PublicBook, hbody, hne, hparse, hp] using hw
      · simp [Attempt.run, PublicBook, hbody, hne, hparse, hp]
      · intro hh
        have h1 : env.poolQueryFails = false := hh.1
        rw [hp] at h1
        cases h1

/-- An attempt on a rented car with one booking fails and changes nothing. -/
theorem attempt_booked (tenants : List Tenant) (t carID : String) (w : World) (a : Attempt)
    (hw : BookedOnce tenants t carID w) (ha : a.onCar tenants t carID) :
    BookedOnce tenants t carID (a.run w).world ∧ (a.run w).resp.code ≠ 201 := by
  obtain ⟨hten, db, hdb, hrented, hlen⟩ := hw
  have hw : BookedOnce tenants t carID w := ⟨hten, db, hdb, hrented, hlen⟩
  cases a with
  | create env r =>
    obtain ⟨⟨req, hbody, hcar⟩, htenant⟩ := ha
    subst hcar
    obtain ⟨⟨e, he⟩, hs, ht⟩ := runInTenantScope_of_error env t (createBookingWork env req)
      w db hdb (createBookingWork_booked env req env.stmtFails db w.stripe hrented)
    refine ⟨?_, ?_⟩
    · exact bookedOnce_of_schemas_eq tenants t req.CarID w _ hw
        (by simpa [Attempt.run, CreateBooking, hbody, htenant, he] using hs)
        (by simpa [Attempt.run, CreateBooking, hbody, htenant, he] using ht)
    · simp [Attempt.run, CreateBooking, hbody, htenant, he]
  | widget env r =>
    obtain ⟨⟨req, hbody, hcar⟩, hne, hparse, tenant, hfind, hschema⟩ := ha
    subst hcar
    subst hschema
    rw [← hten] at hfind
    cases hp : env.poolQueryFails
    · obtain ⟨⟨e, he⟩, hs, ht⟩ := runInTenantScope_of_error env tenant.schemaName
        (publicBookWork env req) w db hdb
        (publicBookWork_booked env req env.stmtFails db w.stripe hrented)
      refine ⟨?_, ?_⟩
      · exact bookedOnce_of_schemas_eq tenants tenant.schemaName req.CarID w _ hw
          (by simpa [Attempt.run, PublicBook, hbody, hne, hparse, hp, hfind, he] using hs)
          (by simpa [Attempt.run, PublicBook, hbody, hne, hparse, hp, hfind, he] using ht)
      · simp [Attempt.run, PublicBook, hbody, hne, hparse, hp, hfind, he]
    · refine ⟨?_, ?_⟩
      · simpa [Attempt.run, PublicBook, hbody, hne, hparse, hp] using hw
      · simp [Attempt.run, PublicBook, hbody, hne, hparse, hp]

/-- Once the car is rented with one booking no later attempt succeeds. -/
theorem serial_booked (tenants : List Tenant) (t carID : String) (attempts : List Attempt) :
    ∀ w, BookedOnce tenants t carID w → (∀ a ∈ attempts, a.onCar tenants t carID) →
      successes attempts w = 0 ∧ BookedOnce tenants t carID (finalWorld attempts w) := by
  induction attempts with
  | nil => intro w hw _; exact ⟨rfl, hw⟩
  | cons a rest ih =>
    intro w hw hon
    obtain ⟨hb, hcode⟩ := attempt_booked tenants t carID w a hw (hon a (List.mem_cons_self _ _))
    obtain ⟨h0, hfin⟩ := ih (a.run w).world hb (fun b hb => hon b (List.mem_cons_of_mem _ hb))
    exact ⟨by simp [successes, hcode, h0], hfin⟩

/-- Attempts on an available car without booking: none succeeds (and then none ran without failure) or exactly one does. -/
theorem serial_unbooked (tenants : List Tenant) (t carID : String) (attempts : List Attempt) :
    ∀ w, Unbooked tenants t carID w → (∀ a ∈ attempts, a.onCar tenants t carID) →
      (successes attempts w = 0 ∧ Unbooked tenants t carID (finalWorld attempts w) ∧
          ∀ a ∈ attempts, ¬ a.env.healthy) ∨
        (successes attempts w = 1 ∧ BookedOnce tenants t carID (finalWorld attempts w)) := by
  induction attempts with
  | nil => intro w hw _; exact Or.inl ⟨rfl, hw, by simp⟩
  | cons a rest ih =>
    intro w hw hon
    have hrest : ∀ b ∈ rest, b.onCar tenants t carID :=
      fun b hb => hon b (List.mem_cons_of_mem _ hb)
    rcases attempt_unbooked tenants t carID w a hw (hon a (List.mem_cons_self _ _)) with
      ⟨hu, hcode, hbad⟩ | ⟨hb, hcode⟩
    · rcases ih (a.run w).world hu hrest with ⟨h0, hfin, hall⟩ | ⟨h1, hfin⟩
      · refine Or.inl ⟨by simp [successes, hcode, h0], hfin, ?_⟩
        intro b hb
        rcases List.mem_cons.mp hb with rfl | hb
        · exact hbad
        · exact hall b hb
      · exact Or.inr ⟨by simp [successes, hcode, h1], hfin⟩
    · obtain ⟨h0, hfin⟩ := serial_booked tenants t carID rest (a.run w).world hb hrest
      exact Or.inr ⟨by simp [successes, hcode, h0], hfin⟩

/-- Every state reached by attempts is one of the two states. -/
theorem serial_reached (tenants : List Tenant) (t carID : String) (attempts : List Attempt) :
    ∀ w, (Unbooked tenants t carID w ∨ BookedOnce tenants t carID w) →
      (∀ a ∈ attempts, a.onCar tenants t carID) →
      Unbooked tenants t carID (finalWorld attempts w) ∨
        BookedOnce tenants t carID (finalWorld attempts w) := by
  intro w hw hon
  rcases hw with hu | hb
  · rcases serial_unbooked tenants t carID attempts w hu hon with ⟨_, h, _⟩ | ⟨_, h⟩
    · exact Or.inl h
    · exact Or.inr h
  · exact Or.inr (serial_booked tenants t carID attempts w hb hon).2

/-! ## ReturnCar: lemmas -/

/-- In a trace `h ++ c :: rest`, an entry that is neither in `h` nor `c` has `c` before it. -/
theorem mem_pre_of_split (l pre suf h rest : List Effect) (x c : Effect)
    (hl : l = h ++ c :: rest) (hsplit : l = pre ++ x :: suf) (hx : x ∉ h) (hxc : x ≠ c) :
    c ∈ pre := by
  rw [hl] at hsplit
  rcases List.append_eq_append_iff.mp hsplit with ⟨a, hpre, hc⟩ | ⟨a, hh, hxs⟩
  · cases a with
    | nil =>
      simp only [List.nil_append, List.cons.injEq] at hc
      exact absurd hc.1.symm hxc
    | cons y ys =>
      simp only [List.cons_append, List.cons.injEq] at hc
      rw [hpre, ← hc.1]
      simp
  · cases a with
    | nil =>
      simp only [List.nil_append, List.cons.injEq] at hxs
      exact absurd hxs.1 hxc
    | cons y ys =>
      simp only [List.cons_append, List.cons.injEq] at hxs
      exact absurd (by rw [hh, ← hxs.1]; simp) hx

/-- An entry that is not in a trace is at no position of it. -/
theorem no_split_of_not_mem (l pre suf : List Effect) (x : Effect) (hx : x ∉ l)
    (hsplit : l = pre ++ x :: suf) : False := by
  apply hx
  rw [hsplit]
  simp

/-- The trace of the unit of `ReturnCar`: either it holds no UPDATE and the unit fails without touching the processor, or it starts with the SELECT and a successful capture. -/
theorem returnCar_work_trace (env : Env) (bookingID : String) (req : ReturnCarRequest)
    (f : Nat → Bool) (db : DB) (st : Stripe) :
    ((∀ table, Effect.update table ∉ (returnCarWork env bookingID req f db st).trace) ∧
        (∃ e, (returnCarWork env bookingID req f db st).result = .error e) ∧
        (returnCarWork env bookingID req f db st).stripe = st ∧
        ((∃ intent key amount, Effect.capture intent key amount false
            ∈ (returnCarWork env bookingID req f db st).trace) →
          (returnCarWork env bookingID req f db st).result = .error .capturePaymentFailed)) ∨
      ∃ intent key amount rest,
        (returnCarWork env bookingID req f db st).trace
          = .select "bookings" :: Effect.capture intent key amount true :: rest ∧
        ∀ i k a, Effect.capture i k a false ∉ (returnCarWork env bookingID req f db st).trace := by
  unfold returnCarWork
  cases h0 : f 0
  · cases hrow : (returnJoin db bookingID).head? with
    | none => simp
    | some row =>
      by_cases h1 : row.status = "completed"
      · simp [h1]
      · by_cases h2 : row.status = "cancelled"
        · simp [h2]
        · simp only [Bool.false_eq_true, if_false, h1, h2]
          cases hc : (st.capture env.captureFails row.stripeIntentID (captureKey bookingID)
            (finalAmount row.startTime row.endTime row.dailyRateCents req.DamageCostCents)).1
          · left
            have hst : (st.capture env.captureFails row.stripeIntentID (captureKey bookingID)
                (finalAmount row.startTime row.endTime row.dailyRateCents
                  req.DamageCostCents)).2 = st := by
              revert hc
              unfold Stripe.capture
              split_ifs <;> simp
            simp [hst]
          · right
            refine ⟨row.stripeIntentID, captureKey bookingID,
              finalAmount row.startTime row.endTime row.dailyRateCents req.DamageCostCents,
              ?_⟩
            unfold returnCarUpdates
            cases f 1 <;> cases f 2 <;> cases f 3 <;> simp
  · simp

/-- The trace of the unit of `ReturnCar` inside `RunInTenantScope`. -/
theorem returnCar_scope_trace (env : Env) (bookingID : String) (req : ReturnCarRequest)
    (tenantID : String) (w : World) :
    ((∀ table, Effect.update table
          ∉ (RunInTenantScope env tenantID (returnCarWork env bookingID req) w).trace) ∧
        ((∃ intent key amount, Effect.capture intent key amount false
            ∈ (RunInTenantScope env tenantID (returnCarWork env bookingID req) w).trace) →
          (RunInTenantScope env tenantID (returnCarWork env bookingID req) w).result
            = .error .capturePaymentFailed ∧
          (RunInTenantScope env tenantID (returnCarWork env bookingID req) w).world = w)) ∨
      ∃ intent key amount rest,
        (RunInTenantScope env tenantID (returnCarWork env bookingID req) w).trace
          = [.txBegin, .setSearchPath tenantID, .select "bookings"] ++
              Effect.capture intent key amount true :: rest ∧
        ∀ i k a, Effect.capture i k a false
          ∉ (RunInTenantScope env tenantID (returnCarWork env bookingID req) w).trace := by
  unfold RunInTenantScope
  cases hb : env.beginFails
  · cases hs : env.setSearchPathFails
    · cases hdb : w.schemas tenantID with
      | none =>
        left
        simp [returnCarWork]
      | some db =>
        rcases returnCar_work_trace env bookingID req env.stmtFails db w.stripe with
          ⟨hnone, ⟨e, he⟩, hst, hfail⟩ | ⟨intent, key, amount, rest, htrace, hnofail⟩
        · left
          simp only [Bool.false_eq_true, if_false, he, hst]
          refine ⟨fun table => ?_, fun hex => ?_⟩
          · simpa using hnone table
          · have : (returnCarWork env bookingID req env.stmtFails db w.stripe).result
                = .error .capturePaymentFailed := by
              apply hfail
              obtain ⟨i, k, a, hmem⟩ := hex
              exact ⟨i, k, a, by simpa using hmem⟩
            rw [he] at this
            cases this
            simp
        · right
          rw [htrace] at hnofail
          cases hres : (returnCarWork env bookingID req env.stmtFails db w.stripe).result with
          | error e =>
            refine ⟨intent, key, amount, rest ++ [.rollback], ?_, ?_⟩
            · simp [htrace, hres]
            · intro i k a
              have := hnofail i k a
              simp at this
              simp [htrace, hres, this]
          | ok v =>
            cases hc : env.commitFails
            · refine ⟨intent, key, amount, rest ++ [.commit], ?_, ?_⟩
              · simp [htrace, hres, hc]
              · intro i k a
                have := hnofail i k a
                simp at this
                simp [htrace, hres, hc, this]
            · refine ⟨intent, key, amount, rest ++ [.commit], ?_, ?_⟩
              · simp [htrace, hres, hc]
              · intro i k a
                have := hnofail i k a
                simp at this
                simp [htrace, hres, hc, this]
    · left
      simp
  · left
    simp

/-- For a decoded request with a damage cost that is not negative and a tenant, `ReturnCar` is its unit run in the tenant scope. -/
theorem returnCar_eq_scope (env : Env) (bookingID : String) (r : Request ReturnCarRequest)
    (w : World) (req : ReturnCarRequest) (tenantID : String)
    (hbody : r.body = some req) (hneg : ¬ req.DamageCostCents < 0)
    (htenant : r.tenant = some tenantID) :
    (ReturnCar env bookingID r w).trace
        = (RunInTenantScope env tenantID (returnCarWork env bookingID req) w).trace ∧
      (ReturnCar env bookingID r w).world
        = (RunInTenantScope env tenantID (returnCarWork env bookingID req) w).world ∧
      (ReturnCar env bookingID r w).resp
        = (match (RunInTenantScope env tenantID (returnCarWork env bookingID req) w).result with
            | .error e => ⟨500, some e⟩
            | .ok _ => ⟨200, none⟩) := by
  simp only [ReturnCar, hbody, hneg, htenant]
  cases (RunInTenantScope env tenantID (returnCarWork env bookingID req) w).result <;> simp

/-- After the three UPDATE statements of `ReturnCar` every joined row of the booking is `completed`. -/
theorem returnJoin_completed (db : DB) (bookingID : String) (o d a : Int) (s : CarStatus)
    (o1 : Int) (carID : String) (a1 : Int) (intent : String) (row : ReturnRow)
    (hrow : row ∈ returnJoin (setPaymentCaptured (setCarReturned
      (completeBooking db o d a bookingID) s o1 carID) a1 intent) bookingID) :
    row.status = "completed" := by
  simp only [returnJoin, setPaymentCaptured, setCarReturned, completeBooking, List.mem_flatMap,
    List.mem_filter, List.mem_map, decide_eq_true_eq] at hrow
  obtain ⟨b, ⟨⟨b0, _, hb0⟩, hbid⟩, p, _, c, _, cust, _, hr⟩ := hrow
  rw [← hr]
  by_cases h : b0.id = bookingID
  · rw [if_pos h] at hb0
    rw [← hb0]
  · rw [if_neg h] at hb0
    rw [← hb0] at hbid
    exact absurd hbid h

/-- No capture under the key when no recorded capture has the key. -/
theorem capturesFor_eq_nil_of_any_false (s : Stripe) (key : String)
    (h : (s.captures.any fun c => decide (c.key = key)) = false) : capturesFor s key = [] := by
  simp only [List.any_eq_false, decide_eq_true_eq] at h
  simp only [capturesFor, List.filter_eq_nil_iff, decide_eq_true_eq]
  exact h

/-- A capture under the key when a recorded capture has the key. -/
theorem capturesFor_ne_nil_of_any (s : Stripe) (key : String)
    (h : (s.captures.any fun c => decide (c.key = key)) = true) :
    1 ≤ (capturesFor s key).length := by
  simp only [List.any_eq_true, decide_eq_true_eq] at h
  obtain ⟨c, hc, hk⟩ := h
  have : c ∈ capturesFor s key := by simp [capturesFor, hc, hk]
  exact List.length_pos_of_mem this

/-- A capture request leaves the number of captures under its key as it is or takes it from 0 to 1, and a successful one leaves at least one. -/
theorem capture_count (s : Stripe) (fails : Bool) (intent key : String) (amount : Int) :
    ((capturesFor (s.capture fails intent key amount).2 key).length = (capturesFor s key).length ∨
        ((capturesFor s key).length = 0 ∧
          (capturesFor (s.capture fails intent key amount).2 key).length = 1)) ∧
      ((s.capture fails intent key amount).1 = true →
        1 ≤ (capturesFor (s.capture fails intent key amount).2 key).length) := by
  unfold Stripe.capture
  cases hany : s.captures.any fun c => decide (c.key = key)
  · have hnil := capturesFor_eq_nil_of_any_false s key hany
    cases fails
    · have happ : capturesFor ⟨s.captures ++ [⟨intent, key, amount⟩]⟩ key
          = capturesFor s key ++ [⟨intent, key, amount⟩] := by
        simp [capturesFor, List.filter_append]
      simp [happ, hnil]
    · simp
  · have := capturesFor_ne_nil_of_any s key hany
    simp [this]

/-- The outcome of the unit of `ReturnCar`: it fails without touching the processor, or its capture succeeded and then it fails or yields the partition with the three updates. -/
theorem returnCarWork_outcome (env : Env) (bookingID : String) (req : ReturnCarRequest)
    (f : Nat → Bool) (db : DB) (st : Stripe) :
    ((returnCarWork env bookingID req f db st).stripe = st ∧
        ∃ e, (returnCarWork env bookingID req f db st).result = .error e) ∨
      ∃ row : ReturnRow,
        (st.capture env.captureFails row.stripeIntentID (captureKey bookingID)
          (finalAmount row.startTime row.endTime row.dailyRateCents
            req.DamageCostCents)).1 = true ∧
        (returnCarWork env bookingID req f db st).stripe
          = (st.capture env.captureFails row.stripeIntentID (captureKey bookingID)
              (finalAmount row.startTime row.endTime row.dailyRateCents
                req.DamageCostCents)).2 ∧
        ((∃ e, (returnCarWork env bookingID req f db st).result = .error e) ∨
          (returnCarWork env bookingID req f db st).result
            = .ok ((), setPaymentCaptured (setCarReturned
                (completeBooking db req.FinalOdometer req.DamageCostCents
                  (finalAmount row.startTime row.endTime row.dailyRateCents
                    req.DamageCostCents) bookingID)
                (newCarStatus req.DamageCostCents) req.FinalOdometer row.carID)
                (finalAmount row.startTime row.endTime row.dailyRateCents
                  req.DamageCostCents) row.stripeIntentID)) := by
  unfold returnCarWork
  cases h0 : f 0
  · cases hrow : (returnJoin db bookingID).head? with
    | none => simp
    | some row =>
      by_cases h1 : row.status = "completed"
      · simp [h1]
      · by_cases h2 : row.status = "cancelled"
        · simp [h2]
        · simp only [Bool.false_eq_true, if_false, h1, h2]
          cases hc : (st.capture env.captureFails row.stripeIntentID (captureKey bookingID)
            (finalAmount row.startTime row.endTime row.dailyRateCents req.DamageCostCents)).1
          · left
            have hst : (st.capture env.captureFails row.stripeIntentID (captureKey bookingID)
                (finalAmount row.startTime row.endTime row.dailyRateCents
                  req.DamageCostCents)).2 = st := by
              revert hc
              unfold Stripe.capture
              split_ifs <;> simp
            simp [hst]
          · right
            refine ⟨row, hc, ?_⟩
            unfold returnCarUpdates
            cases f 1 <;> cases f 2 <;> cases f 3 <;> simp
  · simp

/-- The outcome of `ReturnCar`: it is not answered 200 and leaves the processor as it is, or its capture succeeded and then it is not answered 200 or commits the three updates. -/
theorem returnCar_outcome (env : Env) (bookingID : String) (r : Request ReturnCarRequest)
    (w : World) :
    ((ReturnCar env bookingID r w).world.stripe = w.stripe ∧
        (ReturnCar env bookingID r w).resp.code ≠ 200) ∨
      ∃ (row : ReturnRow) (req : ReturnCarRequest) (tenantID : String) (db : DB),
        r.tenant = some tenantID ∧
        (w.stripe.capture env.captureFails row.stripeIntentID (captureKey bookingID)
          (finalAmount row.startTime row.endTime row.dailyRateCents
            req.DamageCostCents)).1 = true ∧
        (ReturnCar env bookingID r w).world.stripe
          = (w.stripe.capture env.captureFails row.stripeIntentID (captureKey bookingID)
              (finalAmount row.startTime row.endTime row.dailyRateCents
                req.DamageCostCents)).2 ∧
        ((ReturnCar env bookingID r w).resp.code ≠ 200 ∨
          (ReturnCar env bookingID r w).world.schemas tenantID
            = some (setPaymentCaptured (setCarReturned
                (completeBooking db req.FinalOdometer req.DamageCostCents
                  (finalAmount row.startTime row.endTime row.dailyRateCents
                    req.DamageCostCents) bookingID)
                (newCarStatus req.DamageCostCents) req.FinalOdometer row.carID)
                (finalAmount row.startTime row.endTime row.dailyRateCents
                  req.DamageCostCents) row.stripeIntentID)) := by
  cases hbody : r.body with
  | none => left; simp [ReturnCar, hbody]
  | some req =>
    by_cases hneg : req.DamageCostCents < 0
    · left; simp [ReturnCar, hbody, hneg]
    · cases htenant : r.tenant with
      | none => left; simp [ReturnCar, hbody, hneg, htenant]
      | some tenantID =>
        obtain ⟨-, hwo, hre⟩ := returnCar_eq_scope env bookingID r w req tenantID hbody hneg
          htenant
        rw [hwo, hre]
        unfold RunInTenantScope
        cases hb : env.beginFails
        · cases hs : env.setSearchPathFails
          · cases hdb : w.schemas tenantID with
            | none => left; simp [returnCarWork]
            | some db =>
              rcases returnCarWork_outcome env bookingID req env.stmtFails db w.stripe with
                ⟨hst, e, he⟩ | ⟨row, hc, hst, ⟨e, he⟩ | hok⟩
              · left; simp [hst, he]
              · right
                exact ⟨row, req, tenantID, db, rfl, hc, by simp [he, hst], Or.inl (by simp [he])⟩
              · right
                refine ⟨row, req, tenantID, db, rfl, hc, ?_, ?_⟩
                · cases hcm : env.commitFails <;> simp [hok, hst, World.setSchema]
                · cases hcm : env.commitFails
                  · right; simp [hok, World.setSchema]
                  · left; simp [hok]
          · left; simp
        · left; simp

/-- A `ReturnCar` call leaves the number of captures under the key of the booking as it is or takes it from 0 to 1; answered 200 it leaves at least one. -/
theorem returnCar_count (env : Env) (bookingID : String) (r : Request ReturnCarRequest)
    (w : World) :
    ((capturesFor (ReturnCar env bookingID r w).world.stripe (captureKey bookingID)).length
          = (capturesFor w.stripe (captureKey bookingID)).length ∨
        ((capturesFor w.stripe (captureKey bookingID)).length = 0 ∧
          (capturesFor (ReturnCar env bookingID r w).world.stripe
            (captureKey bookingID)).length = 1)) ∧
      ((ReturnCar env bookingID r w).resp.code = 200 →
        1 ≤ (capturesFor (ReturnCar env bookingID r w).world.stripe
          (captureKey bookingID)).length) := by
  rcases returnCar_outcome env bookingID r w with ⟨hst, hcode⟩ | ⟨row, req, t, db, -, hc, hst, -⟩
  · rw [hst]
    exact ⟨Or.inl rfl, fun h => absurd h hcode⟩
  · rw [hst]
    obtain ⟨h1, h2⟩ := capture_count w.stripe env.captureFails row.stripeIntentID
      (captureKey bookingID)
      (finalAmount row.startTime row.endTime row.dailyRateCents req.DamageCostCents)
    exact ⟨h1, fun _ => h2 hc⟩

/-- When every joined row of the booking is `completed`, `ReturnCar` requests no capture and is not answered 200. -/
theorem returnCar_no_capture_of_completed (env : Env) (bookingID : String)
    (r : Request ReturnCarRequest) (w : World) (tenantID : String)
    (htenant : r.tenant = some tenantID)
    (hdone : ∀ db, w.schemas tenantID = some db →
      ∀ row ∈ returnJoin db bookingID, row.status = "completed") :
    (∀ i k a ok, Effect.capture i k a ok ∉ (ReturnCar env bookingID r w).trace) ∧
      (ReturnCar env bookingID r w).world.stripe = w.stripe ∧
      (ReturnCar env bookingID r w).resp.code ≠ 200 := by
  cases hbody : r.body with
  | none => simp [ReturnCar, hbody]
  | some req =>
    by_cases hneg : req.DamageCostCents < 0
    · simp [ReturnCar, hbody, hneg]
    · obtain ⟨htr, hwo, hre⟩ := returnCar_eq_scope env bookingID r w req tenantID hbody hneg
        htenant
      rw [htr, hwo, hre]
      unfold RunInTenantScope
      cases hb : env.beginFails
      · cases hs : env.setSearchPathFails
        · cases hdb : w.schemas tenantID with
          | none => simp [returnCarWork]
          | some db =>
            cases h0 : env.stmtFails 0
            · cases hl : returnJoin db bookingID with
              | nil => simp [returnCarWork, h0, hl]
              | cons row rest =>
                have hrow : row.status = "completed" :=
                  hdone db hdb row (by rw [hl]; exact List.mem_cons_self _ _)
                simp [returnCarWork, h0, hl, hrow]
            · simp [returnCarWork, h0]
        · simp
      · simp


/-! ## Lemmas: the tenant scope -/

/-- Two worlds with the same directory, partitions and processor are equal. -/
theorem world_eq_of_fields (w1 w2 : World) (ht : w1.tenants = w2.tenants)
    (hs : w1.schemas = w2.schemas) (hp : w1.stripe = w2.stripe) : w1 = w2 := by
  cases w1; cases w2; simp_all

/-- Writing back the partition that is already there changes nothing. -/
theorem setSchema_same (w : World) (t : String) (db : DB) (hdb : w.schemas t = some db) :
    w.setSchema t db = w := by
  apply world_eq_of_fields
  · rfl
  · funext s
    by_cases h : s = t
    · simp [World.setSchema, h, hdb]
    · simp [World.setSchema, h]
  · rfl

/-- A unit of work that writes nothing and does not touch the processor leaves
the world as it was. -/
theorem runInTenantScope_readonly {α : Type} (env : Env) (t : String) (fn : Work α)
    (w : World)
    (hst : ∀ f db st, (fn f db st).stripe = st)
    (hdb : ∀ f db st a db1, (fn f db st).result = .ok (a, db1) → db1 = db) :
    (RunInTenantScope env t fn w).world = w := by
  cases hb : env.beginFails
  · cases hs : env.setSearchPathFails
    · cases hw : w.schemas t with
      | none =>
        cases hr : (fn (fun _ => true) DB.empty w.stripe).result with
        | error e => simp [RunInTenantScope, hb, hs, hw, hr, hst]
        | ok v =>
          cases hc : env.commitFails <;> simp [RunInTenantScope, hb, hs, hw, hr, hst, hc]
      | some db =>
        cases hr : (fn env.stmtFails db w.stripe).result with
        | error e => simp [RunInTenantScope, hb, hs, hw, hr, hst]
        | ok v =>
          obtain ⟨a, db1⟩ := v
          have h1 : db1 = db := hdb _ _ _ _ _ hr
          subst h1
          cases hc : env.commitFails
          · simp only [RunInTenantScope, hb, hs, hw, hr, hst, hc]
            simp
            exact setSchema_same _ _ _ hw
          · simp [RunInTenantScope, hb, hs, hw, hr, hst, hc]
    · simp [RunInTenantScope, hb, hs]
  · simp [RunInTenantScope, hb]

/-- A unit of work under one tenant leaves the partitions of the others as
they were. -/
theorem runInTenantScope_other {α : Type} (env : Env) (t s : String) (fn : Work α)
    (w : World) (hne : s ≠ t) :
    (RunInTenantScope env t fn w).world.schemas s = w.schemas s := by
  unfold RunInTenantScope
  split
  · rfl
  · split
    · rfl
    · simp only
      split
      · rfl
      · split
        · rfl
        · split
          · simp [World.setSchema, hne]
          · rfl

/-- The tenant scope reads the world through the partition of its tenant and
the processor only. -/
theorem runInTenantScope_reads {α : Type} (env : Env) (t : String) (fn : Work α)
    (w1 w2 : World) (hs : w1.schemas t = w2.schemas t) (hp : w1.stripe = w2.stripe) :
    (RunInTenantScope env t fn w1).result = (RunInTenantScope env t fn w2).result ∧
      (RunInTenantScope env t fn w1).trace = (RunInTenantScope env t fn w2).trace ∧
      (RunInTenantScope env t fn w1).world.schemas t
        = (RunInTenantScope env t fn w2).world.schemas t ∧
      (RunInTenantScope env t fn w1).world.stripe
        = (RunInTenantScope env t fn w2).world.stripe := by
  unfold RunInTenantScope
  rw [hs, hp]
  by_cases hb : env.beginFails = true
  · simp [hb, hs, hp]
  · by_cases hset : env.setSearchPathFails = true
    · simp [hb, hset, hs, hp]
    · simp only [hb, hset]
      cases hw : w2.schemas t with
      | none =>
        simp only
        cases hr : (fn (fun _ => true) DB.empty w2.stripe).result with
        | error e => simp [hs, hw]
        | ok v =>
          by_cases hc : env.commitFails = true
          · simp [hc, hs, hw]
          · simp [hc, hs, hw]
      | some db =>
        simp only
        cases hr : (fn env.stmtFails db w2.stripe).result with
        | error e => simp [hs, hw]
        | ok v =>
          by_cases hc : env.commitFails = true
          · simp [hc, hs, hw]
          · simp [hc, hs, hw, World.setSchema]

/-- The last call of a trace that ends with `x`. -/
theorem getLast_scope_trace (a b x : Effect) (t : List Effect) :
    (a :: b :: (t ++ [x])).getLast? = some x := by
  rw [← List.cons_append, ← List.cons_append, List.getLast?_concat]

/-- The trace of the tenant scope around a unit that returns an error. -/
theorem runInTenantScope_trace_error {α : Type} (env : Env) (t : String) (fn : Work α)
    (w : World) (e : Err) (hb : env.beginFails = false) (hs : env.setSearchPathFails = false)
    (hr : (scopedWork env t fn w).result = .error e) :
    (RunInTenantScope env t fn w).result = .error e ∧
      (RunInTenantScope env t fn w).world.schemas = w.schemas ∧
      (RunInTenantScope env t fn w).world.tenants = w.tenants ∧
      (RunInTenantScope env t fn w).trace
        = .txBegin :: .setSearchPath t :: ((scopedWork env t fn w).trace ++ [.rollback]) := by
  unfold scopedWork at hr ⊢
  cases hw : w.schemas t with
  | none =>
    rw [hw] at hr
    simp only at hr
    simp [RunInTenantScope, hb, hs, hw, hr]
  | some db =>
    rw [hw] at hr
    simp only at hr
    simp [RunInTenantScope, hb, hs, hw, hr]

/-- The trace of the tenant scope around a unit that returns success. -/
theorem runInTenantScope_trace_ok {α : Type} (env : Env) (t : String) (fn : Work α)
    (w : World) (v : α × DB) (hb : env.beginFails = false)
    (hs : env.setSearchPathFails = false)
    (hr : (scopedWork env t fn w).result = .ok v) :
    (RunInTenantScope env t fn w).trace
      = .txBegin :: .setSearchPath t :: ((scopedWork env t fn w).trace ++ [.commit]) := by
  unfold scopedWork at hr ⊢
  cases hw : w.schemas t with
  | none =>
    rw [hw] at hr
    simp only at hr
    cases hc : env.commitFails <;> simp [RunInTenantScope, hb, hs, hw, hr, hc]
  | some db =>
    rw [hw] at hr
    simp only at hr
    cases hc : env.commitFails <;> simp [RunInTenantScope, hb, hs, hw, hr, hc]

/-- Doubling the double quotes loses nothing. -/
theorem doubleQuotes_injective (l1 l2 : List Char)
    (h : (l1.flatMap fun c => if c = '"' then ['"', '"'] else [c])
      = l2.flatMap fun c => if c = '"' then ['"', '"'] else [c]) : l1 = l2 := by
  induction l1 generalizing l2 with
  | nil =>
    cases l2 with
    | nil => rfl
    | cons y ys =>
      by_cases hy : y = '"' <;> simp [List.flatMap_cons, hy] at h
  | cons x xs ih =>
    cases l2 with
    | nil => by_cases hx : x = '"' <;> simp [List.flatMap_cons, hx] at h
    | cons y ys =>
      by_cases hx : x = '"' <;> by_cases hy : y = '"'
      · simp only [List.flatMap_cons, hx, hy, if_true, List.cons_append, List.nil_append,
          List.cons.injEq, true_and] at h
        rw [hx, hy, ih ys h]
      · simp only [List.flatMap_cons, hx, hy, if_true, if_false, List.cons_append,
          List.nil_append, List.cons.injEq] at h
        exact absurd h.1.symm hy
      · simp only [List.flatMap_cons, hx, hy, if_true, if_false, List.cons_append,
          List.nil_append, List.cons.injEq] at h
        exact h.1.elim
      · simp only [List.flatMap_cons, hx, hy, if_false, List.cons_append,
          List.nil_append, List.cons.injEq] at h
        rw [h.1, ih ys h.2]

/-- Identifiers without NUL byte with the same partition-selection statement
are equal. -/
theorem scopeSearchPath_injective (a b : String) (ha : Char.ofNat 0 ∉ a.toList)
    (hb : Char.ofNat 0 ∉ b.toList) (h : scopeSearchPath a = scopeSearchPath b) : a = b := by
  have fa : (a.toList.filter fun c => c ≠ Char.ofNat 0) = a.toList := by
    rw [List.filter_eq_self]
    intro c hc
    simpa using fun (h0 : c = Char.ofNat 0) => ha (h0 ▸ hc)
  have fb : (b.toList.filter fun c => c ≠ Char.ofNat 0) = b.toList := by
    rw [List.filter_eq_self]
    intro c hc
    simpa using fun (h0 : c = Char.ofNat 0) => hb (h0 ▸ hc)
  unfold scopeSearchPath Sanitize at h
  simp only [fa, fb] at h
  have h1 := congrArg String.data h
  simp only [String.data_append] at h1
  have h2 := List.append_cancel_left h1
  have h3 := List.append_cancel_left (List.append_cancel_right h2)
  have h4 := doubleQuotes_injective _ _ h3
  exact String.ext h4

/-! ## Lemmas: CreatePaymentIntent -/

/-- Database calls are no requests for an authorization. -/
theorem intentRequests_db (l : List Effect) : intentRequests (l.map Call.db) = [] := by
  induction l with
  | nil => rfl
  | cons a l ih =>
    simp only [intentRequests, List.map_cons, List.filterMap_cons] at ih ⊢
    exact ih

/-- The requests for an authorization of a trace in two parts. -/
theorem intentRequests_append (l1 l2 : List Call) :
    intentRequests (l1 ++ l2) = intentRequests l1 ++ intentRequests l2 := by
  simp [intentRequests, List.filterMap_append]

/-- The lookup of `CreatePaymentIntent` when storage works and the booking has
a payment row: it returns the authorization reference of the first such row
and leaves the world as it was. -/
theorem existingIntent_found (env : Env) (tenantID bookingID : String) (w : World) (db : DB)
    (p : Payment) (hdb : w.schemas tenantID = some db)
    (hpay : (db.payments.find? fun x => x.bookingID = bookingID) = some p)
    (hb : env.beginFails = false) (hs : env.setSearchPathFails = false)
    (h0 : env.stmtFails 0 = false) (hc : env.commitFails = false) :
    (RunInTenantScope env tenantID (existingIntentWork bookingID) w).result
        = .ok p.stripeIntentID ∧
      (RunInTenantScope env tenantID (existingIntentWork bookingID) w).world = w ∧
      (RunInTenantScope env tenantID (existingIntentWork bookingID) w).trace
        = [.txBegin, .setSearchPath tenantID, .select "payments", .commit] := by
  refine ⟨?_, ?_, ?_⟩
  · simp [RunInTenantScope, hb, hs, hc, hdb, existingIntentWork, h0, hpay]
  · apply runInTenantScope_readonly
    · intro f d st
      unfold existingIntentWork
      split
      · rfl
      · split <;> rfl
    · intro f d st a db1 h
      unfold existingIntentWork at h
      split at h
      · simp at h
      · split at h
        · simp at h
        · simp at h
          exact h.2.symm
  · simp [RunInTenantScope, hb, hs, hc, hdb, existingIntentWork, h0, hpay]

/-- The lookup of `CreatePaymentIntent` when the booking has no payment row:
it returns an error and leaves the world as it was. -/
theorem existingIntent_absent (env : Env) (tenantID bookingID : String) (w : World) (db : DB)
    (hdb : w.schemas tenantID = some db)
    (hpay : (db.payments.find? fun x => x.bookingID = bookingID) = none) :
    (∃ e, (RunInTenantScope env tenantID (existingIntentWork bookingID) w).result = .error e) ∧
      (RunInTenantScope env tenantID (existingIntentWork bookingID) w).world = w := by
  constructor
  · refine (runInTenantScope_of_error env tenantID _ w db hdb ?_).1
    cases h0 : env.stmtFails 0 <;> simp [existingIntentWork, h0, hpay]
  · apply runInTenantScope_readonly
    · intro f d st
      unfold existingIntentWork
      split
      · rfl
      · split <;> rfl
    · intro f d st a db1 h
      unfold existingIntentWork at h
      split at h
      · simp at h
      · split at h
        · simp at h
        · simp at h
          exact h.2.symm

/-- The row `CreatePaymentIntent` stores for a new authorization. -/
theorem createNewIntent_success (env : PayEnv) (tenantID : String) (req : CreateIntentRequest)
    (w : World) (db : DB) (pre : List Call) (hdb : w.schemas tenantID = some db)
    (h200 : (createNewIntent env tenantID req w pre).resp.code = 200) :
    ∃ intent, env.newIntent (intentParams tenantID req) = some intent ∧
      (createNewIntent env tenantID req w pre).resp
        = ⟨200, .object [("client_secret", intent.ClientSecret)]⟩ ∧
      (createNewIntent env tenantID req w pre).world.schemas
        = (fun s => if s = tenantID then
            some (insertPayment db ⟨req.BookingID, intent.ID, req.Amount, "pending_auth"⟩)
          else w.schemas s) ∧
      (createNewIntent env tenantID req w pre).world.tenants = w.tenants ∧
      (createNewIntent env tenantID req w pre).world.stripe = w.stripe ∧
      intentRequests (createNewIntent env tenantID req w pre).trace
        = intentRequests pre ++ [intentParams tenantID req] := by
  cases hn : env.newIntent (intentParams tenantID req) with
  | none => simp [createNewIntent, hn] at h200
  | some intent =>
    refine ⟨intent, rfl, ?_⟩
    cases h0 : env.store.stmtFails 0
    · have hok : (storeIntentWork req intent env.store.stmtFails db w.stripe).result
          = .ok ((), insertPayment db ⟨req.BookingID, intent.ID, req.Amount, "pending_auth"⟩) := by
        simp [storeIntentWork, h0]
      rcases runInTenantScope_of_ok env.store tenantID _ w db _ () hdb hok with h | h
      · obtain ⟨⟨e, he⟩, _⟩ := h
        simp [createNewIntent, hn, he] at h200
      · obtain ⟨hres, hsch, hten⟩ := h
        have hstripe : (RunInTenantScope env.store tenantID (storeIntentWork req intent)
            w).world.stripe = w.stripe := by
          cases hb : env.store.beginFails <;> cases hs : env.store.setSearchPathFails <;>
            cases hc : env.store.commitFails <;>
            simp [RunInTenantScope, hb, hs, hc, hdb, storeIntentWork, h0, World.setSchema]
        simp only [createNewIntent, hn, hres]
        refine ⟨trivial, hsch, hten, hstripe, ?_⟩
        rw [intentRequests_append, intentRequests_append, intentRequests_db]
        simp [intentRequests]
    · have herr : ∃ e, (storeIntentWork req intent env.store.stmtFails db w.stripe).result
          = .error e := ⟨.execFailed, by simp [storeIntentWork, h0]⟩
      obtain ⟨⟨e, he⟩, _⟩ := runInTenantScope_of_error env.store tenantID _ w db hdb herr
      simp [createNewIntent, hn, he] at h200

/-- A new authorization is stored when the processor grants it and storage
works. -/
theorem createNewIntent_healthy (env : PayEnv) (tenantID : String) (req : CreateIntentRequest)
    (w : World) (db : DB) (pre : List Call) (intent : PaymentIntent)
    (hdb : w.schemas tenantID = some db)
    (hn : env.newIntent (intentParams tenantID req) = some intent)
    (hb : env.store.beginFails = false) (hs : env.store.setSearchPathFails = false)
    (h0 : env.store.stmtFails 0 = false) (hc : env.store.commitFails = false) :
    (createNewIntent env tenantID req w pre).resp.code = 200 := by
  simp [createNewIntent, hn, RunInTenantScope, hb, hs, hc, hdb, storeIntentWork, h0]

/-! ## Lemmas: HandleStripeWebhook -/

/-- The size in bytes of `n` one-byte characters after `k` bytes. -/
theorem utf8ByteSize_go_replicate (n : Nat) :
    String.utf8ByteSize.go (List.replicate n 'x') = n := by
  induction n with
  | zero => rfl
  | succ n ih =>
    rw [List.replicate_succ, String.utf8ByteSize.go, ih]
    rfl

/-- The body of the oversized sample request is 65537 bytes long. -/
theorem sampleOversized_size : sampleOversized.body.utf8ByteSize = 65537 := by
  show String.utf8ByteSize (String.mk (List.replicate 65537 'x')) = 65537
  rw [String.utf8ByteSize, utf8ByteSize_go_replicate]

/-! ## Lemmas: booking, authorization and return in sequence -/

/-- Two days at 10000 a day plus the damage cost. -/
theorem finalAmount_two_days (startTime damage : ℤ) (h0 : 0 ≤ damage) (h1 : damage < 2 ^ 62) :
    finalAmount startTime (startTime + 172800000000000) 10000 damage = 20000 + damage := by
  have hdiff : startTime + 172800000000000 - startTime = 172800000000000 := by ring
  have hdays : billedDays startTime (startTime + 172800000000000) = 2 := by
    rw [billedDays_eq _ _ (by rw [hdiff]; decide) (by rw [hdiff]; decide)
      (by rw [hdiff]; decide), hdiff]
    decide
  unfold finalAmount
  simp only [hdays]
  rw [wrapInt64_of_fits (2 * 10000) (by norm_num) (by norm_num),
    wrapInt64_of_fits _ (by omega) (by omega)]
  norm_num

/-- The first row of a filter is what `find?` finds. -/
theorem filter_of_find {α : Type} (p : α → Bool) (l : List α) (a : α)
    (h : l.find? p = some a) : ∃ rest, l.filter p = a :: rest := by
  induction l with
  | nil => simp at h
  | cons x xs ih =>
    by_cases hx : p x = true
    · simp [List.find?, hx] at h
      subst h
      exact ⟨xs.filter p, by simp [List.filter, hx]⟩
    · have hx2 : p x = false := by simpa using hx
      simp [List.find?, hx2] at h
      obtain ⟨rest, hr⟩ := ih h
      exact ⟨rest, by simp [List.filter, hx2, hr]⟩

/-- The handler `CreateBooking` on an available car when storage works: 201, and the
partition gains the pending booking and has the car rented. -/
theorem createBooking_healthy (env : Env) (req : CreateBookingRequest) (tenantID : String)
    (w : World) (db : DB) (car : Car)
    (hb : env.beginFails = false) (hs : env.setSearchPathFails = false)
    (hf : ∀ k, env.stmtFails k = false) (hc : env.commitFails = false)
    (hdb : w.schemas tenantID = some db)
    (hcar : (db.cars.find? fun c => c.id = req.CarID) = some car)
    (havail : car.status = CarStatusAvailable) :
    (CreateBooking env ⟨some req, some tenantID⟩ w).resp = ⟨201, none⟩ ∧
      (CreateBooking env ⟨some req, some tenantID⟩ w).world
        = w.setSchema tenantID (setCarStatus (insertBooking db
            (pendingBooking env.newBookingID req.CarID req.CustomerID req.StartTime
              req.EndTime)) CarStatusRented req.CarID) := by
  constructor
  · simp [CreateBooking, RunInTenantScope, createBookingWork, hb, hs, hf, hc, hdb, hcar, havail]
  · apply world_eq_of_fields <;>
      simp [CreateBooking, RunInTenantScope, createBookingWork, hb, hs, hf, hc, hdb, hcar,
        havail, World.setSchema]

/-- The handler `CreatePaymentIntent` for a booking without payment row when the processor
grants the authorization and storage works: 200, and the partition gains the
payment row. -/
theorem createPaymentIntent_healthy (env : PayEnv) (req : CreateIntentRequest)
    (tenantID : String) (w : World) (db : DB) (intent : PaymentIntent)
    (hamount : 0 < req.Amount) (hdb : w.schemas tenantID = some db)
    (hpay : (db.payments.find? fun x => x.bookingID = req.BookingID) = none)
    (hn : env.newIntent (intentParams tenantID req) = some intent)
    (hb : env.store.beginFails = false) (hs : env.store.setSearchPathFails = false)
    (h0 : env.store.stmtFails 0 = false) (hc : env.store.commitFails = false) :
    (CreatePaymentIntent env ⟨some req, some tenantID⟩ w).resp
        = ⟨200, .object [("client_secret", intent.ClientSecret)]⟩ ∧
      (CreatePaymentIntent env ⟨some req, some tenantID⟩ w).world
        = w.setSchema tenantID
            (insertPayment db ⟨req.BookingID, intent.ID, req.Amount, "pending_auth"⟩) := by
  obtain ⟨⟨e, he⟩, hworld⟩ :=
    existingIntent_absent env.lookup tenantID req.BookingID w db hdb hpay
  have hform : CreatePaymentIntent env ⟨some req, some tenantID⟩ w
      = createNewIntent env tenantID req w
          ((RunInTenantScope env.lookup tenantID (existingIntentWork req.BookingID)
            w).trace.map Call.db) := by
    simp [CreatePaymentIntent, not_le.mpr hamount, he, hworld]
  rw [hform]
  constructor
  · simp [createNewIntent, hn, RunInTenantScope, hb, hs, hc, hdb, storeIntentWork, h0]
  · apply world_eq_of_fields <;>
      simp [createNewIntent, hn, RunInTenantScope, hb, hs, hc, hdb, storeIntentWork, h0,
        World.setSchema]

/-- The handler `ReturnCar` on a booking that is found and not in a terminal state, when
the processor accepts the capture and storage works: 200, and the partition
has the three updates. -/
theorem returnCar_healthy (env : Env) (bookingID : String) (req : ReturnCarRequest)
    (tenantID : String) (w : World) (db : DB) (row : ReturnRow)
    (hdamage : 0 ≤ req.DamageCostCents)
    (hb : env.beginFails = false) (hs : env.setSearchPathFails = false)
    (hf : ∀ k, env.stmtFails k = false) (hc : env.commitFails = false)
    (hcap : env.captureFails = false)
    (hdb : w.schemas tenantID = some db)
    (hrow : (returnJoin db bookingID).head? = some row)
    (hcompleted : row.status ≠ "completed") (hcancelled : row.status ≠ "cancelled") :
    (ReturnCar env bookingID ⟨some req, some tenantID⟩ w).resp = ⟨200, none⟩ ∧
      (ReturnCar env bookingID ⟨some req, some tenantID⟩ w).world.schemas tenantID
        = some (setPaymentCaptured (setCarReturned
            (completeBooking db req.FinalOdometer req.DamageCostCents
              (finalAmount row.startTime row.endTime row.dailyRateCents req.DamageCostCents)
              bookingID)
            (newCarStatus req.DamageCostCents) req.FinalOdometer row.carID)
            (finalAmount row.startTime row.endTime row.dailyRateCents req.DamageCostCents)
            row.stripeIntentID) := by
  have hd : ¬ req.DamageCostCents < 0 := not_lt.mpr hdamage
  have hcapture : (w.stripe.capture env.captureFails row.stripeIntentID (captureKey bookingID)
      (finalAmount row.startTime row.endTime row.dailyRateCents req.DamageCostCents)).1
        = true := by
    unfold Stripe.capture
    rw [hcap]
    split_ifs <;> first | rfl | contradiction
  constructor
  · simp [ReturnCar, RunInTenantScope, returnCarWork, returnCarUpdates, hd, hb, hs, hf, hc,
      hdb, hrow, hcompleted, hcancelled, hcapture]
  · simp [ReturnCar, RunInTenantScope, returnCarWork, returnCarUpdates, hd, hb, hs, hf, hc,
      hdb, hrow, hcompleted, hcancelled, hcapture, World.setSchema]

/-- The car `find?` finds after `setCarStatus` is the one it found before,
with the new status. -/
theorem find_setCarStatus (cars : List Car) (st : CarStatus) (carID : String) (car : Car)
    (hcar : (cars.find? fun c => c.id = carID) = some car) :
    ((cars.map fun c => if c.id = carID then { c with status := st } else c).find?
      fun c => c.id = carID) = some { car with status := st } := by
  induction cars with
  | nil => simp at hcar
  | cons x xs ih =>
    by_cases hx : x.id = carID
    · simp [List.find?, hx] at hcar
      subst hcar
      simp [List.find?, hx]
    · simp [List.find?, hx] at hcar
      simp [List.find?, hx, ih hcar]

/-- The row `ReturnCar` reads for a booking that `CreateBooking` has just
inserted under a fresh key and `CreatePaymentIntent` has just authorized. -/
theorem returnJoin_fresh (db : DB) (id carID custID intentID pstatus : String)
    (s e : Time) (amt : Int) (st : CarStatus) (car : Car) (cust : Customer)
    (hb : ∀ b ∈ db.bookings, b.id ≠ id) (hp : ∀ p ∈ db.payments, p.bookingID ≠ id)
    (hcar : (db.cars.find? fun c => c.id = carID) = some car)
    (hcust : (db.customers.find? fun c => c.id = custID) = some cust) :
    (returnJoin (insertPayment (setCarStatus (insertBooking db
        (pendingBooking id carID custID s e)) st carID) ⟨id, intentID, amt, pstatus⟩) id).head?
      = some ⟨carID, storedTime s, storedTime e, "pending", intentID, car.dailyRateCents,
          cust.email, cust.firstName, cust.lastName, car.make, car.model⟩ := by
  have hB : (db.bookings ++ [pendingBooking id carID custID s e]).filter
      (fun b => b.id = id) = [pendingBooking id carID custID s e] := by
    rw [List.filter_append, List.filter_eq_nil_iff.mpr (by simpa using hb)]
    simp [pendingBooking]
  have hP : (db.payments ++ [(⟨id, intentID, amt, pstatus⟩ : Payment)]).filter
      (fun p => p.bookingID = id) = [⟨id, intentID, amt, pstatus⟩] := by
    rw [List.filter_append, List.filter_eq_nil_iff.mpr (by simpa using hp)]
    simp
  obtain ⟨restC, hC2⟩ := filter_of_find _ _ _ (find_setCarStatus db.cars st carID car hcar)
  obtain ⟨restU, hU⟩ := filter_of_find _ _ _ hcust
  unfold returnJoin
  simp only [insertPayment, setCarStatus, insertBooking, hB, List.flatMap_cons,
    List.flatMap_nil, List.append_nil]
  have e1 : (pendingBooking id carID custID s e).id = id := rfl
  have e2 : (pendingBooking id carID custID s e).carID = carID := rfl
  have e3 : (pendingBooking id carID custID s e).customerID = custID := rfl
  simp only [e1, e2, e3, hP, hC2, hU, List.flatMap_cons, List.flatMap_nil, List.append_nil,
    List.map_cons, List.cons_append, List.head?_cons]
  rfl

/-- The car `find?` finds after `setCarReturned` is the one it found before,
with the new status and odometer. -/
theorem find_setCarReturned (cars : List Car) (st : CarStatus) (odometer : Int)
    (carID : String) (car : Car) (hcar : (cars.find? fun c => c.id = carID) = some car) :
    ((cars.map fun c =>
        if c.id = carID then { c with status := st, odometer := odometer } else c).find?
      fun c => c.id = carID) = some { car with status := st, odometer := odometer } := by
  induction cars with
  | nil => simp at hcar
  | cons x xs ih =>
    by_cases hx : x.id = carID
    · simp [List.find?, hx] at hcar
      subst hcar
      simp [List.find?, hx]
    · simp [List.find?, hx] at hcar
      simp [List.find?, hx, ih hcar]

/-! ## Lemmas: who writes booking rows -/

/-- Nothing changed keeps the bookings. -/
theorem keepsBookings_refl (w : World) : KeepsBookings w w :=
  fun _ db h => ⟨db, [], h, by simp⟩

/-- Keeping the bookings twice keeps them. -/
theorem keepsBookings_trans (w w1 w2 : World) (h1 : KeepsBookings w w1)
    (h2 : KeepsBookings w1 w2) : KeepsBookings w w2 := by
  intro t db hdb
  obtain ⟨db1, e1, hs1, hb1⟩ := h1 t db hdb
  obtain ⟨db2, e2, hs2, hb2⟩ := h2 t db1 hs1
  exact ⟨db2, e1 ++ e2, hs2, by rw [hb2, hb1, List.append_assoc]⟩

/-- After the tenant scope a partition is as before, or it is the partition of
the scope as the unit of work returned it. -/
theorem runInTenantScope_partition {α : Type} (env : Env) (tid : String) (fn : Work α)
    (w : World) (t : String) (db : DB) (hdb : w.schemas t = some db) :
    (RunInTenantScope env tid fn w).world.schemas t = some db ∨
      (t = tid ∧ ∃ a db1, (fn env.stmtFails db w.stripe).result = .ok (a, db1) ∧
        (RunInTenantScope env tid fn w).world.schemas t = some db1) := by
  by_cases ht : t = tid
  · subst ht
    cases hr : (fn env.stmtFails db w.stripe).result with
    | error e =>
      left
      rw [(runInTenantScope_of_error env t fn w db hdb ⟨e, hr⟩).2.1]
      exact hdb
    | ok v =>
      obtain ⟨a, db1⟩ := v
      rcases runInTenantScope_of_ok env t fn w db db1 a hdb hr with h | h
      · left
        rw [h.2.1]
        exact hdb
      · right
        exact ⟨rfl, a, db1, rfl, by rw [h.2.1]; simp⟩
  · left
    rw [runInTenantScope_other env tid t fn w ht]
    exact hdb

/-- A tenant scope around a unit of work that only adds booking rows keeps the
bookings. -/
theorem keepsBookings_scope {α : Type} (env : Env) (tid : String) (fn : Work α) (w : World)
    (hfn : ∀ f db st a db1, (fn f db st).result = .ok (a, db1) →
      ∃ extra, db1.bookings = db.bookings ++ extra) :
    KeepsBookings w (RunInTenantScope env tid fn w).world := by
  intro t db hdb
  rcases runInTenantScope_partition env tid fn w t db hdb with h | ⟨-, a, db1, hr, hs⟩
  · exact ⟨db, [], h, by simp⟩
  · obtain ⟨extra, he⟩ := hfn _ _ _ _ _ hr
    exact ⟨db1, extra, hs, he⟩

/-- The unit of work of `CreateBooking` only adds a booking row. -/
theorem createBookingWork_bookings (env : Env) (req : CreateBookingRequest) (f : Nat → Bool)
    (db : DB) (st : Stripe) (a : Unit) (db1 : DB)
    (h : (createBookingWork env req f db st).result = .ok (a, db1)) :
    ∃ extra, db1.bookings = db.bookings ++ extra := by
  unfold createBookingWork at h
  split at h
  · simp at h
  · split at h
    · simp at h
    · split at h
      · simp at h
      · split at h
        · simp at h
        · split at h
          · simp at h
          · simp only [Except.ok.injEq, Prod.mk.injEq, true_and] at h
            subst h
            exact ⟨_, rfl⟩

/-- Steps 2 to 4 of the unit of work of `PublicBook` only add a booking row. -/
theorem publicBookCar_bookings (env : Env) (req : PublicBookRequest) (cid : String)
    (pre : List Effect) (f : Nat → Bool) (db : DB) (st : Stripe) (a : Unit) (db1 : DB)
    (h : (publicBookCar env req cid pre f db st).result = .ok (a, db1)) :
    ∃ extra, db1.bookings = db.bookings ++ extra := by
  unfold publicBookCar at h
  split at h
  · simp at h
  · split at h
    · simp at h
    · split at h
      · simp at h
      · split at h
        · simp at h
        · split at h
          · simp at h
          · simp only [Except.ok.injEq, Prod.mk.injEq, true_and] at h
            subst h
            exact ⟨_, rfl⟩

/-- The unit of work of `PublicBook` only adds a booking row. -/
theorem publicBookWork_bookings (env : Env) (req : PublicBookRequest) (f : Nat → Bool)
    (db : DB) (st : Stripe) (a : Unit) (db1 : DB)
    (h : (publicBookWork env req f db st).result = .ok (a, db1)) :
    ∃ extra, db1.bookings = db.bookings ++ extra := by
  unfold publicBookWork at h
  split at h
  · simp at h
  · split at h
    · exact publicBookCar_bookings _ _ _ _ _ _ _ _ _ h
    · split at h
      · simp at h
      · exact publicBookCar_bookings _ _ _ _ _
          { db with customers := db.customers ++
              [⟨env.newCustomerID, req.CustomerEmail, req.CustomerName, ""⟩] } _ _ _ h

/-- The lookup of `CreatePaymentIntent` writes nothing. -/
theorem existingIntentWork_bookings (bookingID : String) (f : Nat → Bool) (db : DB)
    (st : Stripe) (a : String) (db1 : DB)
    (h : (existingIntentWork bookingID f db st).result = .ok (a, db1)) :
    ∃ extra, db1.bookings = db.bookings ++ extra := by
  unfold existingIntentWork at h
  split at h
  · simp at h
  · split at h
    · simp at h
    · simp only [Except.ok.injEq, Prod.mk.injEq] at h
      exact ⟨[], by rw [← h.2]; simp⟩

/-- The second unit of work of `CreatePaymentIntent` writes a payment row
only. -/
theorem storeIntentWork_bookings (req : CreateIntentRequest) (intent : PaymentIntent)
    (f : Nat → Bool) (db : DB) (st : Stripe) (a : Unit) (db1 : DB)
    (h : (storeIntentWork req intent f db st).result = .ok (a, db1)) :
    ∃ extra, db1.bookings = db.bookings ++ extra := by
  unfold storeIntentWork at h
  split at h
  · simp at h
  · simp only [Except.ok.injEq, Prod.mk.injEq, true_and] at h
    exact ⟨[], by rw [← h]; simp [insertPayment]⟩

/-- The unit of work of the webhook writes payment rows only. -/
theorem authorizeWork_bookings (intentID : String) (f : Nat → Bool) (db : DB) (st : Stripe)
    (a : Unit) (db1 : DB) (h : (authorizeWork intentID f db st).result = .ok (a, db1)) :
    ∃ extra, db1.bookings = db.bookings ++ extra := by
  unfold authorizeWork at h
  split at h
  · simp at h
  · simp only [Except.ok.injEq, Prod.mk.injEq, true_and] at h
    exact ⟨[], by rw [← h]; simp [authorizePayment]⟩

/-- The handler `CreateBooking` keeps the bookings. -/
theorem createBooking_keeps (env : Env) (r : Request CreateBookingRequest) (w : World) :
    KeepsBookings w (CreateBooking env r w).world := by
  cases hbody : r.body with
  | none => simpa [CreateBooking, hbody] using keepsBookings_refl w
  | some req =>
    cases htenant : r.tenant with
    | none => simpa [CreateBooking, hbody, htenant] using keepsBookings_refl w
    | some tid =>
      have h := keepsBookings_scope env tid (createBookingWork env req) w
        (createBookingWork_bookings env req)
      cases hres : (RunInTenantScope env tid (createBookingWork env req) w).result <;>
        simpa [CreateBooking, hbody, htenant, hres] using h

/-- The handler `PublicBook` keeps the bookings. -/
theorem publicBook_keeps (env : Env) (r : PublicRequest) (w : World) :
    KeepsBookings w (PublicBook env r w).world := by
  unfold PublicBook
  split
  · exact keepsBookings_refl w
  · split
    · exact keepsBookings_refl w
    · split
      · exact keepsBookings_refl w
      · split
        · exact keepsBookings_refl w
        · split
          · exact keepsBookings_refl w
          · simp only
            split <;> exact keepsBookings_scope _ _ _ _ (publicBookWork_bookings _ _)

/-- The second half of `CreatePaymentIntent` keeps the bookings. -/
theorem createNewIntent_keeps (env : PayEnv) (tenantID : String) (req : CreateIntentRequest)
    (w : World) (pre : List Call) :
    KeepsBookings w (createNewIntent env tenantID req w pre).world := by
  unfold createNewIntent
  simp only
  split
  · exact keepsBookings_refl w
  · split <;> exact keepsBookings_scope _ _ _ _ (storeIntentWork_bookings _ _)

/-- The handler `CreatePaymentIntent` keeps the bookings. -/
theorem createPaymentIntent_keeps (env : PayEnv) (r : Request CreateIntentRequest)
    (w : World) : KeepsBookings w (CreatePaymentIntent env r w).world := by
  unfold CreatePaymentIntent
  split
  · exact keepsBookings_refl w
  · split
    · exact keepsBookings_refl w
    · split
      · exact keepsBookings_refl w
      · simp only
        split
        · exact keepsBookings_trans _ _ _
            (keepsBookings_scope _ _ _ _ (existingIntentWork_bookings _))
            (createNewIntent_keeps _ _ _ _ _)
        · split
          · split <;> exact keepsBookings_scope _ _ _ _ (existingIntentWork_bookings _)
          · exact keepsBookings_trans _ _ _
              (keepsBookings_scope _ _ _ _ (existingIntentWork_bookings _))
              (createNewIntent_keeps _ _ _ _ _)

/-- The handler `HandleStripeWebhook` keeps the bookings. -/
theorem handleStripeWebhook_keeps (env : HookEnv) (r : WebhookRequest) (w : World) :
    KeepsBookings w (HandleStripeWebhook env r w).world := by
  unfold HandleStripeWebhook
  split
  · exact keepsBookings_refl w
  · split
    · exact keepsBookings_refl w
    · split
      · split
        · exact keepsBookings_refl w
        · split
          · exact keepsBookings_refl w
          · simp only
            split <;> exact keepsBookings_scope _ _ _ _ (authorizeWork_bookings _)
      · exact keepsBookings_refl w

/-- The method `CarRepository.GetByID` leaves the world as it was. -/
theorem getByID_world (env : RepoEnv) (tenant : Option String) (id : String) (w : World) :
    (CarRepository.GetByID env tenant id w).world = w := by
  unfold CarRepository.GetByID
  repeat' split
  all_goals rfl

/-- Writing a partition back with its booking rows as they were keeps the
bookings. -/
theorem keepsBookings_setSchema (w : World) (schema : String) (db0 db1 : DB)
    (h0 : w.schemas schema = some db0) (hb : db1.bookings = db0.bookings) :
    KeepsBookings w (w.setSchema schema db1) := by
  intro t db hdb
  by_cases ht : t = schema
  · subst ht
    rw [h0] at hdb
    cases hdb
    exact ⟨db1, [], by simp [World.setSchema], by simp [hb]⟩
  · exact ⟨db, [], by simp [World.setSchema, ht, hdb], by simp⟩

/-- The UPDATE of the repository keeps the bookings. -/
theorem keepsBookings_updateCarRow (w : World) (schema : String) (db0 : DB) (car : CarValue)
    (h0 : w.schemas schema = some db0) :
    KeepsBookings w (w.setSchema schema (updateCarRow db0 car)) :=
  keepsBookings_setSchema w schema db0 _ h0 rfl

/-- The method `CarRepository.Update` keeps the bookings. -/
theorem update_keeps (env : RepoEnv) (tenant : Option String) (car : CarValue) (w : World) :
    KeepsBookings w (CarRepository.Update env tenant car w).world := by
  unfold CarRepository.Update
  repeat' split
  all_goals first
    | exact keepsBookings_refl w
    | exact keepsBookings_updateCarRow _ _ _ _ (by assumption)

/-- The handler `UpdateCar` keeps the bookings. -/
theorem updateCar_keeps (env : CarEnv) (r : CarRequest) (w : World) :
    KeepsBookings w (UpdateCar env r w).world := by
  have hstore : ∀ car pre, KeepsBookings w (storeCar env r.tenant car w pre).world := by
    intro car pre
    unfold storeCar
    simp only
    split <;> exact update_keeps _ _ _ _
  unfold UpdateCar
  simp only [getByID_world]
  repeat' split
  all_goals first
    | exact keepsBookings_refl w
    | exact hstore _ _

/-- The row `ReturnCar` reads comes from a booking row with the key asked for
and carries its status. -/
theorem returnJoin_head_booking (db : DB) (bookingID : String) (row : ReturnRow)
    (h : (returnJoin db bookingID).head? = some row) :
    ∃ b ∈ db.bookings, b.id = bookingID ∧ b.status = row.status := by
  have hmem : row ∈ returnJoin db bookingID := List.mem_of_mem_head? (by simp [h])
  unfold returnJoin at hmem
  simp only [List.mem_flatMap, List.mem_filter, List.mem_map] at hmem
  obtain ⟨b, ⟨hb, hid⟩, p, _, c, _, cust, _, hrow⟩ := hmem
  exact ⟨b, hb, by simpa using hid, by rw [← hrow]⟩

/-- The unit of work of `ReturnCar` succeeds only on a row whose status is
not terminal, and then writes the booking rows with the key asked for. -/
theorem returnCarWork_bookings (env : Env) (bookingID : String) (req : ReturnCarRequest)
    (f : Nat → Bool) (db : DB) (st : Stripe) (a : Unit) (db1 : DB)
    (h : (returnCarWork env bookingID req f db st).result = .ok (a, db1)) :
    ∃ row, (returnJoin db bookingID).head? = some row ∧ row.status ≠ "completed" ∧
      row.status ≠ "cancelled" ∧
      ∃ o d amt, db1.bookings = (completeBooking db o d amt bookingID).bookings := by
  unfold returnCarWork at h
  split at h
  · simp at h
  · split at h
    · simp at h
    · rename_i row hrow
      split at h
      · simp at h
      · split at h
        · simp at h
        · refine ⟨row, hrow, by assumption, by assumption, ?_⟩
          simp only at h
          split at h
          · simp at h
          · unfold returnCarUpdates at h
            simp only at h
            split at h
            · simp at h
            · split at h
              · simp at h
              · split at h
                · simp at h
                · simp only [Except.ok.injEq, Prod.mk.injEq, true_and] at h
                  exact ⟨_, _, _, by rw [← h]; rfl⟩

/-- A booking row in a terminal state is in place and unchanged after
`ReturnCar`, the booking keys of the partition being unique. -/
theorem returnCar_terminal (env : Env) (bookingID : String) (r : Request ReturnCarRequest)
    (w : World) (t : String) (db : DB) (i : Nat) (b : Booking)
    (hdb : w.schemas t = some db)
    (hkey : ∀ b1 ∈ db.bookings, ∀ b2 ∈ db.bookings, b1.id = b2.id → b1 = b2)
    (hrow : db.bookings[i]? = some b)
    (hterminal : b.status = "completed" ∨ b.status = "cancelled") :
    ∃ db1, (ReturnCar env bookingID r w).world.schemas t = some db1 ∧
      db1.bookings[i]? = some b := by
  cases hbody : r.body with
  | none => exact ⟨db, by simpa [ReturnCar, hbody] using hdb, hrow⟩
  | some req =>
    by_cases hneg : req.DamageCostCents < 0
    · exact ⟨db, by simpa [ReturnCar, hbody, hneg] using hdb, hrow⟩
    · cases htenant : r.tenant with
      | none => exact ⟨db, by simpa [ReturnCar, hbody, hneg, htenant] using hdb, hrow⟩
      | some tid =>
        rw [(returnCar_eq_scope env bookingID r w req tid hbody hneg htenant).2.1]
        rcases runInTenantScope_partition env tid (returnCarWork env bookingID req) w t db hdb
          with h | ⟨-, a, db1, hr, hs⟩
        · exact ⟨db, h, hrow⟩
        · refine ⟨db1, hs, ?_⟩
          obtain ⟨row, hhead, hc1, hc2, o, d, amt, hbk⟩ :=
            returnCarWork_bookings env bookingID req _ db _ a db1 hr
          obtain ⟨b0, hb0, hid0, hst0⟩ := returnJoin_head_booking db bookingID row hhead
          have hbmem : b ∈ db.bookings := List.getElem?_mem hrow
          have hne : b.id ≠ bookingID := by
            intro hid
            have hEq : b = b0 := hkey b hbmem b0 hb0 (hid.trans hid0.symm)
            subst hEq
            rcases hterminal with h | h
            · exact hc1 (hst0 ▸ h)
            · exact hc2 (hst0 ▸ h)
          rw [hbk]
          simp only [completeBooking, List.getElem?_map, hrow, Option.map_some']
          rw [if_neg hne]

/-! ## Lemmas: the calls of a tenant scope, the capture key -/

/-- A call in the trace of the tenant scope is one of the scope itself or a
call of the unit of work. -/
theorem mem_scope_trace {α : Type} (env : Env) (t : String) (fn : Work α) (w : World)
    (x : Effect) (h : x ∈ (RunInTenantScope env t fn w).trace) :
    x = .txBegin ∨ x = .setSearchPath t ∨ x = .rollback ∨ x = .commit ∨
      x ∈ (scopedWork env t fn w).trace := by
  cases hb : env.beginFails
  · cases hs : env.setSearchPathFails
    · cases hr : (scopedWork env t fn w).result with
      | error e =>
        rw [(runInTenantScope_trace_error env t fn w e hb hs hr).2.2.2] at h
        simp only [List.mem_cons, List.mem_append, List.mem_singleton] at h
        tauto
      | ok v =>
        rw [runInTenantScope_trace_ok env t fn w v hb hs hr] at h
        simp only [List.mem_cons, List.mem_append, List.mem_singleton] at h
        tauto
    · simp [RunInTenantScope, hb, hs] at h
      tauto
  · simp [RunInTenantScope, hb] at h
    tauto

/-- A capture the unit of work of `ReturnCar` requests carries the key of the
booking. -/
theorem returnCarWork_capture_key (env : Env) (bookingID : String) (req : ReturnCarRequest)
    (f : Nat → Bool) (db : DB) (st : Stripe) (intent key : String) (amount : Int) (ok : Bool)
    (h : Effect.capture intent key amount ok ∈ (returnCarWork env bookingID req f db st).trace) :
    key = captureKey bookingID := by
  unfold returnCarWork at h
  split at h
  · simp at h
  · split at h
    · simp at h
    · split at h
      · simp at h
      · split at h
        · simp at h
        · simp only at h
          split at h
          · simp at h
            exact h.2.1
          · unfold returnCarUpdates at h
            simp only at h
            split at h
            · simp at h
              exact h.2.1
            · split at h
              · simp at h
                exact h.2.1
              · split at h <;>
                · simp at h
                  exact h.2.1

/-- The key of the capture determines the booking. -/
theorem captureKey_injective (a b : String) (h : captureKey a = captureKey b) : a = b := by
  unfold captureKey at h
  have h1 := congrArg String.data h
  simp only [String.data_append] at h1
  exact String.ext (List.append_cancel_left h1)

/-! ## Lemmas: replayed events, the lookup that fails -/

/-- Marking a payment authorized twice is marking it once. -/
theorem authorizePayment_idem (db : DB) (id : String) :
    authorizePayment (authorizePayment db id) id = authorizePayment db id := by
  unfold authorizePayment
  simp only [List.map_map]
  congr 1
  apply List.map_congr_left
  intro p _
  by_cases h : p.stripeIntentID = id <;> simp [h]

/-- The unit of work of the webhook run a second time returns what it returned
the first time and leaves the world of the first time. -/
theorem authorize_scope_idem (env : Env) (tid id : String) (w : World) :
    (RunInTenantScope env tid (authorizeWork id)
        (RunInTenantScope env tid (authorizeWork id) w).world).result
        = (RunInTenantScope env tid (authorizeWork id) w).result ∧
      (RunInTenantScope env tid (authorizeWork id)
        (RunInTenantScope env tid (authorizeWork id) w).world).world
        = (RunInTenantScope env tid (authorizeWork id) w).world := by
  cases hb : env.beginFails
  · cases hs : env.setSearchPathFails
    · cases hw : w.schemas tid with
      | none => simp [RunInTenantScope, hb, hs, hw, authorizeWork]
      | some db =>
        cases h0 : env.stmtFails 0
        · cases hc : env.commitFails
          · have h1 : (RunInTenantScope env tid (authorizeWork id) w).world
                = w.setSchema tid (authorizePayment db id) := by
              apply world_eq_of_fields <;>
                simp [RunInTenantScope, hb, hs, hw, authorizeWork, h0, hc, World.setSchema]
            have h2 : (w.setSchema tid (authorizePayment db id)).schemas tid
                = some (authorizePayment db id) := by simp [World.setSchema]
            rw [h1]
            constructor
            · simp [RunInTenantScope, hb, hs, hw, h2, authorizeWork, h0, hc]
            · apply world_eq_of_fields
              · simp [RunInTenantScope, hb, hs, h2, authorizeWork, h0, hc, World.setSchema]
              · funext s
                by_cases hst : s = tid
                · simp [RunInTenantScope, hb, hs, h2, authorizeWork, h0, hc, World.setSchema,
                    hst, authorizePayment_idem]
                · simp [RunInTenantScope, hb, hs, h2, authorizeWork, h0, hc, World.setSchema,
                    hst]
              · simp [RunInTenantScope, hb, hs, h2, authorizeWork, h0, hc, World.setSchema]
          · simp [RunInTenantScope, hb, hs, hw, authorizeWork, h0, hc]
        · simp [RunInTenantScope, hb, hs, hw, authorizeWork, h0]
    · simp [RunInTenantScope, hb, hs]
  · simp [RunInTenantScope, hb]

/-- A database call is no retrieval of an authorization. -/
theorem intentGet_not_mem_db (l : List Effect) (id : String) :
    Call.intentGet id ∉ l.map Call.db := by
  simp

/-- The second half of `CreatePaymentIntent` retrieves no authorization. -/
theorem createNewIntent_no_get (env : PayEnv) (tenantID : String) (req : CreateIntentRequest)
    (w : World) (l : List Effect) (id : String) :
    Call.intentGet id ∉ (createNewIntent env tenantID req w (l.map Call.db)).trace := by
  unfold createNewIntent
  simp only
  split
  · simp
  · split <;> simp

/-- The second half of `CreatePaymentIntent` requests exactly one
authorization. -/
theorem createNewIntent_requests (env : PayEnv) (tenantID : String)
    (req : CreateIntentRequest) (w : World) (l : List Effect) :
    intentRequests (createNewIntent env tenantID req w (l.map Call.db)).trace
      = [intentParams tenantID req] := by
  unfold createNewIntent
  simp only
  split
  · rw [intentRequests_append, intentRequests_db]
    rfl
  · split <;>
    · rw [intentRequests_append, intentRequests_append, intentRequests_db, intentRequests_db]
      rfl

/-! ## Lemmas: the sanitized identifier as SQL reads it -/

/-- The characters of the sanitized identifier. -/
theorem sanitize_toList (part : String) :
    (Sanitize part).toList
      = '"' :: (((part.toList.filter fun c => c ≠ Char.ofNat 0).flatMap
          fun c => if c = '"' then ['"', '"'] else [c]) ++ ['"']) := by
  unfold Sanitize
  simp only [String.toList, String.data_append]
  rfl

/-- Reading back a name whose double quotes were doubled, up to the closing
quote, gives the name and leaves nothing. -/
theorem readQuoted_doubled (l : List Char) :
    readQuoted ((l.flatMap fun c => if c = '"' then ['"', '"'] else [c]) ++ ['"'])
      = some (l, []) := by
  induction l with
  | nil => rfl
  | cons c l ih =>
    by_cases hc : c = '"'
    · subst hc
      simp only [List.flatMap_cons, if_true, List.cons_append, List.nil_append]
      rw [readQuoted]
      simp [ih]
    · simp only [List.flatMap_cons, hc, if_false, List.cons_append, List.nil_append]
      cases htail : (l.flatMap fun c => if c = '"' then ['"', '"'] else [c]) ++ ['"'] with
      | nil => simp at htail
      | cons d rest =>
        rw [htail] at ih
        rw [readQuoted]
        simp [hc, ih]

/-- The sanitized identifier holds no NUL byte. -/
theorem sanitize_no_nul (part : String) : Char.ofNat 0 ∉ (Sanitize part).toList := by
  rw [sanitize_toList]
  intro h
  simp only [List.mem_cons, List.mem_append, List.mem_flatMap, List.mem_filter,
    List.mem_singleton] at h
  rcases h with h | ⟨c, ⟨-, hc⟩, hmem⟩ | h
  · exact absurd h (by decide)
  · by_cases hq : c = '"'
    · simp only [hq, if_true, List.mem_cons, List.mem_singleton] at hmem
      rcases hmem with h | h | h
      · exact absurd h (by decide)
      · exact absurd h (by decide)
      · simp at h
    · simp only [hq, if_false, List.mem_singleton] at hmem
      subst hmem
      simp at hc
  · exact absurd h (by decide)

/-! ## Lemmas: splitting a text -/

/-- A split has at least one piece. -/
theorem splitChars_ne_nil (sep : Char) (l : List Char) : splitChars sep l ≠ [] := by
  cases l with
  | nil => simp [splitChars]
  | cons c cs =>
    unfold splitChars
    split
    · simp
    · split <;> simp

/-- A text without the separator is one piece. -/
theorem splitChars_of_not_mem (sep : Char) (l : List Char) (h : sep ∉ l) :
    splitChars sep l = [l] := by
  induction l with
  | nil => rfl
  | cons c cs ih =>
    have hc : c ≠ sep := fun e => h (by simp [e])
    have hcs : sep ∉ cs := fun e => h (by simp [e])
    unfold splitChars
    simp [hc, ih hcs]

/-- The split of a text at the first separator. -/
theorem splitChars_append (sep : Char) (a b : List Char) (h : sep ∉ a) :
    splitChars sep (a ++ sep :: b) = a :: splitChars sep b := by
  induction a with
  | nil => simp [splitChars]
  | cons c cs ih =>
    have hc : c ≠ sep := fun e => h (by simp [e])
    have hcs : sep ∉ cs := fun e => h (by simp [e])
    rw [List.cons_append, splitChars]
    simp [hc, ih hcs]

/-- A text that splits into one piece is that piece and holds no separator. -/
theorem splitChars_one (sep : Char) (l b : List Char) (h : splitChars sep l = [b]) :
    l = b ∧ sep ∉ b := by
  induction l generalizing b with
  | nil =>
    simp [splitChars] at h
    subst h
    simp
  | cons c cs ih =>
    unfold splitChars at h
    by_cases hc : c = sep
    · simp only [hc, if_true, List.cons.injEq] at h
      exact absurd h.2 (splitChars_ne_nil sep cs)
    · simp only [hc, if_false] at h
      cases hs : splitChars sep cs with
      | nil => exact absurd hs (splitChars_ne_nil sep cs)
      | cons p ps =>
        rw [hs] at h
        simp only [List.cons.injEq] at h
        obtain ⟨hb, hps⟩ := h
        subst hps
        obtain ⟨h1, h2⟩ := ih p hs
        subst hb
        subst h1
        exact ⟨rfl, by simp [Ne.symm hc, h2]⟩

/-- A text that splits into two pieces is the first, the separator and the
second, and the pieces hold no separator. -/
theorem splitChars_two (sep : Char) (l a b : List Char) (h : splitChars sep l = [a, b]) :
    l = a ++ sep :: b ∧ sep ∉ a ∧ sep ∉ b := by
  induction l generalizing a with
  | nil => simp [splitChars] at h
  | cons c cs ih =>
    unfold splitChars at h
    by_cases hc : c = sep
    · simp only [hc, if_true, List.cons.injEq] at h
      obtain ⟨ha, hb⟩ := h
      obtain ⟨h1, h2⟩ := splitChars_one sep cs b hb
      subst ha
      subst h1
      subst hc
      exact ⟨rfl, by simp, h2⟩
    · simp only [hc, if_false] at h
      cases hs : splitChars sep cs with
      | nil => exact absurd hs (splitChars_ne_nil sep cs)
      | cons p ps =>
        rw [hs] at h
        simp only [List.cons.injEq] at h
        obtain ⟨ha, hps⟩ := h
        subst hps
        obtain ⟨h1, h2, h3⟩ := ih p hs
        subst ha
        subst h1
        exact ⟨rfl, by simp [Ne.symm hc, h2], h3⟩

/-- The header `Bearer` followed by a space and a token without space splits
into the two. -/
theorem split_bearer (tok : String) (h : ' ' ∉ tok.toList) :
    Split ("Bearer " ++ tok) ' ' = ["Bearer", tok] := by
  unfold Split
  have h1 : ("Bearer " ++ tok).toList = "Bearer".toList ++ ' ' :: tok.toList := by
    simp only [String.toList, String.data_append]
    rfl
  rw [h1, splitChars_append ' ' _ _ (by decide), splitChars_of_not_mem ' ' _ h]
  rfl

/-- A header that splits at the spaces into `Bearer` and one more piece is
`Bearer`, a space and that piece, which holds no space. -/
theorem bearer_of_split (s : String)
    (h : ¬ ((Split s ' ').length ≠ 2 ∨ (Split s ' ').headD "" ≠ "Bearer")) :
    s = "Bearer " ++ (Split s ' ').getD 1 "" ∧ ' ' ∉ ((Split s ' ').getD 1 "").toList := by
  have hlen : (Split s ' ').length = 2 := by
    by_contra hne
    exact h (Or.inl hne)
  have hhead : (Split s ' ').headD "" = "Bearer" := by
    by_contra hne
    exact h (Or.inr hne)
  unfold Split at hlen hhead ⊢
  rw [List.length_map] at hlen
  cases hs : splitChars ' ' s.toList with
  | nil =>
    rw [hs] at hlen
    cases hlen
  | cons a rest =>
    cases rest with
    | nil =>
      rw [hs] at hlen
      cases hlen
    | cons b rest2 =>
      cases rest2 with
      | cons c rest3 =>
        rw [hs] at hlen
        simp at hlen
      | nil =>
        rw [hs] at hhead
        simp only [List.map_cons, List.headD_cons] at hhead
        obtain ⟨h1, -, h3⟩ := splitChars_two ' ' s.toList a b hs
        have ha : a = "Bearer".toList := by
          have := congrArg String.data hhead
          exact this
        subst ha
        refine ⟨?_, by simpa using h3⟩
        apply String.ext
        simp only [List.map_cons, List.map_nil, List.getD_cons_succ, List.getD_cons_zero,
          String.data_append]
        exact h1

/-! ## Lemmas: the booking rows the handlers create -/

/-- The unit of work of `CreateBooking` adds one booking row, with the times
of the request as the database stores them. -/
theorem createBookingWork_row (env : Env) (req : CreateBookingRequest) (f : Nat → Bool)
    (db : DB) (st : Stripe) (a : Unit) (db1 : DB)
    (h : (createBookingWork env req f db st).result = .ok (a, db1)) :
    db1.bookings = db.bookings ++
      [pendingBooking env.newBookingID req.CarID req.CustomerID req.StartTime req.EndTime] := by
  unfold createBookingWork at h
  split at h
  · simp at h
  · split at h
    · simp at h
    · split at h
      · simp at h
      · split at h
        · simp at h
        · split at h
          · simp at h
          · simp only [Except.ok.injEq, Prod.mk.injEq, true_and] at h
            subst h
            rfl

/-- Steps 2 to 4 of the unit of work of `PublicBook` add one booking row, with
the times of the request as the database stores them. -/
theorem publicBookCar_row (env : Env) (req : PublicBookRequest) (cid : String)
    (pre : List Effect) (f : Nat → Bool) (db : DB) (st : Stripe) (a : Unit) (db1 : DB)
    (h : (publicBookCar env req cid pre f db st).result = .ok (a, db1)) :
    db1.bookings = db.bookings ++
      [pendingBooking env.newBookingID req.CarID cid req.StartDate req.EndDate] := by
  unfold publicBookCar at h
  split at h
  · simp at h
  · split at h
    · simp at h
    · split at h
      · simp at h
      · split at h
        · simp at h
        · split at h
          · simp at h
          · simp only [Except.ok.injEq, Prod.mk.injEq, true_and] at h
            subst h
            rfl

/-- The unit of work of `PublicBook` adds one booking row, with the times of
the request as the database stores them. -/
theorem publicBookWork_row (env : Env) (req : PublicBookRequest) (f : Nat → Bool)
    (db : DB) (st : Stripe) (a : Unit) (db1 : DB)
    (h : (publicBookWork env req f db st).result = .ok (a, db1)) :
    ∃ cid, db1.bookings = db.bookings ++
      [pendingBooking env.newBookingID req.CarID cid req.StartDate req.EndDate] := by
  unfold publicBookWork at h
  split at h
  · simp at h
  · split at h
    · exact ⟨_, publicBookCar_row _ _ _ _ _ _ _ _ _ h⟩
    · split at h
      · simp at h
      · exact ⟨_, publicBookCar_row _ _ _ _ _
          { db with customers := db.customers ++
              [⟨env.newCustomerID, req.CustomerEmail, req.CustomerName, ""⟩] } _ _ _ h⟩

/-- After a tenant scope around a unit of work that adds one booking row of a
given kind, a partition has its booking rows as before or with one such row
after them. -/
theorem scope_adds_row {α : Type} (env : Env) (tid : String) (fn : Work α) (w : World)
    (good : Booking → Prop)
    (hfn : ∀ f db st a db1, (fn f db st).result = .ok (a, db1) →
      ∃ b, good b ∧ db1.bookings = db.bookings ++ [b])
    (t : String) (db : DB) (hdb : w.schemas t = some db) :
    ∃ db1, (RunInTenantScope env tid fn w).world.schemas t = some db1 ∧
      (db1.bookings = db.bookings ∨ ∃ b, good b ∧ db1.bookings = db.bookings ++ [b]) := by
  rcases runInTenantScope_partition env tid fn w t db hdb with h | ⟨-, a, db1, hr, hs⟩
  · exact ⟨db, h, Or.inl rfl⟩
  · exact ⟨db1, hs, Or.inr (hfn _ _ _ _ _ hr)⟩

/-! ## Lemmas: relations kept by every handler -/

/-- Nothing changed keeps a reflexive relation. -/
theorem lifts_refl (R : DB → DB → Prop) (hr : ∀ db, R db db) (w : World) : Lifts R w w :=
  ⟨fun _ db h => ⟨db, h, hr db⟩, fun _ h => h⟩

/-- A transitive relation kept twice is kept. -/
theorem lifts_trans (R : DB → DB → Prop) (ht : ∀ a b c, R a b → R b c → R a c)
    (w w1 w2 : World) (h1 : Lifts R w w1) (h2 : Lifts R w1 w2) : Lifts R w w2 := by
  refine ⟨?_, fun t h => h2.2 t (h1.2 t h)⟩
  intro t db hdb
  obtain ⟨db1, hs1, hr1⟩ := h1.1 t db hdb
  obtain ⟨db2, hs2, hr2⟩ := h2.1 t db1 hs1
  exact ⟨db2, hs2, ht _ _ _ hr1 hr2⟩

/-- A tenant scope creates no partition. -/
theorem runInTenantScope_none {α : Type} (env : Env) (tid : String) (fn : Work α)
    (w : World) (t : String) (h : w.schemas t = none) :
    (RunInTenantScope env tid fn w).world.schemas t = none := by
  by_cases ht : t = tid
  · subst ht
    unfold RunInTenantScope
    rw [h]
    split
    · exact h
    · split
      · exact h
      · simp only
        split
        · exact h
        · split <;> exact h
  · rw [runInTenantScope_other env tid t fn w ht]
    exact h

/-- A tenant scope keeps a reflexive relation that its unit of work keeps. -/
theorem lifts_scope {α : Type} (R : DB → DB → Prop) (hr : ∀ db, R db db) (env : Env)
    (tid : String) (fn : Work α) (w : World)
    (hfn : ∀ f db st a db1, (fn f db st).result = .ok (a, db1) → R db db1) :
    Lifts R w (RunInTenantScope env tid fn w).world := by
  refine ⟨?_, runInTenantScope_none env tid fn w⟩
  intro t db hdb
  rcases runInTenantScope_partition env tid fn w t db hdb with h | ⟨-, a, db1, hres, hs⟩
  · exact ⟨db, h, hr db⟩
  · exact ⟨db1, hs, hfn _ _ _ _ _ hres⟩

/-- The partition the unit of work of `CreateBooking` returns. -/
theorem createBookingWork_shape (env : Env) (req : CreateBookingRequest) (f : Nat → Bool)
    (db : DB) (st : Stripe) (a : Unit) (db1 : DB)
    (h : (createBookingWork env req f db st).result = .ok (a, db1)) :
    db1 = setCarStatus (insertBooking db
      (pendingBooking env.newBookingID req.CarID req.CustomerID req.StartTime req.EndTime))
      CarStatusRented req.CarID := by
  unfold createBookingWork at h
  split at h
  · simp at h
  · split at h
    · simp at h
    · split at h
      · simp at h
      · split at h
        · simp at h
        · split at h
          · simp at h
          · simp only [Except.ok.injEq, Prod.mk.injEq, true_and] at h
            exact h.symm

/-- The partition steps 2 to 4 of the unit of work of `PublicBook` return. -/
theorem publicBookCar_shape (env : Env) (req : PublicBookRequest) (cid : String)
    (pre : List Effect) (f : Nat → Bool) (db : DB) (st : Stripe) (a : Unit) (db1 : DB)
    (h : (publicBookCar env req cid pre f db st).result = .ok (a, db1)) :
    db1 = setCarStatus (insertBooking db
      (pendingBooking env.newBookingID req.CarID cid req.StartDate req.EndDate))
      CarStatusRented req.CarID := by
  unfold publicBookCar at h
  split at h
  · simp at h
  · split at h
    · simp at h
    · split at h
      · simp at h
      · split at h
        · simp at h
        · split at h
          · simp at h
          · simp only [Except.ok.injEq, Prod.mk.injEq, true_and] at h
            exact h.symm

/-- The partition the unit of work of `PublicBook` returns. -/
theorem publicBookWork_shape (env : Env) (req : PublicBookRequest) (f : Nat → Bool)
    (db : DB) (st : Stripe) (a : Unit) (db1 : DB)
    (h : (publicBookWork env req f db st).result = .ok (a, db1)) :
    ∃ cid customers, db1 = setCarStatus (insertBooking { db with customers := customers }
      (pendingBooking env.newBookingID req.CarID cid req.StartDate req.EndDate))
      CarStatusRented req.CarID := by
  unfold publicBookWork at h
  split at h
  · simp at h
  · split at h
    · exact ⟨_, db.customers, publicBookCar_shape _ _ _ _ _ _ _ _ _ h⟩
    · split at h
      · simp at h
      · exact ⟨_, _, publicBookCar_shape _ _ _ _ _
          { db with customers := db.customers ++
              [⟨env.newCustomerID, req.CustomerEmail, req.CustomerName, ""⟩] } _ _ _ h⟩

/-- The partition the unit of work of `ReturnCar` returns. -/
theorem returnCarWork_shape (env : Env) (bookingID : String) (req : ReturnCarRequest)
    (f : Nat → Bool) (db : DB) (st : Stripe) (a : Unit) (db1 : DB)
    (h : (returnCarWork env bookingID req f db st).result = .ok (a, db1)) :
    ∃ (row : ReturnRow) (amount : Int),
      db1 = setPaymentCaptured (setCarReturned
        (completeBooking db req.FinalOdometer req.DamageCostCents amount bookingID)
        (newCarStatus req.DamageCostCents) req.FinalOdometer row.carID)
        amount row.stripeIntentID := by
  unfold returnCarWork at h
  split at h
  · simp at h
  · split at h
    · simp at h
    · rename_i row _
      split at h
      · simp at h
      · split at h
        · simp at h
        · refine ⟨row, finalAmount row.startTime row.endTime row.dailyRateCents
            req.DamageCostCents, ?_⟩
          simp only at h
          split at h
          · simp at h
          · unfold returnCarUpdates at h
            simp only at h
            split at h
            · simp at h
            · split at h
              · simp at h
              · split at h
                · simp at h
                · simp only [Except.ok.injEq, Prod.mk.injEq, true_and] at h
                  exact h.symm

/-- The handler `CreateBooking` keeps a reflexive relation that its unit of
work keeps. -/
theorem createBooking_lifts (R : DB → DB → Prop) (hr : ∀ db, R db db) (env : Env)
    (r : Request CreateBookingRequest) (w : World)
    (hunit : ∀ req f db st a db1,
      (createBookingWork env req f db st).result = .ok (a, db1) → R db db1) :
    Lifts R w (CreateBooking env r w).world := by
  unfold CreateBooking
  split
  · exact lifts_refl R hr w
  · split
    · exact lifts_refl R hr w
    · simp only
      split <;> exact lifts_scope R hr _ _ _ _ (hunit _)

/-- The handler `PublicBook` keeps a reflexive relation that its unit of work
keeps. -/
theorem publicBook_lifts (R : DB → DB → Prop) (hr : ∀ db, R db db) (env : Env)
    (r : PublicRequest) (w : World)
    (hunit : ∀ req f db st a db1,
      (publicBookWork env req f db st).result = .ok (a, db1) → R db db1) :
    Lifts R w (PublicBook env r w).world := by
  unfold PublicBook
  split
  · exact lifts_refl R hr w
  · split
    · exact lifts_refl R hr w
    · split
      · exact lifts_refl R hr w
      · split
        · exact lifts_refl R hr w
        · split
          · exact lifts_refl R hr w
          · simp only
            split <;> exact lifts_scope R hr _ _ _ _ (hunit _)

/-- The handler `ReturnCar` keeps a reflexive relation that its unit of work
keeps. -/
theorem returnCar_lifts (R : DB → DB → Prop) (hr : ∀ db, R db db) (env : Env)
    (bookingID : String) (r : Request ReturnCarRequest) (w : World)
    (hunit : ∀ req f db st a db1,
      (returnCarWork env bookingID req f db st).result = .ok (a, db1) → R db db1) :
    Lifts R w (ReturnCar env bookingID r w).world := by
  unfold ReturnCar
  split
  · exact lifts_refl R hr w
  · split
    · exact lifts_refl R hr w
    · split
      · exact lifts_refl R hr w
      · simp only
        split <;> exact lifts_scope R hr _ _ _ _ (hunit _)

/-- The second half of `CreatePaymentIntent` keeps a reflexive relation that
the insertion of a payment row keeps. -/
theorem createNewIntent_lifts (R : DB → DB → Prop) (hr : ∀ db, R db db) (env : PayEnv)
    (tenantID : String) (req : CreateIntentRequest) (w : World) (pre : List Call)
    (hunit : ∀ db p, R db (insertPayment db p)) :
    Lifts R w (createNewIntent env tenantID req w pre).world := by
  have hstore : ∀ intent f db st a db1,
      (storeIntentWork req intent f db st).result = .ok (a, db1) → R db db1 := by
    intro intent f db st a db1 h
    unfold storeIntentWork at h
    split at h
    · simp at h
    · simp only [Except.ok.injEq, Prod.mk.injEq, true_and] at h
      rw [← h]
      exact hunit _ _
  unfold createNewIntent
  simp only
  split
  · exact lifts_refl R hr w
  · split <;> exact lifts_scope R hr _ _ _ _ (hstore _)

/-- The handler `CreatePaymentIntent` keeps a reflexive and transitive
relation that the insertion of a payment row keeps. -/
theorem createPaymentIntent_lifts (R : DB → DB → Prop) (hr : ∀ db, R db db)
    (ht : ∀ a b c, R a b → R b c → R a c) (env : PayEnv) (r : Request CreateIntentRequest)
    (w : World) (hunit : ∀ db p, R db (insertPayment db p)) :
    Lifts R w (CreatePaymentIntent env r w).world := by
  have hlook : ∀ id f db st a db1,
      (existingIntentWork id f db st).result = .ok (a, db1) → R db db1 := by
    intro id f db st a db1 h
    unfold existingIntentWork at h
    split at h
    · simp at h
    · split at h
      · simp at h
      · simp only [Except.ok.injEq, Prod.mk.injEq] at h
        rw [← h.2]
        exact hr db
  unfold CreatePaymentIntent
  split
  · exact lifts_refl R hr w
  · split
    · exact lifts_refl R hr w
    · split
      · exact lifts_refl R hr w
      · simp only
        split
        · exact lifts_trans R ht _ _ _ (lifts_scope R hr _ _ _ _ (hlook _))
            (createNewIntent_lifts R hr _ _ _ _ _ hunit)
        · split
          · split <;> exact lifts_scope R hr _ _ _ _ (hlook _)
          · exact lifts_trans R ht _ _ _ (lifts_scope R hr _ _ _ _ (hlook _))
              (createNewIntent_lifts R hr _ _ _ _ _ hunit)

/-- The handler `HandleStripeWebhook` keeps a reflexive relation that the
update for the authorization of its event keeps. -/
theorem handleStripeWebhook_lifts (R : DB → DB → Prop) (hr : ∀ db, R db db) (env : HookEnv)
    (r : WebhookRequest) (w : World)
    (hunit : ∀ event intent, env.constructEvent r.body r.signature = some event →
      event.data = some intent → ∀ db, R db (authorizePayment db intent.ID)) :
    Lifts R w (HandleStripeWebhook env r w).world := by
  unfold HandleStripeWebhook
  split
  · exact lifts_refl R hr w
  · split
    · exact lifts_refl R hr w
    · rename_i event hev
      split
      · split
        · exact lifts_refl R hr w
        · rename_i intent hdata
          have hwork : ∀ f db st a db1,
              (authorizeWork intent.ID f db st).result = .ok (a, db1) → R db db1 := by
            intro f db st a db1 h
            unfold authorizeWork at h
            split at h
            · simp at h
            · simp only [Except.ok.injEq, Prod.mk.injEq, true_and] at h
              rw [← h]
              exact hunit event intent hev hdata db
          split
          · exact lifts_refl R hr w
          · simp only
            split <;> exact lifts_scope R hr _ _ _ _ hwork
      · exact lifts_refl R hr w

/-- The method `CarRepository.Update` keeps a reflexive relation that the
UPDATE of a car keeps. -/
theorem update_lifts (R : DB → DB → Prop) (hr : ∀ db, R db db) (env : RepoEnv)
    (tenant : Option String) (car : CarValue) (w : World)
    (hunit : ∀ db, R db (updateCarRow db car)) :
    Lifts R w (CarRepository.Update env tenant car w).world := by
  have hset : ∀ schema db0, w.schemas schema = some db0 →
      Lifts R w (w.setSchema schema (updateCarRow db0 car)) := by
    intro schema db0 h0
    refine ⟨?_, fun t h => ?_⟩
    swap
    · have ht : t ≠ schema := fun e => by rw [e, h0] at h; cases h
      simp [World.setSchema, ht, h]
    intro t db hdb
    by_cases ht : t = schema
    · subst ht
      rw [h0] at hdb
      have hdb0 : db0 = db := Option.some.inj hdb
      subst hdb0
      exact ⟨updateCarRow db0 car, by simp [World.setSchema], hunit db0⟩
    · exact ⟨db, by simp [World.setSchema, ht, hdb], hr db⟩
  unfold CarRepository.Update
  repeat' split
  all_goals first
    | exact lifts_refl R hr w
    | exact hset _ _ (by assumption)

/-- The handler `UpdateCar` keeps a reflexive relation that the UPDATE of a
car keeps. -/
theorem updateCar_lifts (R : DB → DB → Prop) (hr : ∀ db, R db db) (env : CarEnv)
    (r : CarRequest) (w : World) (hunit : ∀ car db, R db (updateCarRow db car)) :
    Lifts R w (UpdateCar env r w).world := by
  have hstore : ∀ car pre, Lifts R w (storeCar env r.tenant car w pre).world := by
    intro car pre
    unfold storeCar
    simp only
    split <;> exact update_lifts R hr _ _ _ _ (hunit _)
  unfold UpdateCar
  simp only [getByID_world]
  repeat' split
  all_goals first
    | exact lifts_refl R hr w
    | exact hstore _ _

/-- Writing a partition back keeps a reflexive relation that holds between
what it was and what is written. -/
theorem lifts_setSchema (R : DB → DB → Prop) (hr : ∀ db, R db db) (w : World)
    (schema : String) (db0 db1 : DB) (h0 : w.schemas schema = some db0) (h1 : R db0 db1) :
    Lifts R w (w.setSchema schema db1) := by
  refine ⟨?_, fun t h => ?_⟩
  swap
  · have ht : t ≠ schema := fun e => by rw [e, h0] at h; cases h
    simp [World.setSchema, ht, h]
  intro t db hdb
  by_cases ht : t = schema
  · subst ht
    rw [h0] at hdb
    have hdb0 : db0 = db := Option.some.inj hdb
    subst hdb0
    exact ⟨db1, by simp [World.setSchema], h1⟩
  · exact ⟨db, by simp [World.setSchema, ht, hdb], hr db⟩

/-- The handler `CreateCar` keeps a reflexive relation that the insertion of
the car of its form keeps. -/
theorem createCar_lifts (R : DB → DB → Prop) (hr : ∀ db, R db db) (env : CreateCarEnv)
    (r : CreateCarRequest) (w : World)
    (hunit : ∀ form url db, r.form = some form →
      R db { db with cars := db.cars ++
        [insertedCar env ⟨"", form.make, form.model, form.licensePlate, form.status, 0, url⟩] }) :
    Lifts R w (CreateCar env r w).world := by
  have hcreate : ∀ car, (∀ db, R db { db with cars := db.cars ++ [insertedCar env car] }) →
      Lifts R w (CarRepository.Create env r.tenant car w).world := by
    intro car hcar
    unfold CarRepository.Create
    repeat' split
    all_goals first
      | exact lifts_refl R hr w
      | exact lifts_setSchema R hr w _ _ _ (by assumption) (hcar _)
  have hstore : ∀ form url pre, r.form = some form →
      Lifts R w (createCarStore env r.tenant form url w pre).world := by
    intro form url pre hform
    unfold createCarStore
    simp only
    split <;> exact hcreate _ (fun db => hunit form url db hform)
  unfold CreateCar
  repeat' split
  all_goals first
    | exact lifts_refl R hr w
    | exact hstore _ _ _ (by assumption)

/-! ## Lemmas: captured payments -/

/-- A partition keeps its own captured payments. -/
theorem capturedKept_refl (sid : String) (db : DB) : CapturedKept sid db db :=
  fun _ p h hc hs => ⟨p, h, hc, rfl, hs⟩

/-- Captured payments kept twice are kept. -/
theorem capturedKept_trans (sid : String) (a b c : DB) (h1 : CapturedKept sid a b)
    (h2 : CapturedKept sid b c) : CapturedKept sid a c := by
  intro i p hp hc hs
  obtain ⟨p1, hp1, hc1, hb1, hs1⟩ := h1 i p hp hc hs
  obtain ⟨p2, hp2, hc2, hb2, hs2⟩ := h2 i p1 hp1 hc1 hs1
  exact ⟨p2, hp2, hc2, hb2.trans hb1, hs2⟩

/-- A partition with the same payment rows keeps the captured payments. -/
theorem capturedKept_of_eq (sid : String) (db db1 : DB) (h : db1.payments = db.payments) :
    CapturedKept sid db db1 := by
  intro i p hp hc hs
  exact ⟨p, by rw [h]; exact hp, hc, rfl, hs⟩

/-- The insertion of a payment row keeps the captured payments. -/
theorem capturedKept_insertPayment (sid : String) (db : DB) (q : Payment) :
    CapturedKept sid db (insertPayment db q) := by
  intro i p hp hc hs
  refine ⟨p, ?_, hc, rfl, hs⟩
  have hlt : i < db.payments.length := by
    rcases Nat.lt_or_ge i db.payments.length with h | h
    · exact h
    · rw [List.getElem?_eq_none h] at hp
      cases hp
  unfold insertPayment
  simp only
  rw [List.getElem?_append_left hlt]
  exact hp

/-- The UPDATE of `ReturnCar` on `payments` keeps the captured payments. -/
theorem capturedKept_setPaymentCaptured (sid : String) (db : DB) (amount : Int)
    (id : String) : CapturedKept sid db (setPaymentCaptured db amount id) := by
  intro i p hp hc hs
  unfold setPaymentCaptured
  simp only [List.getElem?_map, hp, Option.map_some']
  by_cases h : p.stripeIntentID = id
  · exact ⟨{ p with status := "captured", amountCents := amount }, by rw [if_pos h], rfl, rfl,
      hs⟩
  · exact ⟨p, by rw [if_neg h], hc, rfl, hs⟩

/-- The UPDATE of the webhook for another authorization keeps the captured
payments. -/
theorem capturedKept_authorizePayment (sid : String) (db : DB) (id : String)
    (hne : id ≠ sid) : CapturedKept sid db (authorizePayment db id) := by
  intro i p hp hc hs
  unfold authorizePayment
  simp only [List.getElem?_map, hp, Option.map_some']
  have h : ¬ p.stripeIntentID = id := fun e => hne (e.symm.trans hs)
  exact ⟨p, by rw [if_neg h], hc, rfl, hs⟩

/-- The UPDATE of the webhook for the authorization of a payment row gives the
row the status `authorized`. -/
theorem authorizePayment_row (db : DB) (i : Nat) (p : Payment)
    (hp : db.payments[i]? = some p) :
    (authorizePayment db p.stripeIntentID).payments[i]?
      = some { p with status := "authorized" } := by
  unfold authorizePayment
  simp only [List.getElem?_map, hp, Option.map_some', if_true]

/-- After the webhook a partition is as before, or the request carried a
verified event of type `payment_intent.amount_capturable_updated` for this
partition and the partition is what the UPDATE for the authorization of the
event makes of it. -/
theorem handleStripeWebhook_partition (env : HookEnv) (r : WebhookRequest) (w : World)
    (t : String) (db : DB) (hdb : w.schemas t = some db) :
    (HandleStripeWebhook env r w).world.schemas t = some db ∨
      ∃ event intent, env.constructEvent r.body r.signature = some event ∧
        event.type = "payment_intent.amount_capturable_updated" ∧
        event.data = some intent ∧ intent.tenantID = t ∧
        (HandleStripeWebhook env r w).world.schemas t
          = some (authorizePayment db intent.ID) := by
  unfold HandleStripeWebhook
  split
  · exact Or.inl hdb
  · split
    · exact Or.inl hdb
    · rename_i event hev
      split
      · rename_i htype
        split
        · exact Or.inl hdb
        · rename_i intent hdata
          split
          · exact Or.inl hdb
          · have hscope : (RunInTenantScope env.scope intent.tenantID (authorizeWork intent.ID)
                w).world.schemas t = some db ∨
                (intent.tenantID = t ∧
                  (RunInTenantScope env.scope intent.tenantID (authorizeWork intent.ID)
                    w).world.schemas t = some (authorizePayment db intent.ID)) := by
              rcases runInTenantScope_partition env.scope intent.tenantID
                (authorizeWork intent.ID) w t db hdb with h | ⟨ht, a, db1, hres, hs⟩
              · exact Or.inl h
              · right
                refine ⟨ht.symm, ?_⟩
                unfold authorizeWork at hres
                split at hres
                · simp at hres
                · simp only [Except.ok.injEq, Prod.mk.injEq, true_and] at hres
                  rw [hres]
                  exact hs
            simp only
            rcases hscope with h | ⟨ht, h⟩
            · left
              split <;> exact h
            · right
              refine ⟨event, intent, hev, htype, hdata, ht, ?_⟩
              split <;> exact h
      · exact Or.inl hdb

/-- With storage working, the webhook applies the UPDATE for the authorization
of a verified event of type `payment_intent.amount_capturable_updated` to the
partition the event names. -/
theorem handleStripeWebhook_authorizes (env : HookEnv) (r : WebhookRequest) (w : World)
    (event : Event) (intent : PaymentIntent) (db : DB)
    (hr : env.readFails = false) (hsize : r.body.utf8ByteSize ≤ MaxBodyBytes)
    (hev : env.constructEvent r.body r.signature = some event)
    (htype : event.type = "payment_intent.amount_capturable_updated")
    (hdata : event.data = some intent) (hten : intent.tenantID ≠ "")
    (hb : env.scope.beginFails = false) (hs : env.scope.setSearchPathFails = false)
    (h0 : env.scope.stmtFails 0 = false) (hc : env.scope.commitFails = false)
    (hdb : w.schemas intent.tenantID = some db) :
    (HandleStripeWebhook env r w).world.schemas intent.tenantID
      = some (authorizePayment db intent.ID) := by
  have hread : ¬ (env.readFails = true ∨ MaxBodyBytes < r.body.utf8ByteSize) := by
    rintro (h | h)
    · rw [hr] at h
      cases h
    · omega
  simp [HandleStripeWebhook, hread, hev, htype, hdata, hten, RunInTenantScope, hb, hs, hc,
    hdb, authorizeWork, h0, World.setSchema]

/-! ## Lemmas: the status of a car -/

/-- A world whose partitions come from a world of valid statuses, each valid
if it was, has valid statuses. -/
theorem validWorld_of_lifts (w w1 : World)
    (h : Lifts (fun db db1 => ValidStatuses db → ValidStatuses db1) w w1)
    (hw : ValidWorld w) : ValidWorld w1 := by
  intro t db1 h1
  cases h0 : w.schemas t with
  | none =>
    rw [h.2 t h0] at h1
    cases h1
  | some db =>
    obtain ⟨db2, hs, hv⟩ := h.1 t db h0
    rw [hs] at h1
    have he : db2 = db1 := Option.some.inj h1
    rw [← he]
    exact hv (hw t db h0)

/-- Rows rewritten to valid statuses are valid. -/
theorem validStatuses_map (db db1 : DB) (g : Car → Car) (hcars : db1.cars = db.cars.map g)
    (hg : ∀ c, c.status ∈ carStatuses → (g c).status ∈ carStatuses)
    (h : ValidStatuses db) : ValidStatuses db1 := by
  intro c hc
  rw [hcars, List.mem_map] at hc
  obtain ⟨c0, hc0, he⟩ := hc
  rw [← he]
  exact hg c0 (h c0 hc0)

/-- The status `ReturnCar` writes is `available` or `maintenance`. -/
theorem newCarStatus_mem (d : Int) : newCarStatus d ∈ carStatuses := by
  unfold newCarStatus
  split <;> simp [carStatuses]

/-- The unit of work of `CreateBooking` keeps the statuses valid. -/
theorem createBookingWork_valid (env : Env) (req : CreateBookingRequest) (f : Nat → Bool)
    (db : DB) (st : Stripe) (a : Unit) (db1 : DB)
    (h : (createBookingWork env req f db st).result = .ok (a, db1))
    (hv : ValidStatuses db) : ValidStatuses db1 := by
  rw [createBookingWork_shape env req f db st a db1 h]
  refine validStatuses_map db _ _ rfl ?_ hv
  intro c hc
  split
  · simp [carStatuses]
  · exact hc

/-- The unit of work of `PublicBook` keeps the statuses valid. -/
theorem publicBookWork_valid (env : Env) (req : PublicBookRequest) (f : Nat → Bool)
    (db : DB) (st : Stripe) (a : Unit) (db1 : DB)
    (h : (publicBookWork env req f db st).result = .ok (a, db1))
    (hv : ValidStatuses db) : ValidStatuses db1 := by
  obtain ⟨cid, customers, hc⟩ := publicBookWork_shape env req f db st a db1 h
  rw [hc]
  refine validStatuses_map db _ _ rfl ?_ hv
  intro c hc
  split
  · simp [carStatuses]
  · exact hc

/-- The unit of work of `ReturnCar` keeps the statuses valid. -/
theorem returnCarWork_valid (env : Env) (bookingID : String) (req : ReturnCarRequest)
    (f : Nat → Bool) (db : DB) (st : Stripe) (a : Unit) (db1 : DB)
    (h : (returnCarWork env bookingID req f db st).result = .ok (a, db1))
    (hv : ValidStatuses db) : ValidStatuses db1 := by
  obtain ⟨row, amount, hc⟩ := returnCarWork_shape env bookingID req f db st a db1 h
  rw [hc]
  refine validStatuses_map db _ _ rfl ?_ hv
  intro c hc
  split
  · exact newCarStatus_mem _
  · exact hc

/-- The UPDATE of the repository with a valid status keeps the statuses
valid. -/
theorem updateCarRow_valid (db : DB) (car : CarValue) (hcar : car.Status ∈ carStatuses)
    (hv : ValidStatuses db) : ValidStatuses (updateCarRow db car) := by
  refine validStatuses_map db _ _ rfl ?_ hv
  intro c hc
  split
  · exact hcar
  · exact hc

/-- The INSERT of the repository with a valid status keeps the statuses
valid. -/
theorem insertedCar_valid (env : CreateCarEnv) (db : DB) (car : CarValue)
    (hcar : car.Status ∈ carStatuses) (hv : ValidStatuses db) :
    ValidStatuses { db with cars := db.cars ++ [insertedCar env car] } := by
  intro c hc
  simp only [List.mem_append, List.mem_singleton] at hc
  rcases hc with hc | hc
  · exact hv c hc
  · rw [hc]
    exact hcar

/-- The car `GetByID` returns has the status of a car of some partition. -/
theorem getByID_some (env : RepoEnv) (tenant : Option String) (id : String) (w : World)
    (current : CarValue) (h : (CarRepository.GetByID env tenant id w).result = some current) :
    ∃ schema db c, w.schemas schema = some db ∧ c ∈ db.cars ∧ current.Status = c.status := by
  unfold CarRepository.GetByID at h
  split at h
  · simp at h
  · split at h
    · simp at h
    · split at h
      · simp at h
      · simp only at h
        split at h
        · simp at h
        · split at h
          · simp at h
          · rename_i db hdb
            split at h
            · simp at h
            · split at h
              · simp at h
              · rename_i car hfind
                split at h
                · simp at h
                · simp only [Option.some.injEq] at h
                  exact ⟨_, db, car, hdb, List.mem_of_find?_eq_some hfind, by rw [← h]; rfl⟩

/-- The status after the form is applied: that of the form unless it is
empty. -/
theorem applyForm_status (car : CarValue) (form : CarForm) :
    (applyForm car form).Status = if form.status = "" then car.Status else form.status := by
  unfold applyForm
  by_cases h1 : form.make = "" <;> by_cases h2 : form.model = "" <;>
    by_cases h3 : form.licensePlate = "" <;> by_cases h4 : form.status = "" <;>
    simp [h1, h2, h3, h4]

/-- The handler `UpdateCar` leaves the world as it was, or its world is that of
the UPDATE of a car that has the status of the car read with the form
applied. -/
theorem updateCar_cases (env : CarEnv) (r : CarRequest) (w : World) :
    (UpdateCar env r w).world = w ∨
      ∃ id current form car,
        (CarRepository.GetByID env.get r.tenant id w).result = some current ∧
        r.form = some form ∧ car.Status = (applyForm current form).Status ∧
        (UpdateCar env r w).world = (CarRepository.Update env.update r.tenant car w).world := by
  have hstore : ∀ car pre, (storeCar env r.tenant car w pre).world
      = (CarRepository.Update env.update r.tenant car w).world := by
    intro car pre
    unfold storeCar
    simp only
    split <;> rfl
  unfold UpdateCar
  simp only [getByID_world]
  split
  · exact Or.inl rfl
  · rename_i id _
    split
    · exact Or.inl rfl
    · rename_i current hget
      split
      · exact Or.inl rfl
      · rename_i form hform
        split
        · exact Or.inl rfl
        · split
          · split
            · exact Or.inl rfl
            · rename_i url _
              exact Or.inr ⟨id, current, form, { applyForm current form with ImageURL := url },
                hget, hform, rfl, hstore _ _⟩
          · exact Or.inr ⟨id, current, form, applyForm current form, hget, hform, rfl,
              hstore _ _⟩

/-! ## Lemmas: the partition a statement selects -/

/-- The statement of `RunInTenantScope` selects the schema named by the
identifier without its NUL bytes. -/
theorem searchPathSchema_scope (tenantID : String) :
    searchPathSchema (scopeSearchPath tenantID)
      = some (String.mk (tenantID.toList.filter fun c => c ≠ Char.ofNat 0)) := by
  have hlist : (scopeSearchPath tenantID).toList
      = "SET LOCAL search_path TO ".toList ++ (Sanitize tenantID).toList := by
    unfold scopeSearchPath
    simp only [String.toList, String.data_append]
  have hread : readIdentifier (Sanitize tenantID).toList
      = some (tenantID.toList.filter fun c => c ≠ Char.ofNat 0, []) := by
    rw [sanitize_toList]
    simp only [readIdentifier, if_true]
    exact readQuoted_doubled _
  unfold searchPathSchema
  simp only [hlist, List.drop_left, hread]
  rw [if_pos]
  rw [List.isPrefixOf_iff_prefix]
  exact List.prefix_append _ _

/-- An identifier without NUL byte selects the schema of its own name. -/
theorem searchPathSchema_self (tenantID : String) (h0 : Char.ofNat 0 ∉ tenantID.toList) :
    searchPathSchema (scopeSearchPath tenantID) = some tenantID := by
  have hf : (tenantID.toList.filter fun c => c ≠ Char.ofNat 0) = tenantID.toList := by
    rw [List.filter_eq_self]
    intro c hc
    simpa using fun (h : c = Char.ofNat 0) => h0 (h ▸ hc)
  rw [searchPathSchema_scope, hf]
  rfl

/-- For an identifier without NUL byte, the tenant scope with its statement
spelled out is `RunInTenantScope`. -/
theorem bySearchPath_eq {α : Type} (env : Env) (tenantID : String) (fn : Work α) (w : World)
    (h0 : Char.ofNat 0 ∉ tenantID.toList) :
    RunInTenantScope.bySearchPath env tenantID fn w = RunInTenantScope env tenantID fn w := by
  unfold RunInTenantScope.bySearchPath RunInTenantScope
  rw [searchPathSchema_self tenantID h0]
/-! ## CreateBooking: theorems -/

/-- C1: when the status of the car read under the row lock is anything but
`available`, CreateBooking answers 409 Conflict with the unavailable error,
rolls its unit back after the one SELECT (no INSERT and no UPDATE is issued),
and leaves every partition, the directory and the processor as they were: no
booking row is inserted and the status of the car is unchanged. -/
theorem createBooking_unavailable_conflict (env : Env) (req : CreateBookingRequest)
    (tenantID : String) (w : World) (db : DB) (car : Car)
    (hbegin : env.beginFails = false) (hset : env.setSearchPathFails = false)
    (hsel : env.stmtFails 0 = false)
    (hdb : w.schemas tenantID = some db)
    (hcar : db.cars.find? (fun c => c.id = req.CarID) = some car)
    (hstatus : car.status ≠ CarStatusAvailable) :
    (CreateBooking env ⟨some req, some tenantID⟩ w).resp
        = ⟨409, some (.carNotAvailable car.status)⟩ ∧
      (CreateBooking env ⟨some req, some tenantID⟩ w).world.schemas = w.schemas ∧
      (CreateBooking env ⟨some req, some tenantID⟩ w).world.tenants = w.tenants ∧
      (CreateBooking env ⟨some req, some tenantID⟩ w).world.stripe = w.stripe ∧
      (CreateBooking env ⟨some req, some tenantID⟩ w).trace
        = [.txBegin, .setSearchPath tenantID, .select "cars", .rollback] := by
  simp [CreateBooking, RunInTenantScope, createBookingWork, hbegin, hset, hsel, hdb, hcar,
    hstatus]

/-- C1 at the sample data: the sample car is rented, a booking request for it
is answered 409 and the partition is unchanged. -/
theorem createBooking_unavailable_conflict_witness :
    (CreateBooking sampleEnv ⟨some sampleCreate, some "tenant_acme"⟩
        (sampleWorld sampleDBRented)).resp = ⟨409, some (.carNotAvailable "rented")⟩ ∧
      (CreateBooking sampleEnv ⟨some sampleCreate, some "tenant_acme"⟩
        (sampleWorld sampleDBRented)).world.schemas = (sampleWorld sampleDBRented).schemas :=
  have h := createBooking_unavailable_conflict sampleEnv sampleCreate "tenant_acme"
    (sampleWorld sampleDBRented) sampleDBRented sampleCarRented rfl rfl rfl (by decide)
    (by decide) (by decide)
  ⟨h.1, h.2.1⟩

set_option maxRecDepth 100000 in
/-- C2, as stated, fails: a request for the sample car that starts 1500 ns
after the epoch and ends 1999 ns after the next day is answered 201, and the
booking row committed starts at 1000 ns and ends 1000 ns after the next day:
the partition is not the prior one plus a row with the requested start and
end. -/
theorem createBooking_stores_microseconds :
    (CreateBooking sampleEnv ⟨some ⟨"car-1", "cust-1", 1500, 86400000001999⟩,
        some "tenant_acme"⟩ (sampleWorld sampleDB)).resp = ⟨201, none⟩ ∧
      (CreateBooking sampleEnv ⟨some ⟨"car-1", "cust-1", 1500, 86400000001999⟩,
        some "tenant_acme"⟩ (sampleWorld sampleDB)).world.schemas "tenant_acme"
        = some ⟨[sampleCarRented], [sampleCustomer],
            [⟨"booking-1", "car-1", "cust-1", 1000, 86400000001000, "pending", none, none,
              none⟩], []⟩ ∧
      (CreateBooking sampleEnv ⟨some ⟨"car-1", "cust-1", 1500, 86400000001999⟩,
        some "tenant_acme"⟩ (sampleWorld sampleDB)).world.schemas "tenant_acme"
        ≠ some ⟨[sampleCarRented], [sampleCustomer],
            [⟨"booking-1", "car-1", "cust-1", 1500, 86400000001999, "pending", none, none,
              none⟩], []⟩ := by
  decide

/-- C2, amended: for an existing car whose status is `available`, with the
storage operations succeeding, CreateBooking answers 201 Created and the
committed partition differs from the prior one by exactly one new `pending`
booking row for the requested car and customer, with the requested start and
end cut to whole microseconds (each the last whole microsecond not after the
requested instant), and by the status `rented` of that car; customers,
payments, every other partition, the directory and the processor are
unchanged.  Whatever fails instead, the partition after the call is the prior
one or the one with both writes: never one write alone. -/
theorem createBooking_available_created (env : Env) (req : CreateBookingRequest)
    (tenantID : String) (w : World) (db : DB) (car : Car)
    (hbegin : env.beginFails = false) (hset : env.setSearchPathFails = false)
    (hstmt : ∀ k, env.stmtFails k = false) (hcommit : env.commitFails = false)
    (hdb : w.schemas tenantID = some db)
    (hcar : db.cars.find? (fun c => c.id = req.CarID) = some car)
    (hstatus : car.status = CarStatusAvailable) :
    (CreateBooking env ⟨some req, some tenantID⟩ w).resp = ⟨201, none⟩ ∧
      (CreateBooking env ⟨some req, some tenantID⟩ w).world.schemas tenantID
        = some { cars := db.cars.map fun c =>
                   if c.id = req.CarID then { c with status := CarStatusRented } else c
                 customers := db.customers
                 bookings := db.bookings ++
                   [⟨env.newBookingID, req.CarID, req.CustomerID, storedTime req.StartTime,
                     storedTime req.EndTime, "pending", none, none, none⟩]
                 payments := db.payments } ∧
      (storedTime req.StartTime % 1000 = 0 ∧ storedTime req.StartTime ≤ req.StartTime ∧
        req.StartTime < storedTime req.StartTime + 1000) ∧
      (storedTime req.EndTime % 1000 = 0 ∧ storedTime req.EndTime ≤ req.EndTime ∧
        req.EndTime < storedTime req.EndTime + 1000) ∧
      (∀ t, t ≠ tenantID →
        (CreateBooking env ⟨some req, some tenantID⟩ w).world.schemas t = w.schemas t) ∧
      (CreateBooking env ⟨some req, some tenantID⟩ w).world.tenants = w.tenants ∧
      (CreateBooking env ⟨some req, some tenantID⟩ w).world.stripe = w.stripe ∧
      ∀ env2 : Env,
        (CreateBooking env2 ⟨some req, some tenantID⟩ w).world.schemas tenantID = some db ∨
        (CreateBooking env2 ⟨some req, some tenantID⟩ w).world.schemas tenantID
          = some (setCarStatus (insertBooking db (pendingBooking env2.newBookingID req.CarID
              req.CustomerID req.StartTime req.EndTime)) CarStatusRented req.CarID) := by
  refine ⟨?_, ?_, storedTime_spec _, storedTime_spec _, ?_, ?_, ?_, ?_⟩
  · simp [CreateBooking, RunInTenantScope, createBookingWork, hbegin, hset, hstmt, hcommit,
      hdb, hcar, hstatus]
  · simp [CreateBooking, RunInTenantScope, createBookingWork, hbegin, hset, hstmt, hcommit,
      hdb, hcar, hstatus, World.setSchema, setCarStatus, insertBooking, pendingBooking]
  · intro t ht
    simp [CreateBooking, RunInTenantScope, createBookingWork, hbegin, hset, hstmt, hcommit,
      hdb, hcar, hstatus, World.setSchema, ht]
  · simp [CreateBooking, RunInTenantScope, createBookingWork, hbegin, hset, hstmt, hcommit,
      hdb, hcar, hstatus, World.setSchema]
  · simp [CreateBooking, RunInTenantScope, createBookingWork, hbegin, hset, hstmt, hcommit,
      hdb, hcar, hstatus, World.setSchema]
  · intro env2
    simp only [CreateBooking, RunInTenantScope, createBookingWork, hdb, hcar, hstatus]
    cases env2.beginFails <;> cases env2.setSearchPathFails <;> cases env2.stmtFails 0 <;>
      cases env2.stmtFails 1 <;> cases env2.stmtFails 2 <;> cases env2.commitFails <;>
      simp [World.setSchema, hdb]

/-- Witness for C2: the sample car is available, the request is answered 201,
and the partition then holds the booking `booking-1` with the car rented. -/
theorem createBooking_available_created_witness :
    (CreateBooking sampleEnv ⟨some sampleCreate, some "tenant_acme"⟩
        (sampleWorld sampleDB)).resp = ⟨201, none⟩ ∧
      (CreateBooking sampleEnv ⟨some sampleCreate, some "tenant_acme"⟩
        (sampleWorld sampleDB)).world.schemas "tenant_acme"
        = some ⟨[sampleCarRented], [sampleCustomer],
            [⟨"booking-1", "car-1", "cust-1", 0, 86400000000000, "pending", none, none, none⟩],
            []⟩ :=
  have h := createBooking_available_created sampleEnv sampleCreate "tenant_acme"
    (sampleWorld sampleDB) sampleDB sampleCar rfl rfl (fun _ => rfl) rfl (by decide)
    (by decide) (by decide)
  ⟨h.1, h.2.1.trans (by decide)⟩

/-- C4: start from a state in which the car is `available` and has no booking,
and run any sequence of booking attempts on that car one after another, each a
well-formed CreateBooking or PublicBook call with whatever storage failures,
at least one of them with every storage operation succeeding (so N ≥ 1).
Then exactly one attempt was answered 201, exactly one booking row exists for
the car and the car is `rented`; and in every state reached between two
attempts the car is either `available` with no booking or `rented` with
exactly one, so no booking exists while the car is `available`. -/
theorem serial_attempts_book_once (w : World) (t carID : String) (db : DB)
    (attempts : List Attempt)
    (hdb : w.schemas t = some db)
    (havail : carStatus db carID = some CarStatusAvailable)
    (hnone : bookingsFor db carID = [])
    (hon : ∀ a ∈ attempts, a.onCar w.tenants t carID)
    (hhealthy : ∃ a ∈ attempts, a.env.healthy) :
    successes attempts w = 1 ∧
      (∃ db1, (finalWorld attempts w).schemas t = some db1 ∧
        (bookingsFor db1 carID).length = 1 ∧ carStatus db1 carID = some CarStatusRented) ∧
      ∀ pre suf, attempts = pre ++ suf →
        ∃ db1, (finalWorld pre w).schemas t = some db1 ∧
          ((carStatus db1 carID = some CarStatusAvailable ∧ bookingsFor db1 carID = []) ∨
            (carStatus db1 carID = some CarStatusRented ∧
              (bookingsFor db1 carID).length = 1)) := by
  have hu : Unbooked w.tenants t carID w := ⟨rfl, db, hdb, havail, hnone⟩
  refine ⟨?_, ?_, ?_⟩
  · rcases serial_unbooked w.tenants t carID attempts w hu hon with ⟨_, _, hall⟩ | ⟨h1, _⟩
    · obtain ⟨a, ha, hh⟩ := hhealthy
      exact absurd hh (hall a ha)
    · exact h1
  · rcases serial_unbooked w.tenants t carID attempts w hu hon with ⟨_, _, hall⟩ | ⟨_, hb⟩
    · obtain ⟨a, ha, hh⟩ := hhealthy
      exact absurd hh (hall a ha)
    · obtain ⟨_, db1, h1, h2, h3⟩ := hb
      exact ⟨db1, h1, h3, h2⟩
  · intro pre suf hsplit
    have hpre : ∀ a ∈ pre, a.onCar w.tenants t carID := by
      intro a ha
      exact hon a (by rw [hsplit]; exact List.mem_append_left _ ha)
    rcases serial_reached w.tenants t carID pre w (Or.inl hu) hpre with
      ⟨_, db1, h1, h2, h3⟩ | ⟨_, db1, h1, h2, h3⟩
    · exact ⟨db1, h1, Or.inl ⟨h2, h3⟩⟩
    · exact ⟨db1, h1, Or.inr ⟨h2, h3⟩⟩

/-- C4 at the sample data: a CreateBooking call and then a PublicBook call for
the sample car; exactly one of the two is answered 201. -/
theorem serial_attempts_book_once_witness :
    successes [.create sampleEnv ⟨some sampleCreate, some "tenant_acme"⟩,
      .widget sampleEnv sampleWidget] (sampleWorld sampleDB) = 1 :=
  (serial_attempts_book_once (sampleWorld sampleDB) "tenant_acme" "car-1" sampleDB
    [.create sampleEnv ⟨some sampleCreate, some "tenant_acme"⟩, .widget sampleEnv sampleWidget]
    (by decide) (by decide) (by decide)
    (by
      intro a ha
      simp only [List.mem_cons, List.mem_singleton, List.not_mem_nil, or_false] at ha
      rcases ha with rfl | rfl
      · exact ⟨⟨sampleCreate, rfl, rfl⟩, rfl⟩
      · exact ⟨⟨_, rfl, rfl⟩, by decide, rfl,
          ⟨"11111111-1111-1111-1111-111111111111", "acme", "tenant_acme"⟩, by decide, rfl⟩)
    ⟨_, List.mem_cons_self _ _, rfl, rfl, rfl, fun _ => rfl, rfl, rfl⟩).1

/-! ## ReturnCar: theorems -/

/-- C5: a ReturnCar request whose `damage_cost_cents` is negative is answered
400 Bad Request whatever the database holds; the handler makes no call at all
(no transaction is begun, no statement is issued, no capture is requested) and
the world is unchanged. -/
theorem returnCar_negative_damage (env : Env) (bookingID : String) (req : ReturnCarRequest)
    (tenant : Option String) (w : World) (hneg : req.DamageCostCents < 0) :
    (ReturnCar env bookingID ⟨some req, tenant⟩ w).resp = ⟨400, some .damageCostNegative⟩ ∧
      (ReturnCar env bookingID ⟨some req, tenant⟩ w).trace = [] ∧
      (ReturnCar env bookingID ⟨some req, tenant⟩ w).world = w := by
  simp [ReturnCar, hneg]

/-- C5 at the sample data: a return with damage cost -500, as in
`TestReturnCarLogic`, is answered 400 and makes no call. -/
theorem returnCar_negative_damage_witness :
    (ReturnCar sampleEnv "booking-1" ⟨some ⟨1000, -500⟩, some "tenant_acme"⟩
        (sampleWorld sampleDBBooked)).resp = ⟨400, some .damageCostNegative⟩ ∧
      (ReturnCar sampleEnv "booking-1" ⟨some ⟨1000, -500⟩, some "tenant_acme"⟩
        (sampleWorld sampleDBBooked)).trace = [] :=
  have h := returnCar_negative_damage sampleEnv "booking-1" ⟨1000, -500⟩ (some "tenant_acme")
    (sampleWorld sampleDBBooked) (by decide)
  ⟨h.1, h.2.1⟩

/-- C6: for a booking found with its payment and a damage cost that is not
negative, the state check of ReturnCar rejects the request exactly when the
status of the booking is `completed` or `cancelled`.  When it rejects, the
answer is 500, the unit is rolled back after the one SELECT (no capture is
requested) and the world is unchanged.  For any other status, `pending`
included, the handler computes the price and requests the capture of
`finalAmount` under the key of the booking. -/
theorem returnCar_state_check (env : Env) (bookingID : String) (req : ReturnCarRequest)
    (tenantID : String) (w : World) (db : DB) (row : ReturnRow)
    (hdamage : 0 ≤ req.DamageCostCents)
    (hbegin : env.beginFails = false) (hset : env.setSearchPathFails = false)
    (hsel : env.stmtFails 0 = false)
    (hdb : w.schemas tenantID = some db)
    (hrow : (returnJoin db bookingID).head? = some row) :
    (((ReturnCar env bookingID ⟨some req, some tenantID⟩ w).resp.error
          = some .bookingAlreadyCompleted ∨
        (ReturnCar env bookingID ⟨some req, some tenantID⟩ w).resp.error
          = some .bookingCancelled) ↔
        (row.status = "completed" ∨ row.status = "cancelled")) ∧
      ((row.status = "completed" ∨ row.status = "cancelled") →
        (ReturnCar env bookingID ⟨some req, some tenantID⟩ w).resp.code = 500 ∧
        (ReturnCar env bookingID ⟨some req, some tenantID⟩ w).trace
          = [.txBegin, .setSearchPath tenantID, .select "bookings", .rollback] ∧
        (ReturnCar env bookingID ⟨some req, some tenantID⟩ w).world = w) ∧
      (¬ (row.status = "completed" ∨ row.status = "cancelled") →
        ∃ ok, Effect.capture row.stripeIntentID (captureKey bookingID)
            (finalAmount row.startTime row.endTime row.dailyRateCents req.DamageCostCents) ok
          ∈ (ReturnCar env bookingID ⟨some req, some tenantID⟩ w).trace) := by
  have hd : ¬ req.DamageCostCents < 0 := not_lt.mpr hdamage
  by_cases h1 : row.status = "completed"
  · simp [ReturnCar, RunInTenantScope, returnCarWork, hd, hbegin, hset, hsel, hdb, hrow, h1]
  · by_cases h2 : row.status = "cancelled"
    · simp [ReturnCar, RunInTenantScope, returnCarWork, hd, hbegin, hset, hsel, hdb, hrow, h2]
    · simp only [ReturnCar, RunInTenantScope, returnCarWork, returnCarUpdates, hd, hbegin,
        hset, hsel, hdb, hrow, h1, h2]
      cases (w.stripe.capture env.captureFails row.stripeIntentID (captureKey bookingID)
        (finalAmount row.startTime row.endTime row.dailyRateCents req.DamageCostCents)).1 <;>
      cases env.stmtFails 1 <;> cases env.stmtFails 2 <;> cases env.stmtFails 3 <;>
        cases env.commitFails <;> simp

/-- C6 at the sample data: the sample booking is `pending`, so the return is not
rejected by the state check and the capture of 20000 is requested. -/
theorem returnCar_state_check_witness :
    ∃ ok, Effect.capture "pi_1" (captureKey "booking-1") 20000 ok
      ∈ (ReturnCar sampleEnv "booking-1" ⟨some sampleReturn, some "tenant_acme"⟩
          (sampleWorld sampleDBBooked)).trace :=
  finalAmount_sample ▸
    (returnCar_state_check sampleEnv "booking-1" sampleReturn "tenant_acme"
      (sampleWorld sampleDBBooked) sampleDBBooked
      ⟨"car-1", 0, 172800000000000, "pending", "pi_1", 10000, "test@example.com", "Test",
        "User", "Test", "Car"⟩
      (by decide) rfl rfl rfl (by decide) (by decide)).2.2 (by decide)

/-- C8: for a booking found with its payment whose status is neither `completed`
nor `cancelled`, a damage cost that is not negative, a capture call that
succeeds and a unit that commits, ReturnCar answers 200 and the committed
partition differs from the prior one exactly as follows.  The booking rows with
the id of the request are `completed` with `final_odometer`,
`damage_cost_cents` and `total_amount_cents` set to the odometer of the
request, its damage cost and `finalAmount`; the car rows of the booking have
the odometer of the request and the status `available` when the damage cost is
0 and `maintenance` when it is positive; the payment rows with the
authorization of the booking are `captured` with amount `finalAmount`.  Every
other car, booking and payment row, the customers, every other partition and
the directory are unchanged. -/
theorem returnCar_success_state (env : Env) (bookingID : String) (req : ReturnCarRequest)
    (tenantID : String) (w : World) (db : DB) (row : ReturnRow)
    (hdamage : 0 ≤ req.DamageCostCents)
    (hbegin : env.beginFails = false) (hset : env.setSearchPathFails = false)
    (hstmt : ∀ k, env.stmtFails k = false) (hcommit : env.commitFails = false)
    (hdb : w.schemas tenantID = some db)
    (hrow : (returnJoin db bookingID).head? = some row)
    (hcompleted : row.status ≠ "completed") (hcancelled : row.status ≠ "cancelled")
    (hcapture : (w.stripe.capture env.captureFails row.stripeIntentID (captureKey bookingID)
      (finalAmount row.startTime row.endTime row.dailyRateCents req.DamageCostCents)).1
        = true) :
    (ReturnCar env bookingID ⟨some req, some tenantID⟩ w).resp = ⟨200, none⟩ ∧
      (ReturnCar env bookingID ⟨some req, some tenantID⟩ w).world.schemas tenantID
        = some
          { cars := db.cars.map fun c =>
              if c.id = row.carID then
                { c with status := if req.DamageCostCents > 0 then CarStatusMaintenance
                                   else CarStatusAvailable
                         odometer := req.FinalOdometer }
              else c
            customers := db.customers
            bookings := db.bookings.map fun b =>
              if b.id = bookingID then
                { b with status := "completed"
                         finalOdometer := some req.FinalOdometer
                         damageCostCents := some req.DamageCostCents
                         totalAmountCents := some (finalAmount row.startTime row.endTime
                           row.dailyRateCents req.DamageCostCents) }
              else b
            payments := db.payments.map fun p =>
              if p.stripeIntentID = row.stripeIntentID then
                { p with status := "captured"
                         amountCents := finalAmount row.startTime row.endTime
                           row.dailyRateCents req.DamageCostCents }
              else p } ∧
      (∀ t, t ≠ tenantID →
        (ReturnCar env bookingID ⟨some req, some tenantID⟩ w).world.schemas t = w.schemas t) ∧
      (ReturnCar env bookingID ⟨some req, some tenantID⟩ w).world.tenants = w.tenants := by
  have hd : ¬ req.DamageCostCents < 0 := not_lt.mpr hdamage
  refine ⟨?_, ?_, ?_, ?_⟩
  · simp [ReturnCar, RunInTenantScope, returnCarWork, returnCarUpdates, hd, hbegin, hset,
      hstmt, hcommit, hdb, hrow, hcompleted, hcancelled, hcapture]
  · simp [ReturnCar, RunInTenantScope, returnCarWork, returnCarUpdates, hd, hbegin, hset,
      hstmt, hcommit, hdb, hrow, hcompleted, hcancelled, hcapture, World.setSchema,
      completeBooking, setCarReturned, setPaymentCaptured, newCarStatus]
  · intro t ht
    simp [ReturnCar, RunInTenantScope, returnCarWork, returnCarUpdates, hd, hbegin, hset,
      hstmt, hcommit, hdb, hrow, hcompleted, hcancelled, hcapture, World.setSchema, ht]
  · simp [ReturnCar, RunInTenantScope, returnCarWork, returnCarUpdates, hd, hbegin, hset,
      hstmt, hcommit, hdb, hrow, hcompleted, hcancelled, hcapture, World.setSchema]

set_option maxRecDepth 100000 in
/-- C8 at the sample data: the return of the sample booking without damage is
answered 200; the booking is then completed at 20000, the car available at
odometer 43000 and the payment captured. -/
theorem returnCar_success_state_witness :
    (ReturnCar sampleEnv "booking-1" ⟨some sampleReturn, some "tenant_acme"⟩
        (sampleWorld sampleDBBooked)).resp = ⟨200, none⟩ ∧
      (ReturnCar sampleEnv "booking-1" ⟨some sampleReturn, some "tenant_acme"⟩
        (sampleWorld sampleDBBooked)).world.schemas "tenant_acme" = some sampleDBCompleted :=
  have h := returnCar_success_state sampleEnv "booking-1" sampleReturn "tenant_acme"
    (sampleWorld sampleDBBooked) sampleDBBooked
    ⟨"car-1", 0, 172800000000000, "pending", "pi_1", 10000, "test@example.com", "Test", "User",
      "Test", "Car"⟩
    (by decide) rfl rfl (fun _ => rfl) rfl (by decide) (by decide) (by decide) (by decide)
    (by decide)
  ⟨h.1, h.2.1.trans (by decide)⟩

/-- C9: whenever the capture call of a ReturnCar call fails, the handler answers
with the capture error (500) and the world after the call is the world before
it: booking, car and payment rows are unchanged.  And in every ReturnCar call
every UPDATE statement comes after a capture call that succeeded, so no write
is made without a prior successful capture. -/
theorem returnCar_capture_failure (env : Env) (bookingID : String)
    (r : Request ReturnCarRequest) (w : World) :
    ((∃ intent key amount,
        Effect.capture intent key amount false ∈ (ReturnCar env bookingID r w).trace) →
      (ReturnCar env bookingID r w).resp = ⟨500, some .capturePaymentFailed⟩ ∧
      (ReturnCar env bookingID r w).world = w) ∧
    ∀ pre suf table, (ReturnCar env bookingID r w).trace = pre ++ Effect.update table :: suf →
      ∃ intent key amount, Effect.capture intent key amount true ∈ pre := by
  cases hbody : r.body with
  | none =>
    refine ⟨by simp [ReturnCar, hbody], fun pre suf table h => ?_⟩
    exact (no_split_of_not_mem _ pre suf _ (by simp [ReturnCar, hbody]) h).elim
  | some req =>
    by_cases hneg : req.DamageCostCents < 0
    · refine ⟨by simp [ReturnCar, hbody, hneg], fun pre suf table h => ?_⟩
      exact (no_split_of_not_mem _ pre suf _ (by simp [ReturnCar, hbody, hneg]) h).elim
    · cases htenant : r.tenant with
      | none =>
        refine ⟨by simp [ReturnCar, hbody, hneg, htenant], fun pre suf table h => ?_⟩
        exact (no_split_of_not_mem _ pre suf _ (by simp [ReturnCar, hbody, hneg, htenant])
          h).elim
      | some tenantID =>
        obtain ⟨htr, hwo, hre⟩ := returnCar_eq_scope env bookingID r w req tenantID hbody hneg
          htenant
        rw [htr, hwo, hre]
        rcases returnCar_scope_trace env bookingID req tenantID w with
          ⟨hnone, hfail⟩ | ⟨intent, key, amount, rest, htrace, hnofail⟩
        · refine ⟨fun hex => ?_, fun pre suf table h => ?_⟩
          · obtain ⟨h1, h2⟩ := hfail hex
            rw [h1, h2]
            exact ⟨rfl, rfl⟩
          · exact (no_split_of_not_mem _ pre suf _ (hnone table) h).elim
        · refine ⟨fun hex => ?_, fun pre suf table h => ?_⟩
          · obtain ⟨i, k, a, hmem⟩ := hex
            exact (hnofail i k a hmem).elim
          · exact ⟨intent, key, amount, mem_pre_of_split _ pre suf _ rest _ _ htrace h
              (by simp) (by simp)⟩

set_option maxRecDepth 100000 in
/-- C9 at the sample data: the processor refuses the capture of the sample
return; the answer is 500 with the capture error and the world is unchanged. -/
theorem returnCar_capture_failure_witness :
    (ReturnCar sampleEnvCaptureFails "booking-1" ⟨some sampleReturn, some "tenant_acme"⟩
        (sampleWorld sampleDBBooked)).resp = ⟨500, some .capturePaymentFailed⟩ ∧
      (ReturnCar sampleEnvCaptureFails "booking-1" ⟨some sampleReturn, some "tenant_acme"⟩
        (sampleWorld sampleDBBooked)).world = sampleWorld sampleDBBooked :=
  (returnCar_capture_failure sampleEnvCaptureFails "booking-1"
    ⟨some sampleReturn, some "tenant_acme"⟩ (sampleWorld sampleDBBooked)).1
    ⟨"pi_1", captureKey "booking-1", 20000, by decide⟩

/-- C10: take a booking under whose idempotency key the processor has captured
nothing yet.  A first ReturnCar call runs with whatever failures, before or
after its capture call, and the same request is then retried.  Against the
processor for which a repeated idempotency key is a no-op, at most one capture
is recorded under the key of the booking after the two calls; and when the
retry is answered 200 exactly one is recorded, and any further ReturnCar call
for that booking requests no capture, leaves the processor as it is and is not
answered 200. -/
theorem returnCar_retry_single_capture (env1 env2 env3 : Env) (bookingID : String)
    (r r3 : Request ReturnCarRequest) (w : World)
    (hfresh : capturesFor w.stripe (captureKey bookingID) = [])
    (htenant : r3.tenant = r.tenant) :
    (capturesFor (ReturnCar env2 bookingID r (ReturnCar env1 bookingID r w).world).world.stripe
        (captureKey bookingID)).length ≤ 1 ∧
      ((ReturnCar env2 bookingID r (ReturnCar env1 bookingID r w).world).resp.code = 200 →
        (capturesFor
          (ReturnCar env2 bookingID r (ReturnCar env1 bookingID r w).world).world.stripe
          (captureKey bookingID)).length = 1 ∧
        (∀ intent key amount ok, Effect.capture intent key amount ok ∉
          (ReturnCar env3 bookingID r3
            (ReturnCar env2 bookingID r (ReturnCar env1 bookingID r w).world).world).trace) ∧
        (ReturnCar env3 bookingID r3
            (ReturnCar env2 bookingID r (ReturnCar env1 bookingID r w).world).world).world.stripe
          = (ReturnCar env2 bookingID r (ReturnCar env1 bookingID r w).world).world.stripe ∧
        (ReturnCar env3 bookingID r3
            (ReturnCar env2 bookingID r (ReturnCar env1 bookingID r w).world).world).resp.code
          ≠ 200) := by
  have h0 : (capturesFor w.stripe (captureKey bookingID)).length = 0 := by simp [hfresh]
  obtain ⟨h1, -⟩ := returnCar_count env1 bookingID r w
  obtain ⟨h2, h2ok⟩ := returnCar_count env2 bookingID r (ReturnCar env1 bookingID r w).world
  refine ⟨by omega, fun hretry => ?_⟩
  have h2pos := h2ok hretry
  refine ⟨by omega, ?_⟩
  rcases returnCar_outcome env2 bookingID r (ReturnCar env1 bookingID r w).world with
    ⟨-, hcode⟩ | ⟨row, req, t, db, ht, -, -, hcode | hdb⟩
  · exact absurd hretry hcode
  · exact absurd hretry hcode
  · have h3 := returnCar_no_capture_of_completed env3 bookingID r3
      (ReturnCar env2 bookingID r (ReturnCar env1 bookingID r w).world).world t
      (htenant.trans ht)
      (by
        intro db1 hdb1 row1 hrow1
        rw [hdb] at hdb1
        cases hdb1
        exact returnJoin_completed _ _ _ _ _ _ _ _ _ _ _ hrow1)
    exact ⟨h3.1, h3.2.1, h3.2.2⟩

set_option maxRecDepth 100000 in
/-- C10 at the sample data: the first return of the sample booking captures and
then fails at its last UPDATE (answer 500); the retry is answered 200 and the
processor holds exactly one capture under `capture_booking-1`. -/
theorem returnCar_retry_single_capture_witness :
    (ReturnCar sampleEnvUpdateFails "booking-1" ⟨some sampleReturn, some "tenant_acme"⟩
        (sampleWorld sampleDBBooked)).resp.code = 500 ∧
      (capturesFor (ReturnCar sampleEnv "booking-1" ⟨some sampleReturn, some "tenant_acme"⟩
          (ReturnCar sampleEnvUpdateFails "booking-1" ⟨some sampleReturn, some "tenant_acme"⟩
            (sampleWorld sampleDBBooked)).world).world.stripe
        (captureKey "booking-1")).length = 1 :=
  ⟨by decide,
    ((returnCar_retry_single_capture sampleEnvUpdateFails sampleEnv sampleEnv "booking-1"
      ⟨some sampleReturn, some "tenant_acme"⟩ ⟨some sampleReturn, some "tenant_acme"⟩
      (sampleWorld sampleDBBooked) (by decide) rfl).2 (by decide)).1⟩

/-! ## The amount: theorems -/

set_option maxRecDepth 100000 in
/-- C7 as stated fails at two inputs.  For a booking of 146000 days (400 years)
at rate 1 without damage `time.Time.Sub` saturates and the code bills 106751
days, not 146000.  For a one-day booking at rate 10000 with damage cost
9223372036854775807 the sum wraps around in the 64-bit `int` and the amount is
negative. -/
theorem finalAmount_not_stated :
    finalAmount 0 12614400000000000000 1 0 = 106751 ∧
      statedFinalAmount 0 12614400000000000000 1 0 = 146000 ∧
      finalAmount 0 86400000000000 10000 9223372036854775807 = -9223372036854765809 ∧
      statedFinalAmount 0 86400000000000 10000 9223372036854775807 = 9223372036854785807 := by
  decide

/-- C7, amended: for start and end times a whole number of microseconds apart
whose difference fits a `time.Duration`, and a daily rate and damage cost for
which the rental cost and the total fit a 64-bit `int`, the amount ReturnCar
captures and stores is `days × dailyRate + damageCost` with
`days = max(1, floor((end − start) / 24h))`: a partial day beyond a whole number
of days is not billed, and an interval shorter than 48 hours (an end at or
before the start included) bills exactly 1 day. -/
theorem finalAmount_formula (startTime endTime dailyRateCents damageCostCents : ℤ)
    (hmin : minDuration ≤ endTime - startTime) (hmax : endTime - startTime ≤ maxDuration)
    (hmicro : (1000 : ℤ) ∣ endTime - startTime)
    (hrent : -(2 ^ 63) ≤ max 1 ((endTime - startTime) / (24 * Hour)) * dailyRateCents ∧
      max 1 ((endTime - startTime) / (24 * Hour)) * dailyRateCents < 2 ^ 63)
    (htotal : -(2 ^ 63) ≤ statedFinalAmount startTime endTime dailyRateCents damageCostCents ∧
      statedFinalAmount startTime endTime dailyRateCents damageCostCents < 2 ^ 63) :
    finalAmount startTime endTime dailyRateCents damageCostCents
        = statedFinalAmount startTime endTime dailyRateCents damageCostCents ∧
      billedDays startTime endTime = max 1 ((endTime - startTime) / (24 * Hour)) ∧
      (endTime - startTime < 48 * Hour → billedDays startTime endTime = 1) := by
  have hdays := billedDays_eq startTime endTime hmin hmax hmicro
  refine ⟨?_, hdays, ?_⟩
  · unfold finalAmount statedFinalAmount at *
    simp only [hdays]
    rw [wrapInt64_of_fits _ hrent.1 hrent.2, wrapInt64_of_fits _ htotal.1 htotal.2]
  · intro h48
    rw [hdays]
    have hHour : Hour = 3600000000000 := rfl
    rw [hHour] at h48 ⊢
    have : (endTime - startTime) / (24 * 3600000000000) ≤ 1 := by omega
    exact max_eq_left this

/-- C7 at the sample data: two days at 10000 a day with damage 500 come to
20500. -/
theorem finalAmount_formula_witness : finalAmount 0 172800000000000 10000 500 = 20500 :=
  (finalAmount_formula 0 172800000000000 10000 500 (by decide) (by decide) (by decide)
    (by decide) (by decide)).1.trans (by decide)

set_option maxRecDepth 100000 in
/-- At nanosecond resolution the binary64 rounding of `Duration.Hours` shows:
one nanosecond short of 171 days bills 171 days.  Timestamps a whole number of
microseconds apart never meet this. -/
theorem billedDays_nanosecond : billedDays 0 14774399999999999 = 171 := by decide


/-! ## The tenant scope: commit, rollback and isolation -/

/-- C14: for every tenant and every unit of work, `RunInTenantScope` ends with
`Commit` exactly when the transaction began, the partition was set and the
unit returned success; when the unit returns an error the caller gets that
same error and the directory and every partition are as before; and when
setting the partition fails the outcome is the same whatever the unit is (it
is never run): the error of the statement, the world untouched, and no call
beyond `Begin`, the statement and `Rollback`. -/
theorem runInTenantScope_commit_rollback {α : Type} (env : Env) (tenantID : String)
    (fn : Work α) (w : World) :
    ((RunInTenantScope env tenantID fn w).trace.getLast? = some Effect.commit ↔
        env.beginFails = false ∧ env.setSearchPathFails = false ∧
          ∃ v, (scopedWork env tenantID fn w).result = .ok v) ∧
      (env.beginFails = false → env.setSearchPathFails = false →
        ∀ e, (scopedWork env tenantID fn w).result = .error e →
          (RunInTenantScope env tenantID fn w).result = .error e ∧
          (RunInTenantScope env tenantID fn w).world.schemas = w.schemas ∧
          (RunInTenantScope env tenantID fn w).world.tenants = w.tenants ∧
          (RunInTenantScope env tenantID fn w).trace.getLast? = some Effect.rollback) ∧
      (env.beginFails = false → env.setSearchPathFails = true →
        (∀ fn2 : Work α,
          RunInTenantScope env tenantID fn2 w = RunInTenantScope env tenantID fn w) ∧
        (RunInTenantScope env tenantID fn w).result = .error .setSearchPathFailed ∧
        (RunInTenantScope env tenantID fn w).world = w ∧
        (RunInTenantScope env tenantID fn w).trace
          = [.txBegin, .setSearchPath tenantID, .rollback]) := by
  refine ⟨?_, ?_, ?_⟩
  · cases hb : env.beginFails
    · cases hs : env.setSearchPathFails
      · cases hr : (scopedWork env tenantID fn w).result with
        | error e =>
          rw [(runInTenantScope_trace_error env tenantID fn w e hb hs hr).2.2.2,
            getLast_scope_trace]
          simp
        | ok v =>
          rw [runInTenantScope_trace_ok env tenantID fn w v hb hs hr, getLast_scope_trace]
          simp
      · simp [RunInTenantScope, hb, hs]
    · simp [RunInTenantScope, hb]
  · intro hb hs e hr
    have h := runInTenantScope_trace_error env tenantID fn w e hb hs hr
    refine ⟨h.1, h.2.1, h.2.2.1, ?_⟩
    rw [h.2.2.2, getLast_scope_trace]
  · intro hb hs
    simp [RunInTenantScope, hb, hs]

/-- Witness for C14: the unit of work of `CreateBooking` on the sample car is
committed; the same unit on the rented car returns its error and is rolled
back. -/
theorem runInTenantScope_commit_rollback_witness :
    (RunInTenantScope sampleEnv "tenant_acme" (createBookingWork sampleEnv sampleCreate)
        (sampleWorld sampleDB)).trace.getLast? = some Effect.commit ∧
      (RunInTenantScope sampleEnv "tenant_acme" (createBookingWork sampleEnv sampleCreate)
        (sampleWorld sampleDBRented)).result = .error (.carNotAvailable "rented") :=
  ⟨(runInTenantScope_commit_rollback sampleEnv "tenant_acme"
      (createBookingWork sampleEnv sampleCreate) (sampleWorld sampleDB)).1.2
      ⟨rfl, rfl, ((), _), rfl⟩,
    ((runInTenantScope_commit_rollback sampleEnv "tenant_acme"
      (createBookingWork sampleEnv sampleCreate) (sampleWorld sampleDBRented)).2.1
      rfl rfl (.carNotAvailable "rented") rfl).1⟩

/-- C15: for distinct tenant identities `A` and `B` (schema names, which hold
no NUL byte), the statement `RunInTenantScope` executes under `A` selects the
schema `A` and the one it executes under `B` selects the schema `B`, and the
two statements differ; with the partition chosen by that statement, a unit of
work run under `A` leaves the partition of `B` as it was; what a unit of work
run under `B` returns, the calls it makes and the partition of `B` it leaves
are the same in any two worlds that agree on the partition of `B` and on the
processor, whatever the partition of `A` holds; and after a car has been
inserted under `A`, the lookup of its key under `B` finds no row, the
partition of `B` holding no car with that key.  For such identities the
function with its statement spelled out is `RunInTenantScope`. -/
theorem tenant_isolation (envA envB : Env) (A B : String) (w : World) (dbB : DB) (car : Car)
    (hAB : A ≠ B) (hA0 : Char.ofNat 0 ∉ A.toList) (hB0 : Char.ofNat 0 ∉ B.toList)
    (hB : w.schemas B = some dbB)
    (hfresh : ∀ c ∈ dbB.cars, c.id ≠ car.id) :
    (searchPathSchema (scopeSearchPath A) = some A ∧
        searchPathSchema (scopeSearchPath B) = some B ∧
        scopeSearchPath A ≠ scopeSearchPath B) ∧
      (∀ (α : Type) (fn : Work α),
        (RunInTenantScope.bySearchPath envA A fn w).world.schemas B = w.schemas B) ∧
      (∀ (α : Type) (fn : Work α) (w2 : World),
        w2.schemas B = w.schemas B → w2.stripe = w.stripe →
          (RunInTenantScope.bySearchPath envB B fn w2).result
            = (RunInTenantScope.bySearchPath envB B fn w).result ∧
          (RunInTenantScope.bySearchPath envB B fn w2).trace
            = (RunInTenantScope.bySearchPath envB B fn w).trace ∧
          (RunInTenantScope.bySearchPath envB B fn w2).world.schemas B
            = (RunInTenantScope.bySearchPath envB B fn w).world.schemas B) ∧
      ((RunInTenantScope.bySearchPath envB B (lookupCarWork car.id)
          (RunInTenantScope.bySearchPath envA A (insertCarWork car) w).world).result
            = .ok none ∨
        ∃ e, (RunInTenantScope.bySearchPath envB B (lookupCarWork car.id)
          (RunInTenantScope.bySearchPath envA A (insertCarWork car) w).world).result
            = .error e) ∧
      (∀ (α : Type) (fn : Work α) (w0 : World),
        RunInTenantScope.bySearchPath envA A fn w0 = RunInTenantScope envA A fn w0 ∧
        RunInTenantScope.bySearchPath envB B fn w0 = RunInTenantScope envB B fn w0) := by
  refine ⟨⟨searchPathSchema_self A hA0, searchPathSchema_self B hB0, ?_⟩, ?_, ?_, ?_, ?_⟩
  · exact fun h => hAB (scopeSearchPath_injective A B hA0 hB0 h)
  · intro α fn
    rw [bySearchPath_eq envA A fn w hA0]
    exact runInTenantScope_other envA A B fn w (Ne.symm hAB)
  · intro α fn w2 hs hp
    rw [bySearchPath_eq envB B fn w2 hB0, bySearchPath_eq envB B fn w hB0]
    have h := runInTenantScope_reads envB B fn w2 w hs hp
    exact ⟨h.1, h.2.1, h.2.2.1⟩
  · rw [bySearchPath_eq envA A _ w hA0, bySearchPath_eq envB B _ _ hB0]
    have hB1 : (RunInTenantScope envA A (insertCarWork car) w).world.schemas B = some dbB := by
      rw [runInTenantScope_other envA A B _ w (Ne.symm hAB)]
      exact hB
    have hfind : (dbB.cars.find? fun c => c.id = car.id) = none := by
      rw [List.find?_eq_none]
      intro c hc
      simpa using hfresh c hc
    generalize (RunInTenantScope envA A (insertCarWork car) w).world = w1 at hB1 ⊢
    cases hb : envB.beginFails
    · cases hs : envB.setSearchPathFails
      · cases hc : envB.commitFails
        · cases h0 : envB.stmtFails 0 <;>
            simp [RunInTenantScope, hb, hs, hc, hB1, lookupCarWork, h0, hfind]
        · cases h0 : envB.stmtFails 0 <;>
            simp [RunInTenantScope, hb, hs, hc, hB1, lookupCarWork, h0, hfind]
      · simp [RunInTenantScope, hb, hs]
    · simp [RunInTenantScope, hb]
  · intro α fn w0
    exact ⟨bySearchPath_eq envA A fn w0 hA0, bySearchPath_eq envB B fn w0 hB0⟩

/-- Witness for C15: the car of the isolation test, inserted under `tenant_a`
and looked up under `tenant_b`. -/
theorem tenant_isolation_witness :
    (RunInTenantScope.bySearchPath sampleEnv "tenant_b" (lookupCarWork sampleToyota.id)
        (RunInTenantScope.bySearchPath sampleEnv "tenant_a" (insertCarWork sampleToyota)
          sampleWorldTwo).world).result = .ok none ∨
      ∃ e, (RunInTenantScope.bySearchPath sampleEnv "tenant_b" (lookupCarWork sampleToyota.id)
        (RunInTenantScope.bySearchPath sampleEnv "tenant_a" (insertCarWork sampleToyota)
          sampleWorldTwo).world).result = .error e :=
  (tenant_isolation sampleEnv sampleEnv "tenant_a" "tenant_b" sampleWorldTwo DB.empty
    sampleToyota (by decide) (by decide) (by decide) rfl (by simp [DB.empty])).2.2.2.1

/-! ## CreatePaymentIntent -/

/-- C17: for every request of `CreatePaymentIntent` whose body decodes with an
amount less than or equal to 0, the answer is 400 Bad Request, the handler
makes no call at all (no database read or write, no call to the processor),
and the world is as before. -/
theorem createPaymentIntent_nonpositive_amount (env : PayEnv)
    (r : Request CreateIntentRequest) (req : CreateIntentRequest) (w : World)
    (hbody : r.body = some req) (hamount : req.Amount ≤ 0) :
    (CreatePaymentIntent env r w).resp = ⟨400, .text "Amount must be greater than 0"⟩ ∧
      (CreatePaymentIntent env r w).trace = [] ∧
      (CreatePaymentIntent env r w).world = w := by
  simp [CreatePaymentIntent, hbody, hamount]

/-- Witness for C17: the amounts 0 and -5 for the sample booking. -/
theorem createPaymentIntent_nonpositive_amount_witness :
    ((CreatePaymentIntent samplePayEnv ⟨some ⟨"booking-1", 0⟩, some "tenant_acme"⟩
        (sampleWorld sampleDBUnpaid)).resp = ⟨400, .text "Amount must be greater than 0"⟩ ∧
      (CreatePaymentIntent samplePayEnv ⟨some ⟨"booking-1", 0⟩, some "tenant_acme"⟩
        (sampleWorld sampleDBUnpaid)).trace = [] ∧
      (CreatePaymentIntent samplePayEnv ⟨some ⟨"booking-1", 0⟩, some "tenant_acme"⟩
        (sampleWorld sampleDBUnpaid)).world = sampleWorld sampleDBUnpaid) ∧
    (CreatePaymentIntent samplePayEnv ⟨some ⟨"booking-1", -5⟩, some "tenant_acme"⟩
        (sampleWorld sampleDBUnpaid)).resp.code = 400 :=
  ⟨createPaymentIntent_nonpositive_amount samplePayEnv
      ⟨some ⟨"booking-1", 0⟩, some "tenant_acme"⟩ ⟨"booking-1", 0⟩ (sampleWorld sampleDBUnpaid)
      rfl (by decide),
    by decide⟩

/-- The lookup that storage serves: for a booking whose first payment row
carries a non-empty authorization reference, a positive amount, and a lookup
that storage serves, `CreatePaymentIntent` requests no new authorization, issues no INSERT (its
calls are the lookup and one retrieval of the existing authorization), leaves
the world as it was, and answers 200 with the client secret of the existing
authorization when the processor returns it; a second call is in the same
case, so after the two calls the partition still holds the payment rows it
held, one for the booking when there was one. -/
theorem createPaymentIntent_existing (env env2 : PayEnv) (r : Request CreateIntentRequest)
    (req : CreateIntentRequest) (tenantID : String) (w : World) (db : DB) (p : Payment)
    (hbody : r.body = some req) (hamount : 0 < req.Amount)
    (htenant : r.tenant = some tenantID) (hdb : w.schemas tenantID = some db)
    (hpay : (db.payments.find? fun x => x.bookingID = req.BookingID) = some p)
    (hintent : p.stripeIntentID ≠ "")
    (hlookup : env.lookup.beginFails = false ∧ env.lookup.setSearchPathFails = false ∧
      env.lookup.stmtFails 0 = false ∧ env.lookup.commitFails = false)
    (hlookup2 : env2.lookup.beginFails = false ∧ env2.lookup.setSearchPathFails = false ∧
      env2.lookup.stmtFails 0 = false ∧ env2.lookup.commitFails = false) :
    intentRequests (CreatePaymentIntent env r w).trace = [] ∧
      (CreatePaymentIntent env r w).trace
        = [.db .txBegin, .db (.setSearchPath tenantID), .db (.select "payments"), .db .commit,
            .intentGet p.stripeIntentID] ∧
      (CreatePaymentIntent env r w).world = w ∧
      (∀ intent, env.getIntent p.stripeIntentID = some intent →
        (CreatePaymentIntent env r w).resp
          = ⟨200, .object [("client_secret", intent.ClientSecret)]⟩) ∧
      (CreatePaymentIntent env2 r (CreatePaymentIntent env r w).world).world = w ∧
      (CreatePaymentIntent env2 r (CreatePaymentIntent env r w).world).world.schemas tenantID
        = some db ∧
      ((db.payments.filter fun x => x.bookingID = req.BookingID).length = 1 →
        ∃ db2, (CreatePaymentIntent env2 r (CreatePaymentIntent env r w).world).world.schemas
            tenantID = some db2 ∧
          (db2.payments.filter fun x => x.bookingID = req.BookingID).length = 1) := by
  have key : ∀ (e : PayEnv), (e.lookup.beginFails = false ∧
      e.lookup.setSearchPathFails = false ∧ e.lookup.stmtFails 0 = false ∧
      e.lookup.commitFails = false) →
      (CreatePaymentIntent e r w).trace
        = [.db .txBegin, .db (.setSearchPath tenantID), .db (.select "payments"), .db .commit,
            .intentGet p.stripeIntentID] ∧
      (CreatePaymentIntent e r w).world = w ∧
      (∀ intent, e.getIntent p.stripeIntentID = some intent →
        (CreatePaymentIntent e r w).resp
          = ⟨200, .object [("client_secret", intent.ClientSecret)]⟩) := by
    intro e he
    obtain ⟨hb, hs, h0, hc⟩ := he
    obtain ⟨hres, hworld, htrace⟩ :=
      existingIntent_found e.lookup tenantID req.BookingID w db p hdb hpay hb hs h0 hc
    cases hg : e.getIntent p.stripeIntentID with
    | none =>
      simp [CreatePaymentIntent, hbody, not_le.mpr hamount, htenant, hres, hworld, htrace,
        hintent, hg]
    | some intent =>
      simp [CreatePaymentIntent, hbody, not_le.mpr hamount, htenant, hres, hworld, htrace,
        hintent, hg]
  obtain ⟨ht1, hw1, hr1⟩ := key env hlookup
  obtain ⟨_, hw2, _⟩ := key env2 hlookup2
  refine ⟨?_, ht1, hw1, hr1, ?_, ?_, ?_⟩
  · rw [ht1]
    rfl
  · rw [hw1, hw2]
  · rw [hw1, hw2]
    exact hdb
  · intro hone
    exact ⟨db, by rw [hw1, hw2]; exact hdb, hone⟩

/-- The lookup that storage serves, at the sample data: two calls for the
sample booking, which has its payment row. -/
theorem createPaymentIntent_existing_witness :
    (CreatePaymentIntent samplePayEnv ⟨some sampleIntentRequest, some "tenant_acme"⟩
        (sampleWorld sampleDBBooked)).resp
        = ⟨200, .object [("client_secret", "pi_1_secret_abc")]⟩ ∧
      (CreatePaymentIntent samplePayEnv ⟨some sampleIntentRequest, some "tenant_acme"⟩
        (CreatePaymentIntent samplePayEnv ⟨some sampleIntentRequest, some "tenant_acme"⟩
          (sampleWorld sampleDBBooked)).world).world.schemas "tenant_acme"
        = some sampleDBBooked :=
  have h := createPaymentIntent_existing samplePayEnv samplePayEnv
    ⟨some sampleIntentRequest, some "tenant_acme"⟩ sampleIntentRequest "tenant_acme"
    (sampleWorld sampleDBBooked) sampleDBBooked samplePayment rfl (by decide) rfl rfl rfl
    (by decide) ⟨rfl, rfl, rfl, rfl⟩ ⟨rfl, rfl, rfl, rfl⟩
  ⟨h.2.2.2.1 sampleIntent rfl, h.2.2.2.2.2.1⟩

set_option maxRecDepth 100000 in
/-- C18 fails on the code: the sample booking has its payment row with the
authorization `pi_1`.  When storage serves the lookup, `CreatePaymentIntent`
returns the handle of `pi_1`, requests nothing new and leaves the partition as
it was; when the lookup transaction cannot begin, the same request makes the
handler request a new authorization, answer with the handle of `pi_2` and
insert a second payment row for the booking. -/
theorem createPaymentIntent_duplicate_payment :
    ((CreatePaymentIntent samplePayEnv ⟨some sampleIntentRequest, some "tenant_acme"⟩
        (sampleWorld sampleDBBooked)).resp
        = ⟨200, .object [("client_secret", "pi_1_secret_abc")]⟩ ∧
      intentRequests (CreatePaymentIntent samplePayEnv
        ⟨some sampleIntentRequest, some "tenant_acme"⟩ (sampleWorld sampleDBBooked)).trace = [] ∧
      ((CreatePaymentIntent samplePayEnv ⟨some sampleIntentRequest, some "tenant_acme"⟩
        (sampleWorld sampleDBBooked)).world.schemas "tenant_acme").map (fun db => db.payments)
        = some [⟨"booking-1", "pi_1", 20000, "authorized"⟩]) ∧
    ((CreatePaymentIntent samplePayEnvLookupFails
        ⟨some sampleIntentRequest, some "tenant_acme"⟩ (sampleWorld sampleDBBooked)).resp
        = ⟨200, .object [("client_secret", "pi_2_secret_def")]⟩ ∧
      intentRequests (CreatePaymentIntent samplePayEnvLookupFails
        ⟨some sampleIntentRequest, some "tenant_acme"⟩ (sampleWorld sampleDBBooked)).trace
        = [⟨20000, "usd", "manual", true, "tenant_acme", "booking-1"⟩] ∧
      ((CreatePaymentIntent samplePayEnvLookupFails
        ⟨some sampleIntentRequest, some "tenant_acme"⟩
          (sampleWorld sampleDBBooked)).world.schemas "tenant_acme").map (fun db => db.payments)
        = some [⟨"booking-1", "pi_1", 20000, "authorized"⟩,
            ⟨"booking-1", "pi_2", 20000, "pending_auth"⟩]) := by
  decide

/-- C19: for a booking with no payment row and an amount greater than 0, a
call of `CreatePaymentIntent` that answers 200 has requested exactly one
authorization, with manual capture and for exactly that amount, and has
inserted exactly one payment row, last in the table: the booking id, the
reference the processor returned, that amount and the status `pending_auth`;
the answer carries the client secret of the new authorization, and nothing
else in the world has changed. -/
theorem createPaymentIntent_new (env : PayEnv) (r : Request CreateIntentRequest)
    (req : CreateIntentRequest) (tenantID : String) (w : World) (db : DB)
    (hbody : r.body = some req) (hamount : 0 < req.Amount)
    (htenant : r.tenant = some tenantID) (hdb : w.schemas tenantID = some db)
    (hpay : (db.payments.find? fun x => x.bookingID = req.BookingID) = none)
    (h200 : (CreatePaymentIntent env r w).resp.code = 200) :
    ∃ intent, env.newIntent (intentParams tenantID req) = some intent ∧
      intentRequests (CreatePaymentIntent env r w).trace = [intentParams tenantID req] ∧
      (intentParams tenantID req).Amount = req.Amount ∧
      (intentParams tenantID req).CaptureMethod = "manual" ∧
      (CreatePaymentIntent env r w).resp
        = ⟨200, .object [("client_secret", intent.ClientSecret)]⟩ ∧
      (∃ db1, (CreatePaymentIntent env r w).world.schemas tenantID = some db1 ∧
        db1.payments = db.payments ++ [⟨req.BookingID, intent.ID, req.Amount, "pending_auth"⟩] ∧
        db1.cars = db.cars ∧ db1.customers = db.customers ∧ db1.bookings = db.bookings) ∧
      (∀ t, t ≠ tenantID → (CreatePaymentIntent env r w).world.schemas t = w.schemas t) ∧
      (CreatePaymentIntent env r w).world.stripe = w.stripe := by
  obtain ⟨⟨e, he⟩, hworld⟩ :=
    existingIntent_absent env.lookup tenantID req.BookingID w db hdb hpay
  have hform : CreatePaymentIntent env r w
      = createNewIntent env tenantID req w
          ((RunInTenantScope env.lookup tenantID (existingIntentWork req.BookingID)
            w).trace.map Call.db) := by
    simp [CreatePaymentIntent, hbody, not_le.mpr hamount, htenant, he, hworld]
  rw [hform] at h200 ⊢
  obtain ⟨intent, hn, hresp, hsch, _, hstripe, hreq⟩ :=
    createNewIntent_success env tenantID req w db _ hdb h200
  refine ⟨intent, hn, ?_, rfl, rfl, hresp, ?_, ?_, hstripe⟩
  · rw [hreq, intentRequests_db]
    rfl
  · refine ⟨insertPayment db ⟨req.BookingID, intent.ID, req.Amount, "pending_auth"⟩,
      by rw [hsch]; simp, rfl, rfl, rfl, rfl⟩
  · intro t ht
    rw [hsch]
    simp [ht]

/-- Witness for C19: the first authorization of 20000 for the sample booking. -/
theorem createPaymentIntent_new_witness :
    ∃ intent, samplePayEnv.newIntent (intentParams "tenant_acme" sampleIntentRequest)
        = some intent ∧
      intentRequests (CreatePaymentIntent samplePayEnv
        ⟨some sampleIntentRequest, some "tenant_acme"⟩ (sampleWorld sampleDBUnpaid)).trace
        = [intentParams "tenant_acme" sampleIntentRequest] ∧
      (intentParams "tenant_acme" sampleIntentRequest).Amount = sampleIntentRequest.Amount ∧
      (intentParams "tenant_acme" sampleIntentRequest).CaptureMethod = "manual" ∧
      (CreatePaymentIntent samplePayEnv ⟨some sampleIntentRequest, some "tenant_acme"⟩
        (sampleWorld sampleDBUnpaid)).resp
        = ⟨200, .object [("client_secret", intent.ClientSecret)]⟩ ∧
      (∃ db1, (CreatePaymentIntent samplePayEnv ⟨some sampleIntentRequest, some "tenant_acme"⟩
          (sampleWorld sampleDBUnpaid)).world.schemas "tenant_acme" = some db1 ∧
        db1.payments = sampleDBUnpaid.payments ++
          [⟨sampleIntentRequest.BookingID, intent.ID, sampleIntentRequest.Amount,
            "pending_auth"⟩] ∧
        db1.cars = sampleDBUnpaid.cars ∧ db1.customers = sampleDBUnpaid.customers ∧
        db1.bookings = sampleDBUnpaid.bookings) ∧
      (∀ t, t ≠ "tenant_acme" →
        (CreatePaymentIntent samplePayEnv ⟨some sampleIntentRequest, some "tenant_acme"⟩
          (sampleWorld sampleDBUnpaid)).world.schemas t = (sampleWorld sampleDBUnpaid).schemas t) ∧
      (CreatePaymentIntent samplePayEnv ⟨some sampleIntentRequest, some "tenant_acme"⟩
        (sampleWorld sampleDBUnpaid)).world.stripe = (sampleWorld sampleDBUnpaid).stripe :=
  createPaymentIntent_new samplePayEnv ⟨some sampleIntentRequest, some "tenant_acme"⟩
    sampleIntentRequest "tenant_acme" (sampleWorld sampleDBUnpaid) sampleDBUnpaid rfl
    (by decide) rfl rfl rfl (by decide)

/-! ## HandleStripeWebhook -/

/-- C20, as stated, fails: the sample request carries a signature that does
not verify, its body is one byte longer than `MaxBodyBytes`, and the handler
answers 503, which is no 4xx status. -/
theorem webhook_unverified_not_4xx :
    sampleHookEnv.constructEvent sampleOversized.body sampleOversized.signature = none ∧
      (HandleStripeWebhook sampleHookEnv sampleOversized (sampleWorld sampleDBBooked)).resp.code
        = 503 ∧
      ¬ (400 ≤ (HandleStripeWebhook sampleHookEnv sampleOversized
            (sampleWorld sampleDBBooked)).resp.code ∧
          (HandleStripeWebhook sampleHookEnv sampleOversized
            (sampleWorld sampleDBBooked)).resp.code < 500) := by
  have h : (HandleStripeWebhook sampleHookEnv sampleOversized
      (sampleWorld sampleDBBooked)).resp.code = 503 := by
    simp [HandleStripeWebhook, sampleOversized_size, MaxBodyBytes]
  refine ⟨rfl, h, ?_⟩
  rw [h]
  decide

/-- C20, amended: for every inbound request whose signature does not verify
or whose payload `ConstructEvent` cannot parse, and for every verified event
of type `payment_intent.amount_capturable_updated` whose payment object cannot
be parsed, the handler makes no call (nothing is selected or updated under a
tenant id or an intent id of the payload) and leaves the world as it was; it
answers 400 when the body was read, which is when it is at most `MaxBodyBytes`
long and the transport did not fail, and 503 otherwise. -/
theorem webhook_unverified_rejected (env : HookEnv) (r : WebhookRequest) (w : World)
    (hbad : env.constructEvent r.body r.signature = none ∨
      ∃ event, env.constructEvent r.body r.signature = some event ∧
        event.type = "payment_intent.amount_capturable_updated" ∧ event.data = none) :
    (HandleStripeWebhook env r w).world = w ∧
      (HandleStripeWebhook env r w).trace = [] ∧
      ((env.readFails = false ∧ r.body.utf8ByteSize ≤ MaxBodyBytes) →
        (HandleStripeWebhook env r w).resp = ⟨400, .empty⟩) ∧
      ((env.readFails = true ∨ MaxBodyBytes < r.body.utf8ByteSize) →
        (HandleStripeWebhook env r w).resp = ⟨503, .empty⟩) := by
  by_cases hread : env.readFails = true ∨ MaxBodyBytes < r.body.utf8ByteSize
  · have hno : ¬ (env.readFails = false ∧ r.body.utf8ByteSize ≤ MaxBodyBytes) := by
      rintro ⟨h1, h2⟩
      rcases hread with h | h
      · rw [h1] at h
        cases h
      · omega
    simp [HandleStripeWebhook, hread, hno]
  · have hyes : env.readFails = false ∧ r.body.utf8ByteSize ≤ MaxBodyBytes := by
      constructor
      · cases h : env.readFails
        · rfl
        · exact absurd (Or.inl h) hread
      · by_contra h
        exact hread (Or.inr (by omega))
    have hsize : ¬ MaxBodyBytes < r.body.utf8ByteSize := by omega
    rcases hbad with h | ⟨event, h, htype, hdata⟩
    · simp [HandleStripeWebhook, hyes, hsize, h]
    · simp [HandleStripeWebhook, hyes, hsize, h, htype, hdata]

/-- Witness for C20: the forged sample request is answered 400 and changes
nothing. -/
theorem webhook_unverified_rejected_witness :
    (HandleStripeWebhook sampleHookEnv sampleForged (sampleWorld sampleDBBooked)).world
        = sampleWorld sampleDBBooked ∧
      (HandleStripeWebhook sampleHookEnv sampleForged (sampleWorld sampleDBBooked)).trace = [] ∧
      (HandleStripeWebhook sampleHookEnv sampleForged (sampleWorld sampleDBBooked)).resp
        = ⟨400, .empty⟩ :=
  have h := webhook_unverified_rejected sampleHookEnv sampleForged (sampleWorld sampleDBBooked)
    (Or.inl rfl)
  ⟨h.1, h.2.1, h.2.2.1 ⟨rfl, by decide⟩⟩

/-! ## Booking, authorization and return in sequence -/

set_option maxRecDepth 100000 in
/-- C11, as stated, fails: on the sample partition (the car available at 10000
a day) `CreateBooking` for two days is answered 201, and `ReturnCar` with
damage cost 0 right after it is answered 500, the booking having no payment
row to join; the booking stays pending without a total and the car stays
rented. -/
theorem booking_return_without_payment :
    (CreateBooking sampleEnv ⟨some sampleCreateTwoDays, some "tenant_acme"⟩
        (sampleWorld sampleDB)).resp = ⟨201, none⟩ ∧
      (ReturnCar sampleEnv "booking-1" ⟨some ⟨43000, 0⟩, some "tenant_acme"⟩
        (CreateBooking sampleEnv ⟨some sampleCreateTwoDays, some "tenant_acme"⟩
          (sampleWorld sampleDB)).world).resp
        = ⟨500, some .bookingNotFoundOrPaymentMissing⟩ ∧
      (ReturnCar sampleEnv "booking-1" ⟨some ⟨43000, 0⟩, some "tenant_acme"⟩
        (CreateBooking sampleEnv ⟨some sampleCreateTwoDays, some "tenant_acme"⟩
          (sampleWorld sampleDB)).world).world.schemas "tenant_acme"
        = some ⟨[sampleCarRented], [sampleCustomer], [sampleBooking], []⟩ := by
  decide

/-- C11, amended: for an available car at 10000 a day, `CreateBooking` for an
interval of exactly 2 days, then `CreatePaymentIntent` for the new booking,
then `ReturnCar` with damage cost 0 or 500 (the customer of the booking being
on file, the keys the database generates being fresh, storage and the
processor working) is answered 200 and leaves the booking completed with total
amount 20000 and the car `available` for damage cost 0, total amount 20500 and
the car `maintenance` for damage cost 500. -/
theorem booking_payment_return_flow (env1 env3 : Env) (penv : PayEnv)
    (req : CreateBookingRequest) (tenantID : String) (w : World) (db : DB) (car : Car)
    (cust : Customer) (intent : PaymentIntent) (amount odometer damage : Int)
    (hb1 : env1.beginFails = false) (hs1 : env1.setSearchPathFails = false)
    (hf1 : ∀ k, env1.stmtFails k = false) (hc1 : env1.commitFails = false)
    (hn : penv.newIntent (intentParams tenantID ⟨env1.newBookingID, amount⟩) = some intent)
    (hb2 : penv.store.beginFails = false) (hs2 : penv.store.setSearchPathFails = false)
    (hf2 : penv.store.stmtFails 0 = false) (hc2 : penv.store.commitFails = false)
    (hb3 : env3.beginFails = false) (hs3 : env3.setSearchPathFails = false)
    (hf3 : ∀ k, env3.stmtFails k = false) (hc3 : env3.commitFails = false)
    (hcap : env3.captureFails = false)
    (hdb : w.schemas tenantID = some db)
    (hcar : (db.cars.find? fun c => c.id = req.CarID) = some car)
    (havail : car.status = CarStatusAvailable) (hrate : car.dailyRateCents = 10000)
    (hcust : (db.customers.find? fun c => c.id = req.CustomerID) = some cust)
    (hfreshB : ∀ b ∈ db.bookings, b.id ≠ env1.newBookingID)
    (hfreshP : ∀ p ∈ db.payments, p.bookingID ≠ env1.newBookingID)
    (hdays : req.EndTime = req.StartTime + 172800000000000)
    (hamount : 0 < amount) (hdamage : damage = 0 ∨ damage = 500) :
    (ReturnCar env3 env1.newBookingID ⟨some ⟨odometer, damage⟩, some tenantID⟩
        (CreatePaymentIntent penv ⟨some ⟨env1.newBookingID, amount⟩, some tenantID⟩
          (CreateBooking env1 ⟨some req, some tenantID⟩ w).world).world).resp = ⟨200, none⟩ ∧
      ∃ db3,
        (ReturnCar env3 env1.newBookingID ⟨some ⟨odometer, damage⟩, some tenantID⟩
          (CreatePaymentIntent penv ⟨some ⟨env1.newBookingID, amount⟩, some tenantID⟩
            (CreateBooking env1 ⟨some req, some tenantID⟩ w).world).world).world.schemas
            tenantID = some db3 ∧
        carStatus db3 req.CarID
          = some (if damage = 0 then CarStatusAvailable else CarStatusMaintenance) ∧
        (∃ b ∈ db3.bookings, b.id = env1.newBookingID) ∧
        ∀ b ∈ db3.bookings, b.id = env1.newBookingID →
          b.status = "completed" ∧ b.totalAmountCents = some (20000 + damage) := by
  obtain ⟨-, hw1⟩ := createBooking_healthy env1 req tenantID w db car hb1 hs1 hf1 hc1 hdb hcar
    havail
  have hdb1 : (CreateBooking env1 ⟨some req, some tenantID⟩ w).world.schemas tenantID
      = some (setCarStatus (insertBooking db
          (pendingBooking env1.newBookingID req.CarID req.CustomerID req.StartTime
            req.EndTime)) CarStatusRented req.CarID) := by
    rw [hw1]
    simp [World.setSchema]
  have hpay1 : ((setCarStatus (insertBooking db
      (pendingBooking env1.newBookingID req.CarID req.CustomerID req.StartTime
        req.EndTime)) CarStatusRented req.CarID).payments.find?
        fun x => x.bookingID = (⟨env1.newBookingID, amount⟩ : CreateIntentRequest).BookingID)
      = none := by
    rw [List.find?_eq_none]
    intro p hp
    simpa using hfreshP p hp
  obtain ⟨-, hw2⟩ := createPaymentIntent_healthy penv ⟨env1.newBookingID, amount⟩ tenantID _ _
    intent hamount hdb1 hpay1 hn hb2 hs2 hf2 hc2
  have hdb2 : (CreatePaymentIntent penv ⟨some ⟨env1.newBookingID, amount⟩, some tenantID⟩
      (CreateBooking env1 ⟨some req, some tenantID⟩ w).world).world.schemas tenantID
      = some (insertPayment (setCarStatus (insertBooking db
          (pendingBooking env1.newBookingID req.CarID req.CustomerID req.StartTime
            req.EndTime)) CarStatusRented req.CarID)
          ⟨env1.newBookingID, intent.ID, amount, "pending_auth"⟩) := by
    rw [hw2]
    simp [World.setSchema]
  have hrow := returnJoin_fresh db env1.newBookingID req.CarID req.CustomerID intent.ID
    "pending_auth" req.StartTime req.EndTime amount CarStatusRented car cust hfreshB hfreshP
    hcar hcust
  have hd0 : (0 : Int) ≤ damage := by rcases hdamage with h | h <;> omega
  obtain ⟨hresp, hsch⟩ := returnCar_healthy env3 env1.newBookingID ⟨odometer, damage⟩ tenantID
    _ _ _ hd0 hb3 hs3 hf3 hc3 hcap hdb2 hrow (by simp) (by simp)
  refine ⟨hresp, _, hsch, ?_, ?_, ?_⟩
  · have hfind := find_setCarReturned _ (newCarStatus damage) odometer req.CarID _
      (find_setCarStatus db.cars CarStatusRented req.CarID car hcar)
    have hst : newCarStatus damage
        = if damage = 0 then CarStatusAvailable else CarStatusMaintenance := by
      rcases hdamage with h | h <;> subst h <;> decide
    simp only [carStatus, setPaymentCaptured, setCarReturned, completeBooking, insertPayment,
      setCarStatus, insertBooking]
    rw [hfind, ← hst]
    rfl
  · have hmem : pendingBooking env1.newBookingID req.CarID req.CustomerID req.StartTime
        req.EndTime ∈ db.bookings ++ [pendingBooking env1.newBookingID req.CarID
          req.CustomerID req.StartTime req.EndTime] := by simp
    exact ⟨_, List.mem_map_of_mem _ hmem, by simp [pendingBooking]⟩
  · intro b hbmem hbid
    simp only [setPaymentCaptured, setCarReturned, completeBooking, insertPayment,
      setCarStatus, insertBooking] at hbmem
    obtain ⟨b0, -, hb0⟩ := List.mem_map.mp hbmem
    by_cases hid : b0.id = env1.newBookingID
    · rw [if_pos hid] at hb0
      subst hb0
      refine ⟨rfl, ?_⟩
      simp only [hrate, hdays]
      rw [storedTime_add_whole req.StartTime 172800000000000 (by decide),
        finalAmount_two_days (storedTime req.StartTime) damage hd0
          (by rcases hdamage with h | h <;> omega)]
    · rw [if_neg hid] at hb0
      subst hb0
      exact absurd hbid hid

/-- Witness for C11: the sample car booked for two days, authorized and
returned, with damage cost 500 and with damage cost 0. -/
theorem booking_payment_return_flow_witness :
    ((ReturnCar sampleEnv "booking-1" ⟨some ⟨43000, 500⟩, some "tenant_acme"⟩
        (CreatePaymentIntent samplePayEnv ⟨some ⟨"booking-1", 20000⟩, some "tenant_acme"⟩
          (CreateBooking sampleEnv ⟨some sampleCreateTwoDays, some "tenant_acme"⟩
            (sampleWorld sampleDB)).world).world).resp = ⟨200, none⟩ ∧
      ∃ db3,
        (ReturnCar sampleEnv "booking-1" ⟨some ⟨43000, 500⟩, some "tenant_acme"⟩
          (CreatePaymentIntent samplePayEnv ⟨some ⟨"booking-1", 20000⟩, some "tenant_acme"⟩
            (CreateBooking sampleEnv ⟨some sampleCreateTwoDays, some "tenant_acme"⟩
              (sampleWorld sampleDB)).world).world).world.schemas "tenant_acme" = some db3 ∧
        carStatus db3 "car-1" = some "maintenance" ∧
        (∃ b ∈ db3.bookings, b.id = "booking-1") ∧
        ∀ b ∈ db3.bookings, b.id = "booking-1" →
          b.status = "completed" ∧ b.totalAmountCents = some 20500) ∧
    ((ReturnCar sampleEnv "booking-1" ⟨some ⟨43000, 0⟩, some "tenant_acme"⟩
        (CreatePaymentIntent samplePayEnv ⟨some ⟨"booking-1", 20000⟩, some "tenant_acme"⟩
          (CreateBooking sampleEnv ⟨some sampleCreateTwoDays, some "tenant_acme"⟩
            (sampleWorld sampleDB)).world).world).resp = ⟨200, none⟩ ∧
      ∃ db3,
        (ReturnCar sampleEnv "booking-1" ⟨some ⟨43000, 0⟩, some "tenant_acme"⟩
          (CreatePaymentIntent samplePayEnv ⟨some ⟨"booking-1", 20000⟩, some "tenant_acme"⟩
            (CreateBooking sampleEnv ⟨some sampleCreateTwoDays, some "tenant_acme"⟩
              (sampleWorld sampleDB)).world).world).world.schemas "tenant_acme" = some db3 ∧
        carStatus db3 "car-1" = some "available" ∧
        (∃ b ∈ db3.bookings, b.id = "booking-1") ∧
        ∀ b ∈ db3.bookings, b.id = "booking-1" →
          b.status = "completed" ∧ b.totalAmountCents = some 20000) :=
  ⟨booking_payment_return_flow sampleEnv sampleEnv samplePayEnv sampleCreateTwoDays
      "tenant_acme" (sampleWorld sampleDB) sampleDB sampleCar sampleCustomer sampleIntent 20000
      43000 500 rfl rfl (fun _ => rfl) rfl rfl rfl rfl rfl rfl rfl rfl (fun _ => rfl) rfl rfl
      rfl rfl rfl rfl rfl (by simp [sampleDB]) (by simp [sampleDB]) rfl (by decide)
      (Or.inr rfl),
    booking_payment_return_flow sampleEnv sampleEnv samplePayEnv sampleCreateTwoDays
      "tenant_acme" (sampleWorld sampleDB) sampleDB sampleCar sampleCustomer sampleIntent 20000
      43000 0 rfl rfl (fun _ => rfl) rfl rfl rfl rfl rfl rfl rfl rfl (fun _ => rfl) rfl rfl
      rfl rfl rfl rfl rfl (by simp [sampleDB]) (by simp [sampleDB]) rfl (by decide)
      (Or.inl rfl)⟩

/-! ## UpdateCar and the repository -/

/-- C13: for every car the repository reads with status `rented`, an
`UpdateCar` request whose form decodes with the status `available` is answered
400 with the error code `ERR_INVALID_TRANSITION`, whatever the other fields of
the form are; the handler has then made no call beyond the read of the car (no
upload, no UPDATE) and the world is as before. -/
theorem updateCar_rented_to_available (env : CarEnv) (r : CarRequest) (w : World)
    (id tenantID schema : String) (db : DB) (car : Car) (form : CarForm)
    (hid : env.parseUUID r.id = some id)
    (htenant : r.tenant = some tenantID) (hne : tenantID ≠ "")
    (hbegin : env.get.beginFails = false) (hquery : env.get.queryFails = false)
    (hcommit : env.get.commitFails = false)
    (hpath : env.get.searchPath tenantID = some schema)
    (hdb : w.schemas schema = some db)
    (hcar : (db.cars.find? fun c => c.id = id) = some car)
    (hrented : car.status = CarStatusRented)
    (hform : r.form = some form) (hstatus : form.status = CarStatusAvailable) :
    (UpdateCar env r w).resp = ⟨400, invalidTransitionBody⟩ ∧
      invalidTransitionBody
        = .object [("code", "ERR_INVALID_TRANSITION"),
            ("message", "Car cannot go from Rented to Available. Must be Inspected first."),
            ("status", "error")] ∧
      (UpdateCar env r w).world = w ∧
      (UpdateCar env r w).trace
        = [.db .txBegin, .sql (repoSearchPath tenantID), .sql getByIDQuery, .db .commit] := by
  have hget : CarRepository.GetByID env.get r.tenant id w
      = ⟨some car.scan, w,
          [.db .txBegin, .sql (repoSearchPath tenantID), .sql getByIDQuery, .db .commit]⟩ := by
    simp [CarRepository.GetByID, hbegin, htenant, hne, hpath, hdb, hquery, hcar, hcommit]
  have hscan : car.scan.Status = CarStatusRented := hrented
  refine ⟨?_, rfl, ?_, ?_⟩ <;>
    simp [UpdateCar, hid, hget, hform, hscan, hstatus]

/-- Witness for C13: the request to make the rented sample car available. -/
theorem updateCar_rented_to_available_witness :
    (UpdateCar sampleCarEnv sampleCarRequest (sampleWorld sampleDBRented)).resp
        = ⟨400, invalidTransitionBody⟩ ∧
      (UpdateCar sampleCarEnv sampleCarRequest (sampleWorld sampleDBRented)).world
        = sampleWorld sampleDBRented :=
  have h := updateCar_rented_to_available sampleCarEnv sampleCarRequest
    (sampleWorld sampleDBRented) "car-1" "tenant_acme" "tenant_acme" sampleDBRented
    sampleCarRented ⟨"Tesla", "", "", "available", true⟩ rfl rfl (by decide) rfl rfl rfl rfl rfl
    rfl rfl rfl rfl
  ⟨h.1, h.2.2.1⟩

/-- C16 fails on the repository: for the tenant identifier `acme-rentals`,
`CarRepository.GetByID` and `CarRepository.Update` execute the statement
`SET LOCAL search_path TO acme-rentals`, the identifier as it stands, while
`RunInTenantScope` executes `SET LOCAL search_path TO "acme-rentals"`, built
from the sanitized identifier. -/
theorem carRepository_raw_search_path :
    (CarRepository.GetByID sampleRepoEnv (some "acme-rentals") "car-1"
        (sampleWorld sampleDB)).trace
        = [.db .txBegin, .sql "SET LOCAL search_path TO acme-rentals", .db .rollback] ∧
      (CarRepository.Update sampleRepoEnv (some "acme-rentals") sampleCar.scan
        (sampleWorld sampleDB)).trace
        = [.db .txBegin, .sql "SET LOCAL search_path TO acme-rentals", .db .rollback] ∧
      scopeSearchPath "acme-rentals" = "SET LOCAL search_path TO \"acme-rentals\"" ∧
      repoSearchPath "acme-rentals" = "SET LOCAL search_path TO acme-rentals" ∧
      repoSearchPath "acme-rentals" ≠ scopeSearchPath "acme-rentals" := by
  decide

/-! ## Terminal bookings -/

/-- C12: for every booking row whose status is `completed` or `cancelled`, in
a partition whose booking keys are unique, and every call of `CreateBooking`,
`PublicBook`, `ReturnCar`, `CreatePaymentIntent`, `HandleStripeWebhook` or
`UpdateCar` (any request, any tenant, any environment), the row is in place
after the call with every field as before. -/
theorem terminal_booking_unchanged (op : Operation) (w : World) (t : String) (db : DB)
    (i : Nat) (b : Booking)
    (hdb : w.schemas t = some db)
    (hkey : ∀ b1 ∈ db.bookings, ∀ b2 ∈ db.bookings, b1.id = b2.id → b1 = b2)
    (hrow : db.bookings[i]? = some b)
    (hterminal : b.status = "completed" ∨ b.status = "cancelled") :
    ∃ db1, (op.run w).schemas t = some db1 ∧ db1.bookings[i]? = some b := by
  have hkeep : ∀ w1, KeepsBookings w w1 →
      ∃ db1, w1.schemas t = some db1 ∧ db1.bookings[i]? = some b := by
    intro w1 h
    obtain ⟨db1, extra, hs, hb⟩ := h t db hdb
    refine ⟨db1, hs, ?_⟩
    obtain ⟨hlt, -⟩ := List.getElem?_eq_some.mp hrow
    rw [hb, List.getElem?_append_left hlt]
    exact hrow
  cases op with
  | createBooking env r => exact hkeep _ (createBooking_keeps env r w)
  | publicBook env r => exact hkeep _ (publicBook_keeps env r w)
  | returnCar env bookingID r =>
    exact returnCar_terminal env bookingID r w t db i b hdb hkey hrow hterminal
  | createPaymentIntent env r => exact hkeep _ (createPaymentIntent_keeps env r w)
  | handleStripeWebhook env r => exact hkeep _ (handleStripeWebhook_keeps env r w)
  | updateCar env r => exact hkeep _ (updateCar_keeps env r w)

/-- Witness for C12: a second return of the completed sample booking, with a
damage cost of 500, leaves its row as it was. -/
theorem terminal_booking_unchanged_witness :
    ∃ db1, ((Operation.returnCar sampleEnv "booking-1"
        ⟨some ⟨50000, 500⟩, some "tenant_acme"⟩).run (sampleWorld sampleDBCompleted)).schemas
          "tenant_acme" = some db1 ∧
      db1.bookings[0]? = some sampleBookingCompleted :=
  terminal_booking_unchanged _ (sampleWorld sampleDBCompleted) "tenant_acme" sampleDBCompleted 0
    sampleBookingCompleted rfl (by simp [sampleDBCompleted]) rfl (Or.inl rfl)

/-! ## The idempotency key of the capture -/

/-- C26: every capture `ReturnCar` requests for a booking carries the
idempotency key `"capture_"` followed by the booking id, whatever the request
(odometer, damage cost), the environment, the world and the amount computed
are; and the keys of two distinct booking ids differ. -/
theorem returnCar_idempotency_key (env : Env) (bookingID : String)
    (r : Request ReturnCarRequest) (w : World) :
    (∀ intent key amount ok,
        Effect.capture intent key amount ok ∈ (ReturnCar env bookingID r w).trace →
          key = "capture_" ++ bookingID) ∧
      captureKey bookingID = "capture_" ++ bookingID ∧
      ∀ other, other ≠ bookingID → captureKey other ≠ captureKey bookingID := by
  refine ⟨?_, rfl, fun other hne h => hne (captureKey_injective _ _ h)⟩
  intro intent key amount ok h
  cases hbody : r.body with
  | none => simp [ReturnCar, hbody] at h
  | some req =>
    by_cases hneg : req.DamageCostCents < 0
    · simp [ReturnCar, hbody, hneg] at h
    · cases htenant : r.tenant with
      | none => simp [ReturnCar, hbody, hneg, htenant] at h
      | some tid =>
        rw [(returnCar_eq_scope env bookingID r w req tid hbody hneg htenant).1] at h
        rcases mem_scope_trace env tid _ w _ h with h1 | h1 | h1 | h1 | h1
        · cases h1
        · cases h1
        · cases h1
        · cases h1
        · unfold scopedWork at h1
          split at h1 <;> exact returnCarWork_capture_key _ _ _ _ _ _ _ _ _ _ h1

set_option maxRecDepth 100000 in
/-- Witness for C26: the capture of the return of the sample booking. -/
theorem returnCar_idempotency_key_witness :
    Effect.capture "pi_1" "capture_booking-1" 20000 true
        ∈ (ReturnCar sampleEnv "booking-1" ⟨some sampleReturn, some "tenant_acme"⟩
            (sampleWorld sampleDBBooked)).trace ∧
      "capture_booking-1" = "capture_" ++ "booking-1" :=
  have hmem : Effect.capture "pi_1" "capture_booking-1" 20000 true
      ∈ (ReturnCar sampleEnv "booking-1" ⟨some sampleReturn, some "tenant_acme"⟩
          (sampleWorld sampleDBBooked)).trace := by decide
  ⟨hmem, (returnCar_idempotency_key sampleEnv "booking-1"
    ⟨some sampleReturn, some "tenant_acme"⟩ (sampleWorld sampleDBBooked)).1
      "pi_1" "capture_booking-1" 20000 true hmem⟩

/-! ## Replayed events and the lookup that fails -/

/-- C22: for every request of the webhook, every environment and every world,
processing the request a second time right after the first leaves the world
of the first time and gives the answer of the first time; for a verified
event of type `payment_intent.amount_capturable_updated` with storage working
that answer is 200 both times and the payments of its authorization are
`authorized`. -/
theorem webhook_replay_idempotent (env : HookEnv) (r : WebhookRequest) (w : World) :
    (HandleStripeWebhook env r (HandleStripeWebhook env r w).world).world
        = (HandleStripeWebhook env r w).world ∧
      (HandleStripeWebhook env r (HandleStripeWebhook env r w).world).resp
        = (HandleStripeWebhook env r w).resp ∧
      ∀ event intent db,
        env.readFails = false → r.body.utf8ByteSize ≤ MaxBodyBytes →
        env.constructEvent r.body r.signature = some event →
        event.type = "payment_intent.amount_capturable_updated" →
        event.data = some intent → intent.tenantID ≠ "" →
        env.scope.beginFails = false → env.scope.setSearchPathFails = false →
        env.scope.stmtFails 0 = false → env.scope.commitFails = false →
        w.schemas intent.tenantID = some db →
          (HandleStripeWebhook env r w).resp = ⟨200, .empty⟩ ∧
          (HandleStripeWebhook env r (HandleStripeWebhook env r w).world).resp
            = ⟨200, .empty⟩ ∧
          (HandleStripeWebhook env r w).world.schemas intent.tenantID
            = some (authorizePayment db intent.ID) := by
  have hmain : (HandleStripeWebhook env r (HandleStripeWebhook env r w).world).world
        = (HandleStripeWebhook env r w).world ∧
      (HandleStripeWebhook env r (HandleStripeWebhook env r w).world).resp
        = (HandleStripeWebhook env r w).resp := by
    by_cases hread : env.readFails = true ∨ MaxBodyBytes < r.body.utf8ByteSize
    · simp [HandleStripeWebhook, hread]
    · cases hev : env.constructEvent r.body r.signature with
      | none => simp [HandleStripeWebhook, hread, hev]
      | some event =>
        by_cases htype : event.type = "payment_intent.amount_capturable_updated"
        · cases hdata : event.data with
          | none => simp [HandleStripeWebhook, hread, hev, htype, hdata]
          | some intent =>
            by_cases hten : intent.tenantID = ""
            · simp [HandleStripeWebhook, hread, hev, htype, hdata, hten]
            · have hform : ∀ w1, (HandleStripeWebhook env r w1).world
                    = (RunInTenantScope env.scope intent.tenantID (authorizeWork intent.ID)
                        w1).world ∧
                  (HandleStripeWebhook env r w1).resp
                    = (match (RunInTenantScope env.scope intent.tenantID
                        (authorizeWork intent.ID) w1).result with
                      | .error _ => ⟨500, .empty⟩
                      | .ok _ => ⟨200, .empty⟩) := by
                intro w1
                simp only [HandleStripeWebhook, hread, hev, htype, hdata, hten, if_false,
                  if_true]
                cases (RunInTenantScope env.scope intent.tenantID (authorizeWork intent.ID)
                  w1).result <;> simp
              obtain ⟨hres, hworld⟩ :=
                authorize_scope_idem env.scope intent.tenantID intent.ID w
              rw [(hform w).1, (hform _).1, (hform _).2, (hform w).2, hres, hworld]
              exact ⟨rfl, rfl⟩
        · simp [HandleStripeWebhook, hread, hev, htype]
  refine ⟨hmain.1, hmain.2, ?_⟩
  intro event intent db hr hsize hev htype hdata hten hb hs h0 hc hdb
  have hread : ¬ (env.readFails = true ∨ MaxBodyBytes < r.body.utf8ByteSize) := by
    rintro (h | h)
    · rw [hr] at h
      cases h
    · omega
  have h1 : (HandleStripeWebhook env r w).resp = ⟨200, .empty⟩ := by
    simp [HandleStripeWebhook, hread, hev, htype, hdata, hten, RunInTenantScope, hb, hs, hc,
      hdb, authorizeWork, h0]
  refine ⟨h1, by rw [hmain.2, h1], ?_⟩
  simp [HandleStripeWebhook, hread, hev, htype, hdata, hten, RunInTenantScope, hb, hs, hc,
    hdb, authorizeWork, h0, World.setSchema]

/-- Witness for C22: the verified sample event, processed twice. -/
theorem webhook_replay_idempotent_witness :
    (HandleStripeWebhook sampleHookEnv sampleVerified
        (sampleWorld sampleDBPendingAuth)).resp = ⟨200, .empty⟩ ∧
      (HandleStripeWebhook sampleHookEnv sampleVerified
        (HandleStripeWebhook sampleHookEnv sampleVerified
          (sampleWorld sampleDBPendingAuth)).world).resp = ⟨200, .empty⟩ ∧
      (HandleStripeWebhook sampleHookEnv sampleVerified
        (sampleWorld sampleDBPendingAuth)).world.schemas "tenant_acme"
        = some (authorizePayment sampleDBPendingAuth "pi_1") :=
  (webhook_replay_idempotent sampleHookEnv sampleVerified
    (sampleWorld sampleDBPendingAuth)).2.2 _ sampleIntent sampleDBPendingAuth rfl (by decide)
    rfl rfl rfl (by decide) rfl rfl rfl rfl rfl

/-- C30: in `CreatePaymentIntent` the existing authorization is retrieved
exactly when the lookup returns a reference that is not empty; whenever the
lookup returns an error, whatever the error is, the handler goes on as for a
booking without payment: it requests one new authorization and, when the
processor grants it, runs the unit of work that inserts the payment row, whose
INSERT is issued as soon as its transaction has begun and its partition is
set. -/
theorem createPaymentIntent_lookup_error (env : PayEnv) (r : Request CreateIntentRequest)
    (req : CreateIntentRequest) (tenantID : String) (w : World)
    (hbody : r.body = some req) (hamount : 0 < req.Amount)
    (htenant : r.tenant = some tenantID) :
    ((∃ id, Call.intentGet id ∈ (CreatePaymentIntent env r w).trace) ↔
        ∃ id, (RunInTenantScope env.lookup tenantID (existingIntentWork req.BookingID)
          w).result = .ok id ∧ id ≠ "") ∧
      ∀ e, (RunInTenantScope env.lookup tenantID (existingIntentWork req.BookingID)
          w).result = .error e →
        CreatePaymentIntent env r w
          = createNewIntent env tenantID req
              (RunInTenantScope env.lookup tenantID (existingIntentWork req.BookingID)
                w).world
              ((RunInTenantScope env.lookup tenantID (existingIntentWork req.BookingID)
                w).trace.map Call.db) ∧
        intentRequests (CreatePaymentIntent env r w).trace = [intentParams tenantID req] ∧
        ∀ intent, env.newIntent (intentParams tenantID req) = some intent →
          (CreatePaymentIntent env r w).trace
            = (RunInTenantScope env.lookup tenantID (existingIntentWork req.BookingID)
                w).trace.map Call.db ++ [.intentNew (intentParams tenantID req)] ++
              (RunInTenantScope env.store tenantID (storeIntentWork req intent)
                (RunInTenantScope env.lookup tenantID (existingIntentWork req.BookingID)
                  w).world).trace.map Call.db ∧
          (env.store.beginFails = false → env.store.setSearchPathFails = false →
            Call.db (.insert "payments") ∈ (CreatePaymentIntent env r w).trace) := by
  constructor
  · cases hres : (RunInTenantScope env.lookup tenantID (existingIntentWork req.BookingID)
        w).result with
    | error e =>
      have hform : CreatePaymentIntent env r w = createNewIntent env tenantID req
          (RunInTenantScope env.lookup tenantID (existingIntentWork req.BookingID) w).world
          ((RunInTenantScope env.lookup tenantID (existingIntentWork req.BookingID)
            w).trace.map Call.db) := by
        simp only [CreatePaymentIntent, hbody, not_le.mpr hamount, htenant, hres, if_false]
      rw [hform]
      constructor
      · rintro ⟨id, hid⟩
        exact absurd hid (createNewIntent_no_get _ _ _ _ _ _)
      · rintro ⟨id, hid, -⟩
        cases hid
    | ok id =>
      by_cases hid : id = ""
      · have hform : CreatePaymentIntent env r w = createNewIntent env tenantID req
          (RunInTenantScope env.lookup tenantID (existingIntentWork req.BookingID) w).world
          ((RunInTenantScope env.lookup tenantID (existingIntentWork req.BookingID)
            w).trace.map Call.db) := by
          simp only [CreatePaymentIntent, hbody, not_le.mpr hamount, htenant, hres, hid,
            if_false, ne_eq, not_true_eq_false]
        rw [hform]
        constructor
        · rintro ⟨id1, h1⟩
          exact absurd h1 (createNewIntent_no_get _ _ _ _ _ _)
        · rintro ⟨id1, h1, h2⟩
          cases h1
          exact absurd hid h2
      · constructor
        · intro _
          exact ⟨id, rfl, hid⟩
        · intro _
          refine ⟨id, ?_⟩
          cases hg : env.getIntent id <;>
            simp [CreatePaymentIntent, hbody, not_le.mpr hamount, htenant, hres, hid, hg]
  · intro e hres
    have hform : CreatePaymentIntent env r w = createNewIntent env tenantID req
        (RunInTenantScope env.lookup tenantID (existingIntentWork req.BookingID) w).world
        ((RunInTenantScope env.lookup tenantID (existingIntentWork req.BookingID)
          w).trace.map Call.db) := by
      simp only [CreatePaymentIntent, hbody, not_le.mpr hamount, htenant, hres, if_false]
    refine ⟨hform, ?_, ?_⟩
    · rw [hform]
      exact createNewIntent_requests _ _ _ _ _
    · intro intent hn
      have htrace : (CreatePaymentIntent env r w).trace
          = (RunInTenantScope env.lookup tenantID (existingIntentWork req.BookingID)
              w).trace.map Call.db ++ [.intentNew (intentParams tenantID req)] ++
            (RunInTenantScope env.store tenantID (storeIntentWork req intent)
              (RunInTenantScope env.lookup tenantID (existingIntentWork req.BookingID)
                w).world).trace.map Call.db := by
        rw [hform]
        unfold createNewIntent
        simp only [hn]
        split <;> rfl
      refine ⟨htrace, ?_⟩
      intro hb hs
      rw [htrace]
      apply List.mem_append_right
      apply List.mem_map_of_mem
      have hwork : ∀ w1, Effect.insert "payments"
          ∈ (scopedWork env.store tenantID (storeIntentWork req intent) w1).trace := by
        intro w1
        unfold scopedWork
        cases w1.schemas tenantID with
        | none => simp [storeIntentWork]
        | some db => cases h0 : env.store.stmtFails 0 <;> simp [storeIntentWork, h0]
      cases hr : (scopedWork env.store tenantID (storeIntentWork req intent)
          (RunInTenantScope env.lookup tenantID (existingIntentWork req.BookingID)
            w).world).result with
      | error e1 =>
        rw [(runInTenantScope_trace_error _ _ _ _ e1 hb hs hr).2.2.2]
        simp [hwork]
      | ok v =>
        rw [runInTenantScope_trace_ok _ _ _ _ v hb hs hr]
        simp [hwork]

/-- Witness for C30: the sample booking has its payment row, the lookup cannot
begin its transaction, and the handler requests a second authorization and
inserts a second payment row. -/
theorem createPaymentIntent_lookup_error_witness :
    intentRequests (CreatePaymentIntent samplePayEnvLookupFails
        ⟨some sampleIntentRequest, some "tenant_acme"⟩ (sampleWorld sampleDBBooked)).trace
        = [intentParams "tenant_acme" sampleIntentRequest] ∧
      Call.db (.insert "payments") ∈ (CreatePaymentIntent samplePayEnvLookupFails
        ⟨some sampleIntentRequest, some "tenant_acme"⟩ (sampleWorld sampleDBBooked)).trace ∧
      (CreatePaymentIntent samplePayEnvLookupFails
        ⟨some sampleIntentRequest, some "tenant_acme"⟩
        (sampleWorld sampleDBBooked)).world.schemas "tenant_acme"
        = some { sampleDBBooked with
            payments := [samplePayment, ⟨"booking-1", "pi_2", 20000, "pending_auth"⟩] } :=
  have h := (createPaymentIntent_lookup_error samplePayEnvLookupFails
    ⟨some sampleIntentRequest, some "tenant_acme"⟩ sampleIntentRequest "tenant_acme"
    (sampleWorld sampleDBBooked) rfl (by decide) rfl).2 .beginFailed rfl
  ⟨h.2.1, (h.2.2 ⟨"pi_2", "pi_2_secret_def", "tenant_acme"⟩ rfl).2 rfl rfl, by decide⟩

/-! ## The partition-selection statement -/

/-- C27: for every tenant identifier the statement `RunInTenantScope` executes
is `SET LOCAL search_path TO ` followed by a double quote, the identifier with
its NUL bytes removed and each of its double quotes doubled, and a double
quote; read as SQL, that operand is one delimited identifier whose closing
quote is the last character of the statement (nothing of the input ends it
earlier and nothing follows it), and the schema it names is the identifier
without its NUL bytes; the statement holds no NUL byte. -/
theorem scopeSearchPath_quoted (tenantID : String) :
    scopeSearchPath tenantID = "SET LOCAL search_path TO " ++ Sanitize tenantID ∧
      (Sanitize tenantID).toList
        = '"' :: (((tenantID.toList.filter fun c => c ≠ Char.ofNat 0).flatMap
            fun c => if c = '"' then ['"', '"'] else [c]) ++ ['"']) ∧
      readIdentifier (Sanitize tenantID).toList
        = some (tenantID.toList.filter fun c => c ≠ Char.ofNat 0, []) ∧
      Char.ofNat 0 ∉ (scopeSearchPath tenantID).toList := by
  refine ⟨rfl, sanitize_toList tenantID, ?_, ?_⟩
  · rw [sanitize_toList]
    simp only [readIdentifier, if_true]
    exact readQuoted_doubled _
  · unfold scopeSearchPath
    simp only [String.toList, String.data_append, List.mem_append, not_or]
    exact ⟨by decide, sanitize_no_nul tenantID⟩

/-! ## The middlewares -/

/-- C28: for every host with more than two labels between dots that does not
start with `localhost` and whose first label is not `public`: when the tenant
directory has no row for the first label, `TenantMiddleware` answers 404 and
does not call the next handler; when it has one and the lookup is served, the
next handler runs with the `schema_name` of the first such row as tenant.  For
every other host the next handler runs with the tenant `public` and the
directory is not read. -/
theorem tenantMiddleware_resolution (env : Env) (host : String) (w : World) :
    ((Split host '.').length > 2 → HasPrefix host "localhost" = false →
        (Split host '.').headD "" ≠ "public" →
        ((w.tenants.find? fun t => t.subdomain = (Split host '.').headD "") = none →
          (TenantMiddleware env host w).served = .error 404 "Tenant not found") ∧
        ∀ tenant, (w.tenants.find? fun t => t.subdomain = (Split host '.').headD "")
            = some tenant → env.poolQueryFails = false →
          (TenantMiddleware env host w).served = .next tenant.schemaName ∧
          (TenantMiddleware env host w).trace = [.poolQuery "public.tenants"]) ∧
      (¬ ((Split host '.').length > 2 ∧ HasPrefix host "localhost" = false ∧
          (Split host '.').headD "" ≠ "public") →
        (TenantMiddleware env host w).served = .next "public" ∧
        (TenantMiddleware env host w).trace = []) := by
  constructor
  · intro hlen hloc hfirst
    have hsub : subdomainOf host = (Split host '.').headD "" := by
      unfold subdomainOf
      simp only [hlen, if_true]
    have hhost : host ≠ "localhost:8080" := by
      intro h
      rw [h] at hloc
      revert hloc
      decide
    have hc : ¬ (subdomainOf host = "public" ∨ host = "localhost:8080" ∨
        HasPrefix host "localhost" = true) := by
      rw [hsub]
      rintro (h | h | h)
      · exact hfirst h
      · exact hhost h
      · rw [hloc] at h
        cases h
    constructor
    · intro hnone
      unfold TenantMiddleware
      simp only [if_neg hc]
      rw [hsub, hnone]
      cases env.poolQueryFails <;> rfl
    · intro tenant hsome hq
      unfold TenantMiddleware
      simp only [if_neg hc]
      rw [hsub, hsome, hq]
      exact ⟨rfl, rfl⟩
  · intro h
    have hcond : subdomainOf host = "public" ∨ host = "localhost:8080" ∨
        HasPrefix host "localhost" = true := by
      by_cases hlen : (Split host '.').length > 2
      · by_cases hloc : HasPrefix host "localhost" = true
        · exact Or.inr (Or.inr hloc)
        · by_cases hfirst : (Split host '.').headD "" = "public"
          · left
            unfold subdomainOf
            simp only [hlen, if_true]
            exact hfirst
          · exact absurd ⟨hlen, by simpa using hloc, hfirst⟩ h
      · left
        unfold subdomainOf
        simp only [hlen, if_false]
    unfold TenantMiddleware
    simp only [if_pos hcond, and_self]

/-- Witness for C28: the host `acme.example.com` resolves to the schema of
the tenant `acme`, and the host `example.com` to `public`. -/
theorem tenantMiddleware_resolution_witness :
    ((TenantMiddleware sampleEnv "acme.example.com" (sampleWorld sampleDB)).served
        = .next "tenant_acme" ∧
      (TenantMiddleware sampleEnv "acme.example.com" (sampleWorld sampleDB)).trace
        = [.poolQuery "public.tenants"]) ∧
    ((TenantMiddleware sampleEnv "example.com" (sampleWorld sampleDB)).served
        = .next "public" ∧
      (TenantMiddleware sampleEnv "example.com" (sampleWorld sampleDB)).trace = []) :=
  ⟨((tenantMiddleware_resolution sampleEnv "acme.example.com" (sampleWorld sampleDB)).1
      (by decide) (by decide) (by decide)).2
      ⟨"11111111-1111-1111-1111-111111111111", "acme", "tenant_acme"⟩ (by decide) rfl,
    (tenantMiddleware_resolution sampleEnv "example.com" (sampleWorld sampleDB)).2
      (by decide)⟩

/-- C29: a request without `Authorization` header, or whose header is not
`Bearer`, one space and one token without space, gets 401 and the next handler
is not called.  For a request whose header has that form, whose token is
signed with an HMAC method, verifies and has not expired, and whose tenant is
resolved: the next handler is called when the claim `tenant_id` of the token
is a string equal to that tenant, and the answer is 403 without a call of the
next handler when the claim is absent, is not a string or differs.  Whenever
the next handler is called, the request is of that kind. -/
theorem authMiddleware_tenant_check (env : AuthEnv) (r : AuthRequest) :
    (r.authorization = "" →
        AuthMiddleware env r = .error 401 "Authorization header required") ∧
      ((¬ ∃ tok, r.authorization = "Bearer " ++ tok ∧ ' ' ∉ tok.toList) →
        ∃ message, AuthMiddleware env r = .error 401 message) ∧
      (∀ tok token tenantID, r.authorization = "Bearer " ++ tok → ' ' ∉ tok.toList →
        parseToken env tok = some token → r.tenant = some tenantID →
          (token.tenantID = some tenantID → AuthMiddleware env r = .next token.userID) ∧
          (token.tenantID ≠ some tenantID →
            AuthMiddleware env r
              = .error 403 "Token tenant mismatch (Cross-Tenant Replay Attempt)")) ∧
      ∀ u, AuthMiddleware env r = .next u →
        ∃ tok token tenantID, r.authorization = "Bearer " ++ tok ∧ ' ' ∉ tok.toList ∧
          parseToken env tok = some token ∧ r.tenant = some tenantID ∧
          token.tenantID = some tenantID ∧ u = token.userID := by
  refine ⟨?_, ?_, ?_, ?_⟩
  · intro h
    simp [AuthMiddleware, h]
  · intro hno
    by_cases h0 : r.authorization = ""
    · exact ⟨"Authorization header required", by simp [AuthMiddleware, h0]⟩
    · by_cases hfmt : (Split r.authorization ' ').length ≠ 2 ∨
          (Split r.authorization ' ').headD "" ≠ "Bearer"
      · exact ⟨"Invalid authorization header format",
          by simp only [AuthMiddleware, h0, hfmt, if_true, if_false]⟩
      · obtain ⟨h1, h2⟩ := bearer_of_split r.authorization hfmt
        exact absurd ⟨_, h1, h2⟩ hno
  · intro tok token tenantID hauth hsp hp ht
    have hne : ("Bearer " ++ tok) ≠ "" := by
      intro h
      have := congrArg String.data h
      simp [String.data_append] at this
    have hsplit := split_bearer tok hsp
    constructor
    · intro hten
      simp [AuthMiddleware, hauth, hne, hsplit, hp, ht, hten]
    · intro hten
      cases hc : token.tenantID with
      | none => simp [AuthMiddleware, hauth, hne, hsplit, hp, ht, hc]
      | some t =>
        have htne : t ≠ tenantID := fun e => hten (by rw [hc, e])
        simp [AuthMiddleware, hauth, hne, hsplit, hp, ht, hc, htne]
  · intro u hnext
    by_cases h0 : r.authorization = ""
    · simp [AuthMiddleware, h0] at hnext
    · by_cases hfmt : (Split r.authorization ' ').length ≠ 2 ∨
          (Split r.authorization ' ').headD "" ≠ "Bearer"
      · simp only [AuthMiddleware, h0, hfmt, if_true, if_false] at hnext
        cases hnext
      · obtain ⟨h1, h2⟩ := bearer_of_split r.authorization hfmt
        cases hp : parseToken env ((Split r.authorization ' ').getD 1 "") with
        | none =>
          simp only [AuthMiddleware, h0, hfmt, hp, if_false] at hnext
          cases hnext
        | some token =>
          cases ht : r.tenant with
          | none =>
            simp only [AuthMiddleware, h0, hfmt, hp, ht, if_false] at hnext
            cases hnext
          | some tenantID =>
            cases hc : token.tenantID with
            | none =>
              simp only [AuthMiddleware, h0, hfmt, hp, ht, hc, if_false] at hnext
              cases hnext
            | some t =>
              by_cases heq : t = tenantID
              · simp only [AuthMiddleware, h0, hfmt, hp, ht, hc, heq, if_false, ne_eq,
                  not_true_eq_false, Served.next.injEq] at hnext
                exact ⟨_, token, tenantID, h1, h2, hp, rfl, by rw [hc, heq], hnext.symm⟩
              · simp only [AuthMiddleware, h0, hfmt, hp, ht, hc, heq, if_false, if_true,
                  ne_eq, not_false_eq_true] at hnext
                cases hnext

/-- Witness for C29: the sample token under its own tenant and under another
one. -/
theorem authMiddleware_tenant_check_witness :
    AuthMiddleware sampleAuthEnv ⟨"Bearer good.jwt.token", some "tenant_acme"⟩
        = .next (some "user-1") ∧
      AuthMiddleware sampleAuthEnv ⟨"Bearer good.jwt.token", some "tenant_b"⟩
        = .error 403 "Token tenant mismatch (Cross-Tenant Replay Attempt)" :=
  ⟨((authMiddleware_tenant_check sampleAuthEnv
      ⟨"Bearer good.jwt.token", some "tenant_acme"⟩).2.2.1 "good.jwt.token" sampleToken
      "tenant_acme" rfl (by decide) rfl rfl).1 rfl,
    ((authMiddleware_tenant_check sampleAuthEnv
      ⟨"Bearer good.jwt.token", some "tenant_b"⟩).2.2.1 "good.jwt.token" sampleToken
      "tenant_b" rfl (by decide) rfl rfl).2 (by decide)⟩

/-! ## The conflict class, the times of a booking -/

set_option maxRecDepth 100000 in
/-- C25 fails on the code: the return of the completed sample booking is
answered 500, the status of a failed capture and of a missing booking, while
`CreateBooking` answers 409 for the rented sample car; the three answers of
`ReturnCar` differ in the error text only. -/
theorem returnCar_terminal_not_conflict :
    (ReturnCar sampleEnv "booking-1" ⟨some sampleReturn, some "tenant_acme"⟩
        (sampleWorld sampleDBCompleted)).resp = ⟨500, some .bookingAlreadyCompleted⟩ ∧
      (ReturnCar sampleEnvCaptureFails "booking-1" ⟨some sampleReturn, some "tenant_acme"⟩
        (sampleWorld sampleDBBooked)).resp = ⟨500, some .capturePaymentFailed⟩ ∧
      (ReturnCar sampleEnv "booking-404" ⟨some sampleReturn, some "tenant_acme"⟩
        (sampleWorld sampleDBBooked)).resp = ⟨500, some .bookingNotFoundOrPaymentMissing⟩ ∧
      (CreateBooking sampleEnv ⟨some sampleCreate, some "tenant_acme"⟩
        (sampleWorld sampleDBRented)).resp = ⟨409, some (.carNotAvailable "rented")⟩ := by
  decide

/-- C23, as stated, fails: on the sample partition `CreateBooking` for a
request that ends one day before it starts is answered 201 and inserts the
booking row with those times. -/
theorem createBooking_end_before_start :
    (CreateBooking sampleEnv ⟨some ⟨"car-1", "cust-1", 86400000000000, 0⟩, some "tenant_acme"⟩
        (sampleWorld sampleDB)).resp = ⟨201, none⟩ ∧
      (CreateBooking sampleEnv ⟨some ⟨"car-1", "cust-1", 86400000000000, 0⟩, some "tenant_acme"⟩
        (sampleWorld sampleDB)).world.schemas "tenant_acme"
        = some ⟨[sampleCarRented], [sampleCustomer],
            [⟨"booking-1", "car-1", "cust-1", 86400000000000, 0, "pending", none, none, none⟩],
            []⟩ := by
  decide

/-- C23, amended: the booking row `CreateBooking` or `PublicBook` creates
carries the start and the end of the request cut to whole microseconds; it has
its end later than its start when the end of the request is at least one
microsecond after its start, and its end is not later than its start when the
end of the request is not after its start. -/
theorem created_booking_times (env : Env) (w : World) (t : String) (db : DB)
    (hdb : w.schemas t = some db) :
    (∀ (r : Request CreateBookingRequest) (req : CreateBookingRequest), r.body = some req →
        ∃ db1, (CreateBooking env r w).world.schemas t = some db1 ∧
          (db1.bookings = db.bookings ∨
            ∃ b, db1.bookings = db.bookings ++ [b] ∧
              b.startTime = storedTime req.StartTime ∧ b.endTime = storedTime req.EndTime ∧
              (req.StartTime + 1000 ≤ req.EndTime → b.startTime < b.endTime) ∧
              (req.EndTime ≤ req.StartTime → b.endTime ≤ b.startTime))) ∧
      ∀ (r : PublicRequest) (req : PublicBookRequest), r.body = some req →
        ∃ db1, (PublicBook env r w).world.schemas t = some db1 ∧
          (db1.bookings = db.bookings ∨
            ∃ b, db1.bookings = db.bookings ++ [b] ∧
              b.startTime = storedTime req.StartDate ∧ b.endTime = storedTime req.EndDate ∧
              (req.StartDate + 1000 ≤ req.EndDate → b.startTime < b.endTime) ∧
              (req.EndDate ≤ req.StartDate → b.endTime ≤ b.startTime)) := by
  constructor
  · intro r req hbody
    cases htenant : r.tenant with
    | none => exact ⟨db, by simpa [CreateBooking, hbody, htenant] using hdb, Or.inl rfl⟩
    | some tid =>
      obtain ⟨db1, hs, hrows⟩ := scope_adds_row env tid (createBookingWork env req) w
        (fun b => b.startTime = storedTime req.StartTime ∧
          b.endTime = storedTime req.EndTime)
        (fun f d st a d1 h => ⟨_, ⟨rfl, rfl⟩, createBookingWork_row env req f d st a d1 h⟩)
        t db hdb
      have hworld : (CreateBooking env r w).world
          = (RunInTenantScope env tid (createBookingWork env req) w).world := by
        simp only [CreateBooking, hbody, htenant]
        cases (RunInTenantScope env tid (createBookingWork env req) w).result <;> rfl
      rw [hworld]
      refine ⟨db1, hs, ?_⟩
      rcases hrows with h | ⟨b, ⟨h2, h3⟩, h4⟩
      · exact Or.inl h
      · exact Or.inr ⟨b, h4, h2, h3,
          fun h => by rw [h2, h3]; exact storedTime_lt _ _ h,
          fun h => by rw [h2, h3]; exact storedTime_le_of_le _ _ h⟩
  · intro r req hbody
    have hcases : (PublicBook env r w).world = w ∨
        ∃ tid, (PublicBook env r w).world
          = (RunInTenantScope env tid (publicBookWork env req) w).world := by
      unfold PublicBook
      split
      · exact Or.inl rfl
      · split
        · exact Or.inl rfl
        · simp only [hbody]
          split
          · exact Or.inl rfl
          · split
            · exact Or.inl rfl
            · right
              rename_i _ tenant _
              refine ⟨tenant.schemaName, ?_⟩
              split <;> rfl
    rcases hcases with h | ⟨tid, h⟩
    · rw [h]
      exact ⟨db, hdb, Or.inl rfl⟩
    · rw [h]
      obtain ⟨db1, hs, hrows⟩ := scope_adds_row env tid (publicBookWork env req) w
        (fun b => b.startTime = storedTime req.StartDate ∧
          b.endTime = storedTime req.EndDate)
        (fun f d st a d1 h => by
          obtain ⟨cid, hc⟩ := publicBookWork_row env req f d st a d1 h
          exact ⟨_, ⟨rfl, rfl⟩, hc⟩)
        t db hdb
      refine ⟨db1, hs, ?_⟩
      rcases hrows with h | ⟨b, ⟨h2, h3⟩, h4⟩
      · exact Or.inl h
      · exact Or.inr ⟨b, h4, h2, h3,
          fun h => by rw [h2, h3]; exact storedTime_lt _ _ h,
          fun h => by rw [h2, h3]; exact storedTime_le_of_le _ _ h⟩

/-- Witness for C23: the one-day request for the sample car in the sample
world. -/
theorem created_booking_times_witness :
    (sampleWorld sampleDB).schemas "tenant_acme" = some sampleDB ∧
      ∃ db1, (CreateBooking sampleEnv ⟨some sampleCreate, some "tenant_acme"⟩
          (sampleWorld sampleDB)).world.schemas "tenant_acme" = some db1 ∧
        (db1.bookings = sampleDB.bookings ∨
          ∃ b, db1.bookings = sampleDB.bookings ++ [b] ∧
            b.startTime = storedTime sampleCreate.StartTime ∧
            b.endTime = storedTime sampleCreate.EndTime ∧
            (sampleCreate.StartTime + 1000 ≤ sampleCreate.EndTime → b.startTime < b.endTime) ∧
            (sampleCreate.EndTime ≤ sampleCreate.StartTime → b.endTime ≤ b.startTime)) :=
  ⟨rfl, (created_booking_times sampleEnv (sampleWorld sampleDB) "tenant_acme" sampleDB rfl).1
    ⟨some sampleCreate, some "tenant_acme"⟩ sampleCreate rfl⟩

/-! ## Captured payments -/

set_option maxRecDepth 100000 in
/-- C21, counterexample: the sample booking is returned, which captures its
payment; the event that confirms the authorization `pi_1` arrives after that,
and the payment row has the status `authorized` again. -/
theorem captured_payment_reauthorized :
    ((ReturnCar sampleEnv "booking-1" ⟨some sampleReturn, some "tenant_acme"⟩
        (sampleWorld sampleDBBooked)).world.schemas "tenant_acme").map
        (fun db => db.payments) = some [⟨"booking-1", "pi_1", 20000, "captured"⟩] ∧
      (HandleStripeWebhook sampleHookEnv sampleVerified
        (ReturnCar sampleEnv "booking-1" ⟨some sampleReturn, some "tenant_acme"⟩
          (sampleWorld sampleDBBooked)).world).resp = ⟨200, .empty⟩ ∧
      ((HandleStripeWebhook sampleHookEnv sampleVerified
        (ReturnCar sampleEnv "booking-1" ⟨some sampleReturn, some "tenant_acme"⟩
          (sampleWorld sampleDBBooked)).world).world.schemas "tenant_acme").map
        (fun db => db.payments) = some [⟨"booking-1", "pi_1", 20000, "authorized"⟩] := by
  decide

/-- C21, amended: a payment row whose status is `captured` is still at its
place, captured, for the same booking and the same authorization, after each
of `CreateBooking`, `PublicBook`, `ReturnCar`, `CreatePaymentIntent`,
`UpdateCar` and `CreateCar`, and after `HandleStripeWebhook` unless the request
carries a verified event of type `payment_intent.amount_capturable_updated`
for the partition and the authorization of the row; such an event, with
storage working, gives the row the status `authorized`. -/
theorem captured_payment_kept (w : World) (t : String) (db : DB) (i : Nat) (p : Payment)
    (hdb : w.schemas t = some db) (hrow : db.payments[i]? = some p)
    (hcap : p.status = "captured") :
    (∀ op : Operation,
        (∀ env r event intent, op = .handleStripeWebhook env r →
          env.constructEvent r.body r.signature = some event →
          event.type = "payment_intent.amount_capturable_updated" →
          event.data = some intent → intent.tenantID = t →
          intent.ID ≠ p.stripeIntentID) →
        ∃ db1 p1, (op.run w).schemas t = some db1 ∧ db1.payments[i]? = some p1 ∧
          p1.status = "captured" ∧ p1.bookingID = p.bookingID ∧
          p1.stripeIntentID = p.stripeIntentID) ∧
      (∀ env r, ∃ db1 p1, (CreateCar env r w).world.schemas t = some db1 ∧
          db1.payments[i]? = some p1 ∧ p1.status = "captured" ∧
          p1.bookingID = p.bookingID ∧ p1.stripeIntentID = p.stripeIntentID) ∧
      ∀ (env : HookEnv) (r : WebhookRequest) (event : Event) (intent : PaymentIntent),
        env.readFails = false → r.body.utf8ByteSize ≤ MaxBodyBytes →
        env.constructEvent r.body r.signature = some event →
        event.type = "payment_intent.amount_capturable_updated" →
        event.data = some intent → intent.tenantID = t → t ≠ "" →
        intent.ID = p.stripeIntentID →
        env.scope.beginFails = false → env.scope.setSearchPathFails = false →
        env.scope.stmtFails 0 = false → env.scope.commitFails = false →
        ∃ db1, (HandleStripeWebhook env r w).world.schemas t = some db1 ∧
          db1.payments[i]? = some { p with status := "authorized" } := by
  have hkeep : ∀ w1, Lifts (CapturedKept p.stripeIntentID) w w1 →
      ∃ db1 p1, w1.schemas t = some db1 ∧ db1.payments[i]? = some p1 ∧
        p1.status = "captured" ∧ p1.bookingID = p.bookingID ∧
        p1.stripeIntentID = p.stripeIntentID := by
    intro w1 h
    obtain ⟨db1, hs, hk⟩ := h.1 t db hdb
    obtain ⟨p1, h1, h2, h3, h4⟩ := hk i p hrow hcap rfl
    exact ⟨db1, p1, hs, h1, h2, h3, h4⟩
  have hr := capturedKept_refl p.stripeIntentID
  refine ⟨?_, ?_, ?_⟩
  · intro op hop
    cases op with
    | createBooking env r =>
      refine hkeep _ (createBooking_lifts _ hr env r w ?_)
      intro req f d st a d1 h
      rw [createBookingWork_shape env req f d st a d1 h]
      exact capturedKept_of_eq _ _ _ rfl
    | publicBook env r =>
      refine hkeep _ (publicBook_lifts _ hr env r w ?_)
      intro req f d st a d1 h
      obtain ⟨cid, customers, hc⟩ := publicBookWork_shape env req f d st a d1 h
      rw [hc]
      exact capturedKept_of_eq _ _ _ rfl
    | returnCar env bookingID r =>
      refine hkeep _ (returnCar_lifts _ hr env bookingID r w ?_)
      intro req f d st a d1 h
      obtain ⟨row, amount, hc⟩ := returnCarWork_shape env bookingID req f d st a d1 h
      rw [hc]
      exact capturedKept_setPaymentCaptured _ _ _ _
    | createPaymentIntent env r =>
      exact hkeep _ (createPaymentIntent_lifts _ hr (capturedKept_trans _) env r w
        (capturedKept_insertPayment _))
    | handleStripeWebhook env r =>
      rcases handleStripeWebhook_partition env r w t db hdb with h | ⟨event, intent, hev, htype,
        hdata, hten, h⟩
      · exact ⟨db, p, h, hrow, hcap, rfl, rfl⟩
      · have hne := hop env r event intent rfl hev htype hdata hten
        obtain ⟨p1, h1, h2, h3, h4⟩ :=
          capturedKept_authorizePayment p.stripeIntentID db intent.ID hne i p hrow hcap rfl
        exact ⟨_, p1, h, h1, h2, h3, h4⟩
    | updateCar env r =>
      exact hkeep _ (updateCar_lifts _ hr env r w
        (fun car d => capturedKept_of_eq _ _ _ rfl))
  · intro env r
    exact hkeep _ (createCar_lifts _ hr env r w (fun _ _ _ _ => capturedKept_of_eq _ _ _ rfl))
  · intro env r event intent hread hsize hev htype hdata hten ht hid hb hs h0 hc
    subst hten
    refine ⟨_, handleStripeWebhook_authorizes env r w event intent db hread hsize hev htype
      hdata ht hb hs h0 hc hdb, ?_⟩
    rw [hid]
    exact authorizePayment_row db i p hrow

set_option maxRecDepth 100000 in
/-- Witness for C21: the captured payment of the completed sample booking
after a request for a second authorization of the booking. -/
theorem captured_payment_kept_witness :
    (sampleWorld sampleDBCompleted).schemas "tenant_acme" = some sampleDBCompleted ∧
      sampleDBCompleted.payments[0]? = some ⟨"booking-1", "pi_1", 20000, "captured"⟩ ∧
      ∃ db1 p1, ((Operation.createPaymentIntent samplePayEnvLookupFails
          ⟨some sampleIntentRequest, some "tenant_acme"⟩).run
            (sampleWorld sampleDBCompleted)).schemas "tenant_acme" = some db1 ∧
        db1.payments[0]? = some p1 ∧ p1.status = "captured" ∧ p1.bookingID = "booking-1" ∧
        p1.stripeIntentID = "pi_1" :=
  ⟨rfl, rfl, (captured_payment_kept (sampleWorld sampleDBCompleted) "tenant_acme"
    sampleDBCompleted 0 ⟨"booking-1", "pi_1", 20000, "captured"⟩ rfl rfl rfl).1
      (.createPaymentIntent samplePayEnvLookupFails
        ⟨some sampleIntentRequest, some "tenant_acme"⟩)
      (fun _ _ _ _ h => Operation.noConfusion h)⟩

/-! ## The status of a car -/

/-- C24, counterexample: in the sample world, whose one car is `available`,
`UpdateCar` with the form value `sold` for `status` answers 200 and stores the
status `sold`, and `CreateCar` with the form value `rented` answers 200 and
creates a car whose status is `rented`. -/
theorem car_status_outside_set :
    (UpdateCar sampleCarEnv ⟨"car-1", some ⟨"", "", "", "sold", false⟩, some "tenant_acme"⟩
        (sampleWorld sampleDB)).resp.code = 200 ∧
      ((UpdateCar sampleCarEnv ⟨"car-1", some ⟨"", "", "", "sold", false⟩, some "tenant_acme"⟩
        (sampleWorld sampleDB)).world.schemas "tenant_acme").map
          (fun db => db.cars.map fun c => (c.id, c.status)) = some [("car-1", "sold")] ∧
      "sold" ∉ carStatuses ∧
      (CreateCar sampleCreateCarEnv ⟨some ⟨"Test", "Two", "CD-456", "rented", false⟩,
        some "tenant_acme"⟩ (sampleWorld sampleDB)).resp.code = 200 ∧
      ((CreateCar sampleCreateCarEnv ⟨some ⟨"Test", "Two", "CD-456", "rented", false⟩,
        some "tenant_acme"⟩ (sampleWorld sampleDB)).world.schemas "tenant_acme").map
          (fun db => db.cars.map fun c => (c.id, c.status))
        = some [("car-1", "available"), ("car-2", "rented")] := by
  decide

/-- C24, amended: when every car of every partition has one of the statuses
`available`, `rented`, `inspecting`, `maintenance`, that is still so after
`CreateBooking`, `PublicBook` and `ReturnCar`, and after `CreateCar` and
`UpdateCar` provided the form value `status` of the request (for `UpdateCar`,
when it is not empty) is one of the four; a car `CreateCar` creates has the
status of the form. -/
theorem car_status_closed (w : World) (hw : ValidWorld w) :
    (∀ op : CarOperation, (∀ s, op.formStatus = some s → s ∈ carStatuses) →
        ValidWorld (op.run w)) ∧
      ∀ (env : CreateCarEnv) (r : CreateCarRequest) (form : CarForm), r.form = some form →
        (CreateCar env r w).world = w ∨
          ∃ schema db c, w.schemas schema = some db ∧ c.status = form.status ∧
            (CreateCar env r w).world
              = w.setSchema schema { db with cars := db.cars ++ [c] } := by
  have hr : ∀ db : DB, ValidStatuses db → ValidStatuses db := fun _ h => h
  constructor
  · intro op hop
    cases op with
    | createCar env r =>
      refine validWorld_of_lifts w _ (createCar_lifts _ hr env r w ?_) hw
      intro form url db hform hv
      refine insertedCar_valid env db _ (hop form.status ?_) hv
      simp [CarOperation.formStatus, hform]
    | updateCar env r =>
      rcases updateCar_cases env r w with h | ⟨id, current, form, car, hget, hform, hst, h⟩
      · show ValidWorld (UpdateCar env r w).world
        rw [h]
        exact hw
      · show ValidWorld (UpdateCar env r w).world
        rw [h]
        have hcar : car.Status ∈ carStatuses := by
          rw [hst, applyForm_status]
          split
          · obtain ⟨schema, db, c, hdb, hc, he⟩ := getByID_some _ _ _ _ _ hget
            rw [he]
            exact hw schema db hdb c hc
          · rename_i hne
            exact hop form.status (by simp [CarOperation.formStatus, hform, hne])
        exact validWorld_of_lifts w _
          (update_lifts _ hr env.update r.tenant car w
            (fun db hv => updateCarRow_valid db car hcar hv)) hw
    | createBooking env r =>
      exact validWorld_of_lifts w _ (createBooking_lifts _ hr env r w
        (fun req f db st a db1 h => createBookingWork_valid env req f db st a db1 h)) hw
    | publicBook env r =>
      exact validWorld_of_lifts w _ (publicBook_lifts _ hr env r w
        (fun req f db st a db1 h => publicBookWork_valid env req f db st a db1 h)) hw
    | returnCar env bookingID r =>
      exact validWorld_of_lifts w _ (returnCar_lifts _ hr env bookingID r w
        (fun req f db st a db1 h => returnCarWork_valid env bookingID req f db st a db1 h)) hw
  · intro env r form hform
    have hcreate : ∀ car : CarValue, car.Status = form.status →
        (CarRepository.Create env r.tenant car w).world = w ∨
          ∃ schema db c, w.schemas schema = some db ∧ c.status = form.status ∧
            (CarRepository.Create env r.tenant car w).world
              = w.setSchema schema { db with cars := db.cars ++ [c] } := by
      intro car hcar
      unfold CarRepository.Create
      repeat' split
      all_goals first
        | exact Or.inl rfl
        | exact Or.inr ⟨_, _, insertedCar env car, by assumption, hcar, rfl⟩
    have hstore : ∀ url pre, (createCarStore env r.tenant form url w pre).world = w ∨
        ∃ schema db c, w.schemas schema = some db ∧ c.status = form.status ∧
          (createCarStore env r.tenant form url w pre).world
            = w.setSchema schema { db with cars := db.cars ++ [c] } := by
      intro url pre
      unfold createCarStore
      simp only
      split <;> exact hcreate _ rfl
    unfold CreateCar
    simp only [hform]
    repeat' split
    all_goals first
      | exact Or.inl rfl
      | exact hstore _ _

set_option maxRecDepth 100000 in
/-- Witness for C24: the sample car is made `inspecting` in the sample world
in which it is rented. -/
theorem car_status_closed_witness :
    ValidWorld (sampleWorld sampleDBRented) ∧
      ValidWorld ((CarOperation.updateCar sampleCarEnv
        ⟨"car-1", some ⟨"", "", "", "inspecting", false⟩, some "tenant_acme"⟩).run
          (sampleWorld sampleDBRented)) :=
  have hw : ValidWorld (sampleWorld sampleDBRented) := by
    intro t db h
    by_cases ht : t = "tenant_acme"
    · subst ht
      have he : sampleDBRented = db := Option.some.inj h
      rw [← he]
      decide
    · simp [sampleWorld, ht] at h
  ⟨hw, (car_status_closed (sampleWorld sampleDBRented) hw).1 _ (by
    intro s hs
    have he : "inspecting" = s := Option.some.inj hs
    rw [← he]
    decide)⟩
end RentalSaas
